import Mathlib

/-!
# ProDBG session protocol engine

A shallow embedding of `src/prodbg/session/session.cpp`: the session structure, the breakpoint
toggle scan, the local and remote protocol ticks, action dispatch and the view-plugin registry,
followed by theorems about them.

Conventions of the embedding

* Pointers to the four writers are values of `WriterRef`; the writers themselves are fields of the
  session, so that swapping `currentWriter` and `prevWriter` is an exchange of references.
* The binary codec (`PDWriter`, `PDReader`), the backend plugin, the view plugins and the remote
  connection are not part of `session.cpp`.  The codec is modelled at the level of events; the
  plugins and the connection are functions of an external world `W` collected in `Env`.
* Every call that leaves the session is recorded in a trace of `Call`s.
-/

namespace ProDBG

/-! ## Event streams -/

/-- Event tags read and written by the session.  `none` is the zero tag, the end-of-stream
sentinel; `other` stands for every tag `session.cpp` does not name. -/
inductive PDEventType
  | none
  | setBreakpoint
  | setExecutable
  | setExceptionLocation
  | toggleBreakpointCurrentLine
  | setStatus
  | other (tag : Nat)
  deriving DecidableEq, Repr

/-- Typed field values seen in the stream (string, u8, u32). -/
inductive PDValue
  | str (s : String)
  | u8 (n : Nat)
  | u32 (n : Nat)
  deriving DecidableEq, Repr

/-- One event: its tag and its named fields, in the order they were written. -/
structure PDEvent where
  type : PDEventType
  fields : List (String × PDValue)
  deriving DecidableEq, Repr

/-- Modelled from the spec: the writer half of the binary codec (`PDBinaryWriter_*`, `PDWrite_*`),
which is not part of `session.cpp`.  A writer holds the events written since its last reset,
the event being built between `eventBegin` and `eventEnd`, and whether it was finalized. -/
structure PDWriter where
  events : List PDEvent
  building : Option PDEvent
  finalized : Bool
  deriving DecidableEq, Repr

/-- Modelled from the spec: the reader half of the binary codec.  `data` and `size` are what
`PDBinaryReader_initStream` was last given, `stream` the events that lie within `size` bytes of
`data`, `pending` the events not yet returned by `PDRead_getEvent`, `current` the event whose
fields are read by the `PDRead_find*` functions. -/
structure PDReader where
  data : List PDEvent
  size : Nat
  stream : List PDEvent
  pending : List PDEvent
  current : Option PDEvent
  deriving DecidableEq, Repr

/-- Modelled from the spec: the events of a buffer that fit in `size` bytes, `used` bytes being
taken already; `sz` is the encoded size of an event, owned by the codec. -/
def fitEvents (sz : PDEvent → Nat) (size : Nat) : Nat → List PDEvent → List PDEvent
  | _, [] => []
  | used, e :: es => if used + sz e ≤ size then e :: fitEvents sz size (used + sz e) es else []

/-- Modelled from the spec: total encoded size of a list of events. -/
def eventsSize (sz : PDEvent → Nat) (es : List PDEvent) : Nat :=
  (es.map sz).sum

/-- Modelled from the spec: `PDBinaryWriter_init`, an empty writer. -/
def PDBinaryWriter_init : PDWriter :=
  { events := [], building := none, finalized := false }

/-- Modelled from the spec: `PDBinaryWriter_reset`, the writer is writable and empty again. -/
def PDBinaryWriter_reset (_w : PDWriter) : PDWriter :=
  { events := [], building := none, finalized := false }

/-- Modelled from the spec: `PDBinaryWriter_finalize` seals the framing, the content is kept. -/
def PDBinaryWriter_finalize (w : PDWriter) : PDWriter :=
  { w with finalized := true }

/-- Modelled from the spec: `PDBinaryWriter_getSize`, a 4 byte header followed by the events (an
empty writer has size 4). -/
def PDBinaryWriter_getSize (sz : PDEvent → Nat) (w : PDWriter) : Nat :=
  4 + eventsSize sz w.events

/-- Modelled from the spec: `PDBinaryWriter_getData`, the buffer of the writer. -/
def PDBinaryWriter_getData (w : PDWriter) : List PDEvent :=
  w.events

/-- Modelled from the spec: `PDWrite_eventBegin`. -/
def PDWrite_eventBegin (w : PDWriter) (event : PDEventType) : PDWriter :=
  { w with building := some { type := event, fields := [] } }

/-- Appends a field to the event being built; without an open event nothing is written. -/
def PDWriter.addField (w : PDWriter) (name : String) (v : PDValue) : PDWriter :=
  match w.building with
  | some e => { w with building := some { e with fields := e.fields ++ [(name, v)] } }
  | Option.none => w

/-- Modelled from the spec: `PDWrite_string`. -/
def PDWrite_string (w : PDWriter) (name : String) (value : String) : PDWriter :=
  w.addField name (PDValue.str value)

/-- Modelled from the spec: `PDWrite_u32`. -/
def PDWrite_u32 (w : PDWriter) (name : String) (value : Nat) : PDWriter :=
  w.addField name (PDValue.u32 (value % 2 ^ 32))

/-- Modelled from the spec: `PDWrite_u8`. -/
def PDWrite_u8 (w : PDWriter) (name : String) (value : Nat) : PDWriter :=
  w.addField name (PDValue.u8 (value % 2 ^ 8))

/-- Modelled from the spec: `PDWrite_eventEnd` appends the event being built to the buffer. -/
def PDWrite_eventEnd (w : PDWriter) : PDWriter :=
  match w.building with
  | some e => { w with events := w.events ++ [e], building := Option.none }
  | Option.none => w

/-- What a producer (backend or view plugin) does to the writer it is handed: it appends whole
events. -/
def PDWriter.append (w : PDWriter) (es : List PDEvent) : PDWriter :=
  { w with events := w.events ++ es }

/-- Modelled from the spec: `PDBinaryReader_init`, a reader that points at nothing. -/
def PDBinaryReader_init : PDReader :=
  { data := [], size := 0, stream := [], pending := [], current := Option.none }

/-- Modelled from the spec: `PDBinaryReader_initStream` points the reader at `data` with `size`
bytes, positioned at the start.  The C reader keeps the pointer `data`; the model keeps the events
the buffer holds when the reader is pointed at it.  The two agree for as long as the storage
pointed at is not rewritten: in `updateLocal` the reader is pointed at the buffer of
`prevWriter`, which no producer writes to before the reader is pointed anew, and in
`updateRemote` at the buffer `RemoteConnection_recvStream` returned, which the session never
writes to.  A reader that a local tick left pointing into a writer and that a remote tick then
uses without having received a payload is outside what the model describes: the statements
C9, C15 and C30 on what a reader shows in a remote tick take a reader pointed at a received
payload. -/
def PDBinaryReader_initStream (sz : PDEvent → Nat) (data : List PDEvent) (size : Nat) : PDReader :=
  { data := data, size := size, stream := fitEvents sz size 4 data,
    pending := fitEvents sz size 4 data, current := Option.none }

/-- Modelled from the spec: `PDBinaryReader_reset` moves the cursor back to the start of the
stream the reader points at. -/
def PDBinaryReader_reset (r : PDReader) : PDReader :=
  { r with pending := r.stream, current := Option.none }

/-- Modelled from the spec: `PDRead_getEvent` returns the tag of the next event and moves to it, or
the zero tag when the stream is exhausted. -/
def PDRead_getEvent (r : PDReader) : PDEventType × PDReader :=
  match r.pending with
  | [] => (PDEventType.none, r)
  | e :: es => (e.type, { r with pending := es, current := some e })

/-- What a consumer does to the reader it is handed: it moves the cursor over `n` events. -/
def PDReader.advance : Nat → PDReader → PDReader
  | 0, r => r
  | n + 1, r => PDReader.advance n (PDRead_getEvent r).2

/-- Looks a field up in a field list. -/
def lookupField (name : String) : List (String × PDValue) → Option PDValue
  | [] => Option.none
  | (n, v) :: rest => if n = name then some v else lookupField name rest

/-- Modelled from the spec: `PDRead_findString` on the current event.  The C function leaves its
result untouched when the field is missing; the model reads the empty string then. -/
def PDRead_findString (r : PDReader) (name : String) : String :=
  match r.current with
  | some e =>
    match lookupField name e.fields with
    | some (PDValue.str s) => s
    | _ => ""
  | Option.none => ""

/-- Modelled from the spec: `PDRead_findU32` on the current event, a value below `2 ^ 32`; a
missing field reads as 0 in the model. -/
def PDRead_findU32 (r : PDReader) (name : String) : Nat :=
  match r.current with
  | some e =>
    match lookupField name e.fields with
    | some (PDValue.u32 n) => n % 2 ^ 32
    | _ => 0
  | Option.none => 0

/-! ## The session -/

/-- Transport selector of a session (`Session_Null`, `Session_Local`, `Session_Remote`). -/
inductive SessionType
  | Session_Null
  | Session_Local
  | Session_Remote
  deriving DecidableEq, Repr

/-- Run state reported by the backend (`PDDebugState_*`). -/
inductive PDDebugState
  | noTarget
  | running
  | stopBreakpoint
  | stopException
  | trace
  deriving DecidableEq, Repr

/-- Verdict of a view plugin update (`PluginUIState_*`). -/
inductive PluginUIState
  | None
  | CloseView
  deriving DecidableEq, Repr

/-- Requested backend action, the integer value of the C enumeration `PDAction`. -/
abbrev PDAction := Nat

/-- Address of a `ViewPluginInstance`. -/
abbrev ViewPluginInstance := Nat

/-- Address of a `RemoteConnection`. -/
abbrev RemoteConnection := Nat

/-- The four writers a session owns, as the targets `currentWriter` and `prevWriter` can point
at. -/
inductive WriterRef
  | writer0
  | writer1
  | tempWriter0
  | tempWriter1
  deriving DecidableEq, Repr

/-- A backend instance: the plugin (its function table) and the user data it created. -/
structure PDBackendInstance where
  plugin : Nat
  userData : Nat
  deriving DecidableEq, Repr

/-- A breakpoint as the session stores it: a copy of the file name and the line as an `int`. -/
structure Breakpoint where
  filename : String
  line : Int
  deriving DecidableEq, Repr

/-- The `Session` structure. -/
structure Session where
  type : SessionType
  writer0 : PDWriter
  writer1 : PDWriter
  tempWriter0 : PDWriter
  tempWriter1 : PDWriter
  reader : PDReader
  currentWriter : WriterRef
  prevWriter : WriterRef
  backend : Option PDBackendInstance
  connection : Option RemoteConnection
  viewPlugins : List ViewPluginInstance
  breakpoints : List Breakpoint
  state : PDDebugState
  deriving DecidableEq, Repr

/-- Dereferences a writer pointer. -/
def Session.writer (s : Session) : WriterRef → PDWriter
  | WriterRef.writer0 => s.writer0
  | WriterRef.writer1 => s.writer1
  | WriterRef.tempWriter0 => s.tempWriter0
  | WriterRef.tempWriter1 => s.tempWriter1

/-- Stores through a writer pointer. -/
def Session.setWriter (s : Session) (ref : WriterRef) (w : PDWriter) : Session :=
  match ref with
  | WriterRef.writer0 => { s with writer0 := w }
  | WriterRef.writer1 => { s with writer1 := w }
  | WriterRef.tempWriter0 => { s with tempWriter0 := w }
  | WriterRef.tempWriter1 => { s with tempWriter1 := w }

/-- The C conversion `(int)line` of a `uint32_t`. -/
def castInt (line : Nat) : Int :=
  if line % 2 ^ 32 < 2 ^ 31 then ((line % 2 ^ 32 : Nat) : Int)
  else ((line % 2 ^ 32 : Nat) : Int) - 2 ^ 32

/-- The C conversion `(unsigned int)line` of an `int`. -/
def castUInt (line : Int) : Nat :=
  (line % 2 ^ 32).toNat

/-! ## The world outside the session -/

/-- What `backend->plugin->update` did: the run state it returned, how many events it read from
the reader and the events it wrote to the writer. -/
structure BackendResult where
  state : PDDebugState
  consumed : Nat
  written : List PDEvent
  deriving DecidableEq, Repr

/-- What `PluginUI_updateInstance` did: its verdict, how many events it read from the reader and
the events it wrote to the writer. -/
structure ViewResult where
  state : PluginUIState
  consumed : Nat
  written : List PDEvent
  deriving DecidableEq, Repr

/-- The four bytes `RemoteConnection_recv` stores in `cmd`. -/
structure Cmd where
  b0 : Nat
  b1 : Nat
  b2 : Nat
  b3 : Nat
  deriving DecidableEq, Repr

/-- The collaborators of the session, none of them part of `session.cpp`, as functions of an
external world `W`: the backend plugin, the view plugins, the remote connection, the encoded
size of an event and the values of the `PDAction` enumerators the session passes on. -/
structure Env (W : Type) where
  eventSize : PDEvent → Nat
  PDAction_none : PDAction
  PDAction_run : PDAction
  PDAction_step : PDAction
  PDAction_stepOver : PDAction
  createInstance : W → Nat → W × Nat
  backendUpdate : W → PDBackendInstance → PDAction → PDReader → PDWriter → W × BackendResult
  updateInstance : W → ViewPluginInstance → PDReader → PDWriter → W × ViewResult
  RemoteConnection_create : W → Nat → W × RemoteConnection
  RemoteConnection_connect : W → RemoteConnection → String → Nat → W × Bool
  RemoteConnection_destroy : W → RemoteConnection → W
  RemoteConnection_isConnected : W → Option RemoteConnection → W × Bool
  RemoteConnection_pollRead : W → RemoteConnection → W × Bool
  RemoteConnection_recv : W → RemoteConnection → Nat → W × Option Cmd
  RemoteConnection_recvStream : W → RemoteConnection → Int → W × List PDEvent
  RemoteConnection_sendStream : W → RemoteConnection → PDWriter → W
  RemoteConnection_send : W → Option RemoteConnection → List Nat → W

/-- A call made by the session, with what it was handed and, for producers, what it wrote.
`removeViewPlugin` records a call of `Session_removeViewPlugin`. -/
inductive Call
  | createInstance (plugin : Nat)
  | backendUpdate (backend : PDBackendInstance) (action : PDAction) (reader : PDReader)
      (ref : WriterRef) (writer : PDWriter) (result : BackendResult)
  | updateInstance (p : ViewPluginInstance) (reader : PDReader) (ref : WriterRef)
      (writer : PDWriter) (result : ViewResult)
  | connCreate (port : Nat)
  | connConnect (conn : RemoteConnection) (target : String) (port : Nat)
  | connDestroy (conn : RemoteConnection)
  | isConnected (conn : Option RemoteConnection)
  | pollRead (conn : RemoteConnection)
  | recv (conn : RemoteConnection) (size : Nat)
  | recvStream (conn : RemoteConnection) (size : Int)
  | sendStream (conn : RemoteConnection) (data : PDWriter)
  | send (conn : Option RemoteConnection) (command : List Nat)
  | removeViewPlugin (p : ViewPluginInstance)
  deriving DecidableEq, Repr

/-- The session together with what lives outside of it: the `markDeleted` flags of the view
plugin instances (the instances whose flag is set), the external world and the calls made so
far. -/
structure Sys (W : Type) where
  session : Session
  markDeleted : List ViewPluginInstance
  world : W
  trace : List Call

/-- Events a call wrote into the writer it was handed. -/
def Call.written : Call → List PDEvent
  | Call.backendUpdate _ _ _ _ _ res => res.written
  | Call.updateInstance _ _ _ _ res => res.written
  | _ => []

/-- The view plugin an `updateInstance` call was made on. -/
def Call.viewPlugin : Call → Option ViewPluginInstance
  | Call.updateInstance p _ _ _ _ => some p
  | _ => Option.none

/-- The reader an `updateInstance` call was handed. -/
def Call.viewReader : Call → Option PDReader
  | Call.updateInstance _ r _ _ _ => some r
  | _ => Option.none

/-- The writer an `updateInstance` call was handed. -/
def Call.viewWriter : Call → Option WriterRef
  | Call.updateInstance _ _ ref _ _ => some ref
  | _ => Option.none

/-! ## Session lifecycle -/

/-- The function `commonInit`. -/
def commonInit (s : Session) : Session :=
  { s with
    writer0 := PDBinaryWriter_init
    writer1 := PDBinaryWriter_init
    tempWriter0 := PDBinaryWriter_init
    tempWriter1 := PDBinaryWriter_init
    reader := PDBinaryReader_init
    currentWriter := WriterRef.writer0
    prevWriter := WriterRef.writer1 }

/-- Modelled from the spec: the object `new Session` yields, whose declaration (in
`session_private.h`) is missing: a session is created empty, without transport, views or
breakpoints.  The writer fields are overwritten by `commonInit`. -/
def newSession : Session :=
  { type := SessionType.Session_Null
    writer0 := PDBinaryWriter_init
    writer1 := PDBinaryWriter_init
    tempWriter0 := PDBinaryWriter_init
    tempWriter1 := PDBinaryWriter_init
    reader := PDBinaryReader_init
    currentWriter := WriterRef.writer0
    prevWriter := WriterRef.writer0
    backend := Option.none
    connection := Option.none
    viewPlugins := []
    breakpoints := []
    state := PDDebugState.noTarget }

/-- The function `Session_create`. -/
def Session_create : Session :=
  commonInit newSession

/-! ## Breakpoint toggle scan -/

/-- The search loop of `doToggleBreakpoint`: walks the list from the front and erases the first
entry whose line equals `line` and whose file name equals `filename`; `none` when the loop runs
to the end without a match. -/
def eraseFirstMatch (line : Int) (filename : String) : List Breakpoint → Option (List Breakpoint)
  | [] => Option.none
  | b :: rest =>
    if b.line = line ∧ b.filename = filename then some rest
    else
      match eraseFirstMatch line filename rest with
      | some rest' => some (b :: rest')
      | Option.none => Option.none

/-- The function `doToggleBreakpoint`: reads `filename` and `line` from the current event, removes
the first matching breakpoint, or appends a new one when none matches. -/
def doToggleBreakpoint (s : Session) (reader : PDReader) : Session :=
  let filename := PDRead_findString reader "filename"
  let line := PDRead_findU32 reader "line"
  match eraseFirstMatch (castInt line) filename s.breakpoints with
  | some rest => { s with breakpoints := rest }
  | Option.none =>
    let breakpoint : Breakpoint := { filename := filename, line := castInt line }
    { s with breakpoints := s.breakpoints ++ [breakpoint] }

/-- The `while` loop of `toggleBreakpoint`, at most `fuel` iterations. -/
def toggleBreakpointLoop : Nat → Session → PDReader → Session × PDReader
  | 0, s, reader => (s, reader)
  | fuel + 1, s, reader =>
    let (event, reader) := PDRead_getEvent reader
    if event ≠ PDEventType.none then
      match event with
      | PDEventType.setBreakpoint => toggleBreakpointLoop fuel (doToggleBreakpoint s reader) reader
      | _ => toggleBreakpointLoop fuel s reader
    else (s, reader)

/-- The function `toggleBreakpoint`.  The loop reads one event per iteration, so one iteration
more than there are pending events always reaches the end of the stream. -/
def toggleBreakpoint (s : Session) (reader : PDReader) : Session × PDReader :=
  toggleBreakpointLoop (reader.pending.length + 1) s reader

/-! ## Protocol ticks -/

variable {W : Type}

/-- The statement `s->state = backend->plugin->update(backend->userData, action, s->reader,
s->currentWriter)`. -/
def callBackendUpdate (env : Env W) (m : Sys W) (backend : PDBackendInstance)
    (action : PDAction) : Sys W :=
  let s := m.session
  let res := env.backendUpdate m.world backend action s.reader (s.writer s.currentWriter)
  let call := Call.backendUpdate backend action s.reader s.currentWriter
    (s.writer s.currentWriter) res.2
  let s := { s with reader := PDReader.advance res.2.consumed s.reader }
  let s := s.setWriter s.currentWriter ((s.writer s.currentWriter).append res.2.written)
  let s := { s with state := res.2.state }
  { m with session := s, world := res.1, trace := m.trace ++ [call] }

/-- The call `PluginUI_updateInstance(p, s->reader, s->currentWriter)`.  What the plugin writes
is appended to the buffer of `currentWriter`; the reader keeps the events it was pointed at (see
`PDBinaryReader_initStream`), which is what the C reader shows as long as it does not point into
the buffer of `currentWriter`. -/
def PluginUI_updateInstance (env : Env W) (m : Sys W) (p : ViewPluginInstance) :
    Sys W × PluginUIState :=
  let s := m.session
  let res := env.updateInstance m.world p s.reader (s.writer s.currentWriter)
  let call := Call.updateInstance p s.reader s.currentWriter (s.writer s.currentWriter) res.2
  let s := { s with reader := PDReader.advance res.2.consumed s.reader }
  let s := s.setWriter s.currentWriter ((s.writer s.currentWriter).append res.2.written)
  ({ m with session := s, world := res.1, trace := m.trace ++ [call] }, res.2.state)

/-- The function `UIDock_deleteView` of `ui_dock.cpp`, whose body is commented out. -/
def UIDock_deleteView (m : Sys W) (_view : ViewPluginInstance) : Sys W :=
  m

/-- One iteration of the view plugin loop of `updateLocal` and `updateRemote`. -/
def updateViewPlugin (env : Env W) (m : Sys W) (p : ViewPluginInstance) : Sys W :=
  let (m, state) := PluginUI_updateInstance env m p
  let m :=
    if state = PluginUIState.CloseView then
      let m := UIDock_deleteView m p
      { m with markDeleted := p :: m.markDeleted }
    else m
  { m with session := { m.session with reader := PDBinaryReader_reset m.session.reader } }

/-- The view plugin loop `for (int i = 0; i < len; ++i)` over `s->viewPlugins`. -/
def updateViewPlugins (env : Env W) (m : Sys W) : Sys W :=
  m.session.viewPlugins.foldl (updateViewPlugin env) m

/-- The function `updateLocal`. -/
def updateLocal (env : Env W) (m : Sys W) (action : PDAction) : Sys W :=
  let s := m.session
  let s := s.setWriter s.currentWriter (PDBinaryWriter_finalize (s.writer s.currentWriter))
  let temp := s.currentWriter
  let s := { s with currentWriter := s.prevWriter }
  let s := { s with prevWriter := temp }
  let reqDataSize := PDBinaryWriter_getSize env.eventSize (s.writer s.prevWriter)
  let backend := s.backend
  let s := { s with reader := PDBinaryReader_reset s.reader }
  let reqDataSize := if s.state = PDDebugState.running then 0 else reqDataSize
  let data := PDBinaryWriter_getData (s.writer s.prevWriter)
  let s := { s with reader := PDBinaryReader_initStream env.eventSize data reqDataSize }
  let s := s.setWriter s.currentWriter (PDBinaryWriter_reset (s.writer s.currentWriter))
  let m := { m with session := s }
  let m :=
    match backend with
    | some b => callBackendUpdate env m b action
    | Option.none => m
  let s := m.session
  let data := PDBinaryWriter_getData (s.writer s.prevWriter)
  let size := PDBinaryWriter_getSize env.eventSize (s.writer s.prevWriter)
  let s := { s with reader := PDBinaryReader_initStream env.eventSize data size }
  let s := { s with reader := PDBinaryReader_reset s.reader }
  let m := updateViewPlugins env { m with session := s }
  let res := toggleBreakpoint m.session m.session.reader
  { m with session := { res.1 with reader := res.2 } }

/-- The statement `totalSize = (cmd[0] << 24) | (cmd[1] << 16) | (cmd[2] << 8) | cmd[3]` on four
`uint8_t`, the result an `int`. -/
def decodeTotalSize (cmd : Cmd) : Int :=
  castInt ((((cmd.b0 % 256) <<< 24) ||| ((cmd.b1 % 256) <<< 16)) ||| ((cmd.b2 % 256) <<< 8)
    ||| (cmd.b3 % 256))

/-- The receive step of `updateRemote`, run when `RemoteConnection_pollRead` reported data. -/
def remoteReceive (env : Env W) (m : Sys W) (conn : RemoteConnection) : Sys W :=
  let rc := env.RemoteConnection_recv m.world conn 4
  let m := { m with world := rc.1, trace := m.trace ++ [Call.recv conn 4] }
  match rc.2 with
  | some cmd =>
    let totalSize := decodeTotalSize cmd
    let rs := env.RemoteConnection_recvStream m.world conn totalSize
    let reader := PDBinaryReader_initStream env.eventSize rs.2 (castUInt totalSize)
    { m with session := { m.session with reader := reader }, world := rs.1,
             trace := m.trace ++ [Call.recvStream conn totalSize] }
  | Option.none => m

/-- The transmit step of `updateRemote`, after the writers were swapped. -/
def remoteSend (env : Env W) (m : Sys W) (conn : RemoteConnection) : Sys W :=
  let s := m.session
  if PDBinaryWriter_getSize env.eventSize (s.writer s.prevWriter) > 4 then
    let ic := env.RemoteConnection_isConnected m.world (some conn)
    let m := { m with world := ic.1, trace := m.trace ++ [Call.isConnected (some conn)] }
    if ic.2 then
      let w := env.RemoteConnection_sendStream m.world conn (s.writer s.prevWriter)
      { m with world := w, trace := m.trace ++ [Call.sendStream conn (s.writer s.prevWriter)] }
    else m
  else m

/-- The function `updateRemote`. -/
def updateRemote (env : Env W) (m : Sys W) (_action : PDAction) : Sys W :=
  match m.session.connection with
  | Option.none => m
  | some conn =>
    let m := { m with session := { m.session with reader := PDBinaryReader_reset m.session.reader } }
    let poll := env.RemoteConnection_pollRead m.world conn
    let m := { m with world := poll.1, trace := m.trace ++ [Call.pollRead conn] }
    let m := if poll.2 then remoteReceive env m conn else m
    let m := updateViewPlugins env m
    let s := m.session
    let s := s.setWriter s.currentWriter (PDBinaryWriter_finalize (s.writer s.currentWriter))
    let temp := s.currentWriter
    let s := { s with currentWriter := s.prevWriter }
    let s := { s with prevWriter := temp }
    let m := remoteSend env { m with session := s } conn
    let s := m.session
    let s := s.setWriter s.currentWriter (PDBinaryWriter_reset (s.writer s.currentWriter))
    { m with session := s }

/-! ## View-plugin registry -/

/-- Modelled from the spec: `stb_arr_pop` of the stb library drops the last element. -/
def stb_arr_pop (a : List ViewPluginInstance) : List ViewPluginInstance :=
  a.dropLast

/-- Modelled from the spec: `stb_arr_fastdelete` of the stb library, a swap-remove: the last
element is moved to position `i` and the array is shortened by one. -/
def stb_arr_fastdelete (a : List ViewPluginInstance) (i : Nat) : List ViewPluginInstance :=
  match a.getLast? with
  | some last => (a.set i last).dropLast
  | Option.none => a

/-- The search loop of `Session_removeViewPlugin`: the first index at or after `i` that holds
`plugin`. -/
def findViewPlugin (plugin : ViewPluginInstance) : List ViewPluginInstance → Nat → Option Nat
  | [], _ => Option.none
  | p :: rest, i => if p = plugin then some i else findViewPlugin plugin rest (i + 1)

/-- The function `Session_addViewPlugin`. -/
def Session_addViewPlugin (m : Sys W) (instance_ : ViewPluginInstance) : Sys W :=
  { m with session := { m.session with viewPlugins := m.session.viewPlugins ++ [instance_] } }

/-- The function `Session_removeViewPlugin`. -/
def Session_removeViewPlugin (m : Sys W) (plugin : ViewPluginInstance) : Sys W × Bool :=
  let m := { m with trace := m.trace ++ [Call.removeViewPlugin plugin] }
  let count := m.session.viewPlugins.length
  if count = 0 then (m, true)
  else if count = 1 then
    ({ m with session := { m.session with viewPlugins := stb_arr_pop m.session.viewPlugins } }, true)
  else
    match findViewPlugin plugin m.session.viewPlugins 0 with
    | some i =>
      let a := stb_arr_fastdelete m.session.viewPlugins i
      ({ m with session := { m.session with viewPlugins := a } }, true)
    | Option.none => (m, false)

/-- The `for` loop of `updateMarkedDelete` with its variables `i` and `count`, at most `fuel`
iterations.  An index outside the array is never read, `count` being the length of the array
throughout. -/
def updateMarkedDeleteLoop : Nat → Sys W → Nat → Nat → Sys W
  | 0, m, _, _ => m
  | fuel + 1, m, i, count =>
    if i < count then
      match m.session.viewPlugins[i]? with
      | some p =>
        if p ∈ m.markDeleted then
          let m := (Session_removeViewPlugin m p).1
          updateMarkedDeleteLoop fuel m (i + 1) m.session.viewPlugins.length
        else updateMarkedDeleteLoop fuel m (i + 1) count
      | Option.none => m
    else m

/-- The function `updateMarkedDelete`.  Every iteration increases `i` and `count` never grows, so
the loop ends within as many iterations as there are view plugins. -/
def updateMarkedDelete (m : Sys W) : Sys W :=
  let count := m.session.viewPlugins.length
  updateMarkedDeleteLoop (count + 1) m 0 count

/-! ## Update and actions -/

/-- The function `Session_update`. -/
def Session_update (env : Env W) (m : Sys W) : Sys W :=
  let m :=
    match m.session.type with
    | SessionType.Session_Null => updateLocal env m env.PDAction_none
    | SessionType.Session_Local => updateLocal env m env.PDAction_none
    | SessionType.Session_Remote => updateRemote env m env.PDAction_none
  updateMarkedDelete m

/-- The function `Session_action` on a session pointer that is not null. -/
def Session_action (env : Env W) (m : Sys W) (action : PDAction) : Sys W :=
  if m.session.type = SessionType.Session_Local then updateLocal env m action
  else
    let ic := env.RemoteConnection_isConnected m.world m.session.connection
    let m := { m with world := ic.1, trace := m.trace ++ [Call.isConnected m.session.connection] }
    if ic.2 then
      let command := [1 <<< 7, 0, (action >>> 8) &&& 0xff, (action >>> 0) &&& 0xff]
      { m with world := env.RemoteConnection_send m.world m.session.connection command,
               trace := m.trace ++ [Call.send m.session.connection command] }
    else m

/-- The function `Session_stepIn`. -/
def Session_stepIn (env : Env W) (m : Sys W) : Sys W :=
  match m.session.backend with
  | some backend => callBackendUpdate env m backend env.PDAction_step
  | Option.none =>
    if m.session.type = SessionType.Session_Remote then Session_action env m env.PDAction_step
    else m

/-- The function `Session_stepOver`. -/
def Session_stepOver (env : Env W) (m : Sys W) : Sys W :=
  match m.session.backend with
  | some backend => callBackendUpdate env m backend env.PDAction_stepOver
  | Option.none =>
    if m.session.type = SessionType.Session_Remote then Session_action env m env.PDAction_stepOver
    else m

/-- The function `Session_startRemote`. -/
def Session_startRemote (env : Env W) (m : Sys W) (target : String) (port : Nat) : Sys W :=
  let m := { m with session := { m.session with type := SessionType.Session_Remote } }
  let cr := env.RemoteConnection_create m.world port
  let conn := cr.2
  let m := { m with world := cr.1, trace := m.trace ++ [Call.connCreate port] }
  let cc := env.RemoteConnection_connect m.world conn target port
  let m := { m with world := cc.1, trace := m.trace ++ [Call.connConnect conn target port] }
  if ¬ cc.2 then
    { m with world := env.RemoteConnection_destroy m.world conn,
             trace := m.trace ++ [Call.connDestroy conn] }
  else
    { m with session := { m.session with connection := some conn } }

/-- The function `Session_isConnected`. -/
def Session_isConnected (env : Env W) (m : Sys W) : Sys W × Bool :=
  match m.session.connection with
  | Option.none => (m, false)
  | some conn =>
    let ic := env.RemoteConnection_isConnected m.world (some conn)
    ({ m with world := ic.1, trace := m.trace ++ [Call.isConnected (some conn)] }, ic.2)

/-- The function `Session_createRemote`. -/
def Session_createRemote (env : Env W) (world : W) (target : String) (port : Nat) : Sys W :=
  let s := commonInit newSession
  Session_startRemote env { session := s, markDeleted := [], world := world, trace := [] }
    target port

/-- The body of the breakpoint loop of `Session_startLocal`: one `setBreakpoint` event. -/
def writeBreakpoint (w : PDWriter) (b : Breakpoint) : PDWriter :=
  let w := PDWrite_eventBegin w PDEventType.setBreakpoint
  let w := PDWrite_string w "filename" b.filename
  let w := PDWrite_u32 w "line" (castUInt b.line)
  PDWrite_eventEnd w

/-- The function `Session_startLocal`. -/
def Session_startLocal (env : Env W) (m : Sys W) (backend : Nat) (filename : String) : Sys W :=
  let ci := env.createInstance m.world backend
  let s := { m.session with backend := some { plugin := backend, userData := ci.2 } }
  let w := s.writer s.currentWriter
  let w := PDWrite_eventBegin w PDEventType.setExecutable
  let w := PDWrite_string w "filename" filename
  let w := PDWrite_eventEnd w
  let w := s.breakpoints.foldl writeBreakpoint w
  let s := s.setWriter s.currentWriter w
  updateLocal env
    { m with session := s, world := ci.1, trace := m.trace ++ [Call.createInstance backend] }
    env.PDAction_run

/-- The function `Session_createLocal`. -/
def Session_createLocal (env : Env W) (world : W) (backend : Nat) (filename : String) : Sys W :=
  let s := commonInit newSession
  Session_startLocal env { session := s, markDeleted := [], world := world, trace := [] }
    backend filename

/-- The function `Session_loadSourceFile`. -/
def Session_loadSourceFile (m : Sys W) (filename : String) : Sys W :=
  let s := m.session
  let w := s.writer s.currentWriter
  let w := PDWrite_eventBegin w PDEventType.setExceptionLocation
  let w := PDWrite_string w "filename" filename
  let w := PDWrite_u32 w "line" 0
  let w := PDWrite_eventEnd w
  { m with session := s.setWriter s.currentWriter w }

/-- The function `Session_toggleBreakpointCurrentLine`. -/
def Session_toggleBreakpointCurrentLine (m : Sys W) : Sys W :=
  let s := m.session
  let w := s.writer s.currentWriter
  let w := PDWrite_eventBegin w PDEventType.toggleBreakpointCurrentLine
  let w := PDWrite_u8 w "dummy" 0
  let w := PDWrite_eventEnd w
  { m with session := s.setWriter s.currentWriter w }

/-! ## Layout restore -/

/-- Handle of the data the plugin handler keeps for a loaded plugin (`PluginData*`). -/
abbrev PluginData := Nat

/-- A rectangle of four `float` values (`FloatRect`); `R` is the type of the values. -/
structure FloatRect (R : Type) where
  x : R
  y : R
  width : R
  height : R
  deriving DecidableEq, Repr

/-- A layout record (`LayoutItem`): the file and the name of a plugin and its rectangle. -/
structure LayoutItem (R : Type) where
  pluginFile : String
  pluginName : String
  rect : FloatRect R
  deriving DecidableEq, Repr

/-- Modelled from the spec: a layout (`UILayout`), an array of records and its length as the
structure stores it; the base paths are not read by `Session_setLayout`. -/
structure UILayout (R : Type) where
  layoutItems : List (LayoutItem R)
  layoutItemCount : Int
  deriving DecidableEq, Repr

/-- The functions of the plugin handler and of the user interface that `Session_setLayout`
calls, over the world `W` they live in, and the multiplication of two `float` values.
`PluginHandler_findPlugin` is called with no base paths; it and `PluginInstance_createViewPlugin`
may return a null pointer. -/
structure PluginEnv (W R : Type) where
  mul : R → R → R
  PluginHandler_findPlugin : W → String → String → Bool → W × Option PluginData
  PluginInstance_createViewPlugin : W → PluginData → W × Option ViewPluginInstance
  PluginUI_setWindowRect : W → ViewPluginInstance → FloatRect R → W
  log_error : W → String → W

/-- The body of the loop of `Session_setLayout` for one record. -/
def setLayoutItem {R : Type} (penv : PluginEnv W R) (width height : R) (m : Sys W)
    (item : LayoutItem R) : Sys W :=
  let fp := penv.PluginHandler_findPlugin m.world item.pluginFile item.pluginName true
  match fp.2 with
  | Option.none =>
    let msg := "Unable to find plugin " ++ item.pluginFile ++ " " ++ item.pluginName ++ "\n"
    { m with world := penv.log_error fp.1 msg }
  | some pluginData =>
    let rect := item.rect
    let rect := { rect with x := penv.mul rect.x width }
    let rect := { rect with y := penv.mul rect.y height }
    let rect := { rect with width := penv.mul rect.width width }
    let rect := { rect with height := penv.mul rect.height height }
    let ci := penv.PluginInstance_createViewPlugin fp.1 pluginData
    match ci.2 with
    | Option.none =>
      let msg := "Unable to create instance for plugin " ++ item.pluginFile ++ " " ++
        item.pluginName ++ "\n"
      { m with world := penv.log_error ci.1 msg }
    | some instance_ =>
      let world := penv.PluginUI_setWindowRect ci.1 instance_ rect
      Session_addViewPlugin { m with world := world } instance_

/-- The function `Session_setLayout`: the loop runs over the first `layoutItemCount` records. -/
def Session_setLayout {R : Type} (penv : PluginEnv W R) (m : Sys W) (layout : UILayout R)
    (width height : R) : Sys W :=
  let count := layout.layoutItemCount
  (layout.layoutItems.take count.toNat).foldl (setLayoutItem penv width height) m

/-! ## Sequences of session operations -/

/-- The operations a driver can apply to a session. -/
inductive SessionOp
  | update
  | action (action : PDAction)
  | stepIn
  | stepOver
  | startLocal (backend : Nat) (filename : String)
  | startRemote (target : String) (port : Nat)
  | addViewPlugin (p : ViewPluginInstance)
  | removeViewPlugin (p : ViewPluginInstance)
  | loadSourceFile (filename : String)
  | toggleBreakpointCurrentLine
  deriving DecidableEq, Repr

/-- Applies one operation. -/
def applyOp (env : Env W) (m : Sys W) : SessionOp → Sys W
  | SessionOp.update => Session_update env m
  | SessionOp.action a => Session_action env m a
  | SessionOp.stepIn => Session_stepIn env m
  | SessionOp.stepOver => Session_stepOver env m
  | SessionOp.startLocal b f => Session_startLocal env m b f
  | SessionOp.startRemote t p => Session_startRemote env m t p
  | SessionOp.addViewPlugin p => Session_addViewPlugin m p
  | SessionOp.removeViewPlugin p => (Session_removeViewPlugin m p).1
  | SessionOp.loadSourceFile f => Session_loadSourceFile m f
  | SessionOp.toggleBreakpointCurrentLine => Session_toggleBreakpointCurrentLine m

/-- Applies a sequence of operations, first to last. -/
def runOps (env : Env W) (m : Sys W) (ops : List SessionOp) : Sys W :=
  ops.foldl (applyOp env) m

/-- The system around a session just made by `Session_create`. -/
def freshSys (world : W) : Sys W :=
  { session := Session_create, markDeleted := [], world := world, trace := [] }

/-! ## Vocabulary of the theorems -/

/-- The breakpoint a toggle event stands for: the file name read from the event and its line
converted to `int`. -/
def eventBreakpoint (reader : PDReader) : Breakpoint :=
  { filename := PDRead_findString reader "filename"
    line := castInt (PDRead_findU32 reader "line") }

/-- The list `doToggleBreakpoint` leaves for a breakpoint `b`: `b` is erased when present and
appended when absent. -/
def toggleList (b : Breakpoint) (l : List Breakpoint) : List Breakpoint :=
  if b ∈ l then l.erase b else l ++ [b]

/-- A reader positioned on event `e`, as `PDRead_getEvent` leaves it after returning `e`. -/
def readerOn (e : PDEvent) : PDReader :=
  { data := [e], size := 0, stream := [e], pending := [], current := some e }

/-- The toggle `toggleBreakpoint` applies for a `setBreakpoint` event `e`. -/
def toggleEvent (s : Session) (e : PDEvent) : Session :=
  doToggleBreakpoint s (readerOn e)

/-- The events `PDRead_getEvent` hands out before it returns the zero tag: the pending events up
to the first one tagged `none`. -/
def eventsToSentinel (pending : List PDEvent) : List PDEvent :=
  pending.takeWhile (fun e => e.type ≠ PDEventType.none)

/-- The `setBreakpoint` events among `es`, in order. -/
def setBreakpointEvents (es : List PDEvent) : List PDEvent :=
  es.filter (fun e => e.type = PDEventType.setBreakpoint)

/-- The event `setBreakpoint{filename, line}` as a producer writes it. -/
def setBreakpointEvent (filename : String) (line : Nat) : PDEvent :=
  { type := PDEventType.setBreakpoint
    fields := [("filename", PDValue.str filename), ("line", PDValue.u32 line)] }

/-- The view plugin an `updateInstance` call asked to close, if it did. -/
def Call.closedView : Call → Option ViewPluginInstance
  | Call.updateInstance p _ _ _ res =>
    if res.state = PluginUIState.CloseView then some p else Option.none
  | _ => Option.none

/-- The calls made between two traces, the second extending the first. -/
def callsSince (before after : List Call) : List Call :=
  after.drop before.length

/-- The session with its buffers blanked: what is left are the fields other than the reader and
the content of the four writers.  Two sessions with equal `control` differ in buffers only. -/
def Session.control (s : Session) : Session :=
  { s with
    writer0 := PDBinaryWriter_init
    writer1 := PDBinaryWriter_init
    tempWriter0 := PDBinaryWriter_init
    tempWriter1 := PDBinaryWriter_init
    reader := PDBinaryReader_init }

/-- First stage of `updateLocal`: the current writer is finalized, the writers are swapped, the
reader is pointed at the finalized buffer with the request size and the new current writer is
reset. -/
def localPrepare (env : Env W) (m : Sys W) : Sys W :=
  let s := m.session
  let s := s.setWriter s.currentWriter (PDBinaryWriter_finalize (s.writer s.currentWriter))
  let temp := s.currentWriter
  let s := { s with currentWriter := s.prevWriter }
  let s := { s with prevWriter := temp }
  let reqDataSize := PDBinaryWriter_getSize env.eventSize (s.writer s.prevWriter)
  let s := { s with reader := PDBinaryReader_reset s.reader }
  let reqDataSize := if s.state = PDDebugState.running then 0 else reqDataSize
  let data := PDBinaryWriter_getData (s.writer s.prevWriter)
  let s := { s with reader := PDBinaryReader_initStream env.eventSize data reqDataSize }
  let s := s.setWriter s.currentWriter (PDBinaryWriter_reset (s.writer s.currentWriter))
  { m with session := s }

/-- Second stage of `updateLocal`: the backend, when attached, is updated. -/
def localBackend (env : Env W) (m : Sys W) (action : PDAction) : Sys W :=
  match m.session.backend with
  | some b => callBackendUpdate env m b action
  | Option.none => m

/-- Third stage of `updateLocal`: the reader is pointed at the whole finalized buffer and the
view plugins are updated. -/
def localFanOut (env : Env W) (m : Sys W) : Sys W :=
  let s := m.session
  let data := PDBinaryWriter_getData (s.writer s.prevWriter)
  let size := PDBinaryWriter_getSize env.eventSize (s.writer s.prevWriter)
  let s := { s with reader := PDBinaryReader_initStream env.eventSize data size }
  let s := { s with reader := PDBinaryReader_reset s.reader }
  updateViewPlugins env { m with session := s }

/-- Last stage of `updateLocal`: the breakpoint scan. -/
def localScan (m : Sys W) : Sys W :=
  let res := toggleBreakpoint m.session m.session.reader
  { m with session := { res.1 with reader := res.2 } }

/-- The reader `updateLocal` hands to the backend: over the buffer that was the current writer
when the tick began, with size 0 while the run state is `running` and its full size otherwise. -/
def localRequest (env : Env W) (m : Sys W) : PDReader :=
  PDBinaryReader_initStream env.eventSize (m.session.writer m.session.currentWriter).events
    (if m.session.state = PDDebugState.running then 0
      else PDBinaryWriter_getSize env.eventSize (m.session.writer m.session.currentWriter))

/-- The reader `updateLocal` hands to the view plugins and to the breakpoint scan: over the
buffer that was the current writer when the tick began, with its full size. -/
def localStream (env : Env W) (m : Sys W) : PDReader :=
  PDBinaryReader_initStream env.eventSize (m.session.writer m.session.currentWriter).events
    (PDBinaryWriter_getSize env.eventSize (m.session.writer m.session.currentWriter))

/-- The backend call of a local tick on `m`, if a backend is attached: the call as it is traced. -/
def localBackendCall (env : Env W) (m : Sys W) (action : PDAction) : List Call :=
  match m.session.backend with
  | some b =>
    [Call.backendUpdate b action (localRequest env m) m.session.prevWriter PDBinaryWriter_init
      (env.backendUpdate m.world b action (localRequest env m) PDBinaryWriter_init).2]
  | Option.none => []

/-- The run state after a local tick on `m`: what the backend returned, or the old state when
no backend is attached. -/
def localState (env : Env W) (m : Sys W) (action : PDAction) : PDDebugState :=
  match m.session.backend with
  | some b => (env.backendUpdate m.world b action (localRequest env m) PDBinaryWriter_init).2.state
  | Option.none => m.session.state

/-- The toggle of `doToggleBreakpoint` for event `e`, on the breakpoint list alone. -/
def toggleListEvent (l : List Breakpoint) (e : PDEvent) : List Breakpoint :=
  toggleList (eventBreakpoint (readerOn e)) l

/-- What a local tick `updateLocal env m action` does when `currentWriter` and `prevWriter` are
distinct, `pre` being the backend call (if any) and `seg` the view plugin calls of the tick. -/
structure LocalTick (env : Env W) (m : Sys W) (action : PDAction) (pre seg : List Call) :
    Prop where
  trace : (updateLocal env m action).trace = m.trace ++ (pre ++ seg)
  backendCall : pre = localBackendCall env m action
  plugins : seg.map Call.viewPlugin = m.session.viewPlugins.map some
  readers : seg.map Call.viewReader =
    List.replicate m.session.viewPlugins.length (some (localStream env m))
  writers : seg.map Call.viewWriter =
    List.replicate m.session.viewPlugins.length (some m.session.prevWriter)
  type : (updateLocal env m action).session.type = m.session.type
  backend : (updateLocal env m action).session.backend = m.session.backend
  connection : (updateLocal env m action).session.connection = m.session.connection
  viewPlugins : (updateLocal env m action).session.viewPlugins = m.session.viewPlugins
  currentWriter : (updateLocal env m action).session.currentWriter = m.session.prevWriter
  prevWriter : (updateLocal env m action).session.prevWriter = m.session.currentWriter
  state : (updateLocal env m action).session.state = localState env m action
  breakpoints : (updateLocal env m action).session.breakpoints =
    (setBreakpointEvents (eventsToSentinel (localStream env m).stream)).foldl toggleListEvent
      m.session.breakpoints
  content : ∀ ref, (updateLocal env m action).session.writer ref =
    if ref = m.session.prevWriter then
      PDBinaryWriter_init.append ((pre ++ seg).flatMap Call.written)
    else if ref = m.session.currentWriter then
      PDBinaryWriter_finalize (m.session.writer m.session.currentWriter)
    else m.session.writer ref
  markDeleted : ∀ q, q ∈ (updateLocal env m action).markDeleted ↔
    q ∈ m.markDeleted ∨ q ∈ seg.filterMap Call.closedView

/-- First stage of a remote tick on a session with connection `conn`: the reader is reset, the
connection is polled and, when it is readable, a payload is received. -/
def remoteInbound (env : Env W) (m : Sys W) (conn : RemoteConnection) : Sys W :=
  let m := { m with session := { m.session with reader := PDBinaryReader_reset m.session.reader } }
  let poll := env.RemoteConnection_pollRead m.world conn
  let m := { m with world := poll.1, trace := m.trace ++ [Call.pollRead conn] }
  if poll.2 then remoteReceive env m conn else m

/-- Last stage of a remote tick: the current writer is finalized, the writers are swapped, the
finalized buffer is sent when it is large enough and the new current writer is reset. -/
def remoteFinish (env : Env W) (m : Sys W) (conn : RemoteConnection) : Sys W :=
  let s := m.session
  let s := s.setWriter s.currentWriter (PDBinaryWriter_finalize (s.writer s.currentWriter))
  let temp := s.currentWriter
  let s := { s with currentWriter := s.prevWriter }
  let s := { s with prevWriter := temp }
  let m := remoteSend env { m with session := s } conn
  let s := m.session
  let s := s.setWriter s.currentWriter (PDBinaryWriter_reset (s.writer s.currentWriter))
  { m with session := s }

/-- What a remote tick `updateRemote env m action` does on a session whose connection is `conn`:
`pre` are the receive calls, `seg` the view plugin calls and `post` the transmit calls. -/
structure RemoteTick (env : Env W) (m : Sys W) (conn : RemoteConnection) (action : PDAction)
    (pre seg post : List Call) : Prop where
  trace : (updateRemote env m action).trace = m.trace ++ (pre ++ seg ++ post)
  inbound : pre = [Call.pollRead conn] ∨ pre = [Call.pollRead conn, Call.recv conn 4] ∨
    ∃ cmd, pre = [Call.pollRead conn, Call.recv conn 4,
      Call.recvStream conn (decodeTotalSize cmd)]
  outbound : post = [] ∨ post = [Call.isConnected (some conn)] ∨
    ∃ w, post = [Call.isConnected (some conn), Call.sendStream conn w]
  plugins : seg.map Call.viewPlugin = m.session.viewPlugins.map some
  readers : seg.map Call.viewReader =
    List.replicate m.session.viewPlugins.length (some (remoteInbound env m conn).session.reader)
  atStart : PDBinaryReader_reset (remoteInbound env m conn).session.reader =
    (remoteInbound env m conn).session.reader
  writers : seg.map Call.viewWriter =
    List.replicate m.session.viewPlugins.length (some m.session.currentWriter)
  type : (updateRemote env m action).session.type = m.session.type
  backend : (updateRemote env m action).session.backend = m.session.backend
  connection : (updateRemote env m action).session.connection = m.session.connection
  viewPlugins : (updateRemote env m action).session.viewPlugins = m.session.viewPlugins
  breakpoints : (updateRemote env m action).session.breakpoints = m.session.breakpoints
  state : (updateRemote env m action).session.state = m.session.state
  currentWriter : (updateRemote env m action).session.currentWriter = m.session.prevWriter
  prevWriter : (updateRemote env m action).session.prevWriter = m.session.currentWriter
  content : ∀ ref, (updateRemote env m action).session.writer ref =
    if ref = m.session.prevWriter then PDBinaryWriter_init
    else if ref = m.session.currentWriter then
      PDBinaryWriter_finalize
        ((m.session.writer m.session.currentWriter).append (seg.flatMap Call.written))
    else m.session.writer ref
  markDeleted : ∀ q, q ∈ (updateRemote env m action).markDeleted ↔
    q ∈ m.markDeleted ∨ q ∈ seg.filterMap Call.closedView
  inboundTrace : (remoteInbound env m conn).trace = m.trace ++ pre
  fanOutTrace : (updateViewPlugins env (remoteInbound env m conn)).trace = m.trace ++ (pre ++ seg)
  fanOutCurrent : (updateViewPlugins env (remoteInbound env m conn)).session.currentWriter =
    m.session.currentWriter
  fanOutWriter : (updateViewPlugins env (remoteInbound env m conn)).session.writer
    m.session.currentWriter =
    (m.session.writer m.session.currentWriter).append (seg.flatMap Call.written)

/-- The writer roles of `s'` are those of `s`, as they were or exchanged. -/
def RolesKept (s s' : Session) : Prop :=
  (s'.currentWriter = s.currentWriter ∧ s'.prevWriter = s.prevWriter) ∨
  (s'.currentWriter = s.prevWriter ∧ s'.prevWriter = s.currentWriter)

/-- The writer-pair invariant: `currentWriter` and `prevWriter` are the two buffers `writer0`
and `writer1`, one each. -/
def WriterPair (s : Session) : Prop :=
  s.currentWriter ≠ s.prevWriter ∧
  ((s.currentWriter = WriterRef.writer0 ∧ s.prevWriter = WriterRef.writer1) ∨
   (s.currentWriter = WriterRef.writer1 ∧ s.prevWriter = WriterRef.writer0))

/-- A call of `Session_removeViewPlugin`. -/
def Call.isRemove : Call → Prop
  | Call.removeViewPlugin _ => True
  | _ => False

/-- The step relation of the two invariants on writer roles and breakpoints: the roles of `s'`
are those of `s`, kept or exchanged, and `s'` has a duplicate-free breakpoint list when `s`
has. -/
def StepKeeps (s s' : Session) : Prop :=
  RolesKept s s' ∧ (s.breakpoints.Nodup → s'.breakpoints.Nodup)

/-- A sample world for concrete runs: the backend stops at a breakpoint and reports its status,
a view plugin `p` reads one event, writes one event tagged `other p` and asks to be closed when
`p` is odd, the connection accepts, is readable and delivers a header `00 00 00 06` followed by
two events. -/
def demoEnv : Env Unit where
  eventSize := fun _ => 1
  PDAction_none := 0
  PDAction_run := 3
  PDAction_step := 4
  PDAction_stepOver := 6
  createInstance := fun w plugin => (w, plugin)
  backendUpdate := fun w _ _ r _ =>
    (w, { state := PDDebugState.stopBreakpoint, consumed := r.pending.length,
          written := [{ type := PDEventType.setStatus, fields := [("state", PDValue.u32 2)] }] })
  updateInstance := fun w p _ _ =>
    (w, { state := if p % 2 = 1 then PluginUIState.CloseView else PluginUIState.None,
          consumed := 1, written := [{ type := PDEventType.other p, fields := [] }] })
  RemoteConnection_create := fun w port => (w, port)
  RemoteConnection_connect := fun w _ _ _ => (w, true)
  RemoteConnection_destroy := fun w _ => w
  RemoteConnection_isConnected := fun w conn => (w, conn.isSome)
  RemoteConnection_pollRead := fun w _ => (w, true)
  RemoteConnection_recv := fun w _ _ => (w, some { b0 := 0, b1 := 0, b2 := 0, b3 := 6 })
  RemoteConnection_recvStream := fun w _ _ =>
    (w, [setBreakpointEvent "main.c" 42,
         { type := PDEventType.setStatus, fields := [("state", PDValue.u32 1)] }])
  RemoteConnection_sendStream := fun w _ _ => w
  RemoteConnection_send := fun w _ _ => w

/-- A local session in the sample world: created on `a.out`, with the view plugins 2 and 3
registered. -/
def demoLocal : Sys Unit :=
  Session_addViewPlugin (Session_addViewPlugin (Session_createLocal demoEnv () 7 "a.out") 2) 3

/-- A connected remote session in the sample world, with the view plugins 2 and 3 registered. -/
def demoRemote : Sys Unit :=
  Session_addViewPlugin
    (Session_addViewPlugin (Session_createRemote demoEnv () "localhost" 1340) 2) 3

/-- The tick `Session_update` runs before its cleanup pass: `updateLocal` for the types
`Session_Null` and `Session_Local`, `updateRemote` for `Session_Remote`. -/
def sessionTick (env : Env W) (m : Sys W) : Sys W :=
  match m.session.type with
  | SessionType.Session_Null => updateLocal env m env.PDAction_none
  | SessionType.Session_Local => updateLocal env m env.PDAction_none
  | SessionType.Session_Remote => updateRemote env m env.PDAction_none

/-- The session `m` with the view plugin list `ps` registered instead of its own. -/
def withViewPlugins (m : Sys W) (ps : List ViewPluginInstance) : Sys W :=
  { m with session := { m.session with viewPlugins := ps } }

/-- The buffer roles after an update as a property of one update: after `Session_update` the
current writer is empty and the previous writer holds exactly the events the producers wrote
during the update. -/
def BufferRolesAfterUpdate (env : Env W) (m : Sys W) : Prop :=
  ((Session_update env m).session.writer (Session_update env m).session.currentWriter).events
    = [] ∧
  ((Session_update env m).session.writer (Session_update env m).session.prevWriter).events =
    (callsSince m.trace (Session_update env m).trace).flatMap Call.written

/-- The sample world with a connection that refuses to connect. -/
def offlineEnv : Env Unit :=
  { demoEnv with RemoteConnection_connect := fun w _ _ _ => (w, false) }

/-- A remote session whose connection attempt failed. -/
def demoInert : Sys Unit :=
  Session_createRemote offlineEnv () "localhost" 1340

/-- The view plugin a call of `Session_removeViewPlugin` was made for. -/
def Call.removed : Call → Option ViewPluginInstance
  | Call.removeViewPlugin p => some p
  | _ => Option.none

/-- The registered view plugins whose `markDeleted` flag is set. -/
def flaggedViews (m : Sys W) : List ViewPluginInstance :=
  m.session.viewPlugins.filter (fun p => p ∈ m.markDeleted)

/-- Two registered view plugins, both flagged `markDeleted`, in a session straight from
`Session_create`. -/
def twoFlagged : Sys Unit :=
  { session := { Session_create with viewPlugins := [1, 2] }
    markDeleted := [1, 2], world := (), trace := [] }

/-- A local session in the sample world with the view plugins 1 and 3 registered, both of which
ask to be closed when they are updated. -/
def closingPair : Sys Unit :=
  Session_addViewPlugin (Session_addViewPlugin (Session_createLocal demoEnv () 7 "a.out") 1) 3

/-- A remote session whose connection attempt failed, with the view plugins 2 and 3
registered. -/
def demoInertViews : Sys Unit :=
  Session_addViewPlugin (Session_addViewPlugin demoInert 2) 3

/-- The connection object `Session_startRemote` creates in world `world` for port `port`. -/
def connectHandle (env : Env W) (world : W) (port : Nat) : RemoteConnection :=
  (env.RemoteConnection_create world port).2

/-- Whether the connection attempt of `Session_startRemote` succeeds in world `world`. -/
def connectSucceeds (env : Env W) (world : W) (target : String) (port : Nat) : Bool :=
  (env.RemoteConnection_connect (env.RemoteConnection_create world port).1
    (env.RemoteConnection_create world port).2 target port).2

/-- The system around a session just made by `new Session` and `commonInit`, in world `world`,
as `Session_createRemote` and `Session_createLocal` start from. -/
def createdSys (world : W) : Sys W :=
  { session := commonInit newSession, markDeleted := [], world := world, trace := [] }

/-- The big-endian value of a four byte header. -/
def headerValue (cmd : Cmd) : Nat :=
  (cmd.b0 % 256) * 2 ^ 24 + (cmd.b1 % 256) * 2 ^ 16 + (cmd.b2 % 256) * 2 ^ 8 + cmd.b3 % 256

/-- The world in which `updateRemote` receives, after its poll of connection `conn`. -/
def polledWorld (env : Env W) (m : Sys W) (conn : RemoteConnection) : W :=
  (env.RemoteConnection_pollRead m.world conn).1

/-- The payload `RemoteConnection_recvStream` returns in a remote tick on `m` whose header
was `cmd`. -/
def receivedPayload (env : Env W) (m : Sys W) (conn : RemoteConnection) (cmd : Cmd) :
    List PDEvent :=
  (env.RemoteConnection_recvStream
    (env.RemoteConnection_recv (polledWorld env m conn) conn 4).1 conn (decodeTotalSize cmd)).2

/-- The system after the receive step and the view plugin loop of a remote tick on `m`, before
the writers are finalized and swapped. -/
def fannedOut (env : Env W) (m : Sys W) (conn : RemoteConnection) : Sys W :=
  updateViewPlugins env (remoteInbound env m conn)

/-- The buffer a remote tick finalizes: the current writer of the view plugin loop, sealed. -/
def remoteOutgoing (env : Env W) (m : Sys W) (conn : RemoteConnection) : PDWriter :=
  PDBinaryWriter_finalize
    ((fannedOut env m conn).session.writer (fannedOut env m conn).session.currentWriter)

/-- Whether the connection reports connected when a remote tick on `m` asks it, after the view
plugin loop. -/
def reportsConnected (env : Env W) (m : Sys W) (conn : RemoteConnection) : Bool :=
  (env.RemoteConnection_isConnected (fannedOut env m conn).world (some conn)).2

/-- The transmit calls of a remote tick on `m`. -/
def transmitCalls (env : Env W) (m : Sys W) (conn : RemoteConnection) : List Call :=
  if PDBinaryWriter_getSize env.eventSize (remoteOutgoing env m conn) > 4 then
    if reportsConnected env m conn then
      [Call.isConnected (some conn), Call.sendStream conn (remoteOutgoing env m conn)]
    else [Call.isConnected (some conn)]
  else []

/-- The buffer a `sendStream` call transmitted. -/
def Call.sentStream : Call → Option PDWriter
  | Call.sendStream _ data => some data
  | _ => Option.none

/-- The four byte action command word for action `a`: the action tag, a zero byte and the two
low bytes of the action, high byte first. -/
def actionWord (a : PDAction) : List Nat :=
  [0x80, 0x00, (a >>> 8) &&& 0xff, a &&& 0xff]

/-- The action a `backendUpdate` call was made with. -/
def Call.backendAction : Call → Option PDAction
  | Call.backendUpdate _ action _ _ _ _ => some action
  | _ => Option.none

/-- A call on the remote connection: a status query, a poll, a receive or a send. -/
def Call.onConnection : Call → Bool
  | Call.connCreate _ => true
  | Call.connConnect _ _ _ => true
  | Call.connDestroy _ => true
  | Call.isConnected _ => true
  | Call.pollRead _ => true
  | Call.recv _ _ => true
  | Call.recvStream _ _ => true
  | Call.sendStream _ _ => true
  | Call.send _ _ => true
  | _ => false

/-- The session `m` with the events `es` queued in its current writer, as a view plugin or a
request of the user interface leaves them for the next tick. -/
def withQueued (m : Sys W) (es : List PDEvent) : Sys W :=
  { m with session := (m.session.setWriter m.session.currentWriter
      ((m.session.writer m.session.currentWriter).append es)) }

/-- The local session of the sample world with its type set to `Session_Local` and a toggle of
`("main.c", 42)` queued. -/
def demoLocalTyped : Sys Unit :=
  withQueued
    { demoLocal with session := { demoLocal.session with type := SessionType.Session_Local } }
    [setBreakpointEvent "main.c" 42]

/-- A session of type `Session_Local` without backend, with the view plugin 2 registered. -/
def localNoBackend : Sys Unit :=
  { session := { Session_create with type := SessionType.Session_Local, viewPlugins := [2] }
    markDeleted := [], world := (), trace := [] }

/-- The reader a `backendUpdate` call was handed. -/
def Call.backendReader : Call → Option PDReader
  | Call.backendUpdate _ _ reader _ _ _ => some reader
  | _ => Option.none

/-- The sample world with a backend that reports the target as running and writes nothing. -/
def runningEnv : Env Unit :=
  { demoEnv with
    backendUpdate := fun w _ _ _ _ =>
      (w, { state := PDDebugState.running, consumed := 0, written := [] }) }

/-- A local session whose target is running, with a toggle of `("main.c", 42)` queued. -/
def demoRunning : Sys Unit :=
  withQueued (Session_createLocal runningEnv () 7 "a.out") [setBreakpointEvent "main.c" 42]

/-- The event `setExecutable{filename}` as `Session_startLocal` writes it. -/
def setExecutableEvent (filename : String) : PDEvent :=
  { type := PDEventType.setExecutable, fields := [("filename", PDValue.str filename)] }

/-- The events `Session_startLocal` writes for file `filename` and breakpoint list `l`: the
executable, then one `setBreakpoint` event per breakpoint, its line converted to unsigned. -/
def startEvents (filename : String) (l : List Breakpoint) : List PDEvent :=
  setExecutableEvent filename :: l.map (fun b => setBreakpointEvent b.filename (castUInt b.line))

/-- The system `Session_startLocal` hands to `updateLocal`: the backend instance is created and
stored and the start events are written to the current writer. -/
def startLocalQueued (env : Env W) (m : Sys W) (backend : Nat) (filename : String) : Sys W :=
  let ci := env.createInstance m.world backend
  let s := { m.session with backend := some { plugin := backend, userData := ci.2 } }
  let w := s.writer s.currentWriter
  let w := PDWrite_eventBegin w PDEventType.setExecutable
  let w := PDWrite_string w "filename" filename
  let w := PDWrite_eventEnd w
  let w := s.breakpoints.foldl writeBreakpoint w
  let s := s.setWriter s.currentWriter w
  { m with session := s, world := ci.1, trace := m.trace ++ [Call.createInstance backend] }

/-- The backend instance `Session_startLocal` creates in world `world` for plugin `backend`. -/
def startedBackend (env : Env W) (world : W) (backend : Nat) : PDBackendInstance :=
  { plugin := backend, userData := (env.createInstance world backend).2 }

/-- The system `m` with the breakpoint list `l` instead of its own. -/
def withBreakpoints (m : Sys W) (l : List Breakpoint) : Sys W :=
  { m with session := { m.session with breakpoints := l } }

/-- The line of a breakpoint is a C `int`: it lies in the 32 bit signed range. -/
def Breakpoint.lineInRange (b : Breakpoint) : Prop :=
  -2 ^ 31 ≤ b.line ∧ b.line < 2 ^ 31

/-- A sample world whose state tells whether the connection has data to read: the connection
accepts, a poll reports the data once and then nothing, a receive delivers the header
`00 00 00 06` followed by two events, a view plugin reads one event and writes nothing. -/
def pollOnceEnv : Env Bool where
  eventSize := fun _ => 1
  PDAction_none := 0
  PDAction_run := 3
  PDAction_step := 4
  PDAction_stepOver := 6
  createInstance := fun w plugin => (w, plugin)
  backendUpdate := fun w _ _ _ _ =>
    (w, { state := PDDebugState.stopBreakpoint, consumed := 0, written := [] })
  updateInstance := fun w _ _ _ => (w, { state := PluginUIState.None, consumed := 1, written := [] })
  RemoteConnection_create := fun w port => (w, port)
  RemoteConnection_connect := fun w _ _ _ => (w, true)
  RemoteConnection_destroy := fun w _ => w
  RemoteConnection_isConnected := fun w conn => (w, conn.isSome)
  RemoteConnection_pollRead := fun w _ => (false, w)
  RemoteConnection_recv := fun w _ _ => (w, some { b0 := 0, b1 := 0, b2 := 0, b3 := 6 })
  RemoteConnection_recvStream := fun w _ _ =>
    (w, [setBreakpointEvent "main.c" 42,
         { type := PDEventType.setStatus, fields := [("state", PDValue.u32 1)] }])
  RemoteConnection_sendStream := fun w _ _ => w
  RemoteConnection_send := fun w _ _ => w

/-- A connected remote session in the world that has data to read once, with the view plugins 2
and 4 registered. -/
def demoPolled : Sys Bool :=
  Session_addViewPlugin
    (Session_addViewPlugin (Session_createRemote pollOnceEnv true "localhost" 1340) 2) 4

/-- The operations of a driver that runs a session it has created: update, action, the two
steps, and the registration and removal of view plugins. -/
def SessionOp.isDriver : SessionOp → Bool
  | SessionOp.update => true
  | SessionOp.action _ => true
  | SessionOp.stepIn => true
  | SessionOp.stepOver => true
  | SessionOp.addViewPlugin _ => true
  | SessionOp.removeViewPlugin _ => true
  | _ => false

/-- The transport of `s'` is that of `s`: same type, same backend, same connection. -/
def SameTransport (s s' : Session) : Prop :=
  s'.type = s.type ∧ s'.backend = s.backend ∧ s'.connection = s.connection

/-- The records `Session_setLayout` goes through: the first `layoutItemCount` of the array. -/
def UILayout.records {R : Type} (layout : UILayout R) : List (LayoutItem R) :=
  layout.layoutItems.take layout.layoutItemCount.toNat

/-- The layout made of the records `items`. -/
def layoutOf {R : Type} (items : List (LayoutItem R)) : UILayout R :=
  { layoutItems := items, layoutItemCount := items.length }

/-- What a layout record yields in world `world`: the instance created for it when its plugin
resolves and the creation of the instance succeeds, nothing otherwise. -/
def restoredView {R : Type} (penv : PluginEnv W R) (world : W) (item : LayoutItem R) :
    Option ViewPluginInstance :=
  match (penv.PluginHandler_findPlugin world item.pluginFile item.pluginName true).2 with
  | Option.none => Option.none
  | some pluginData =>
    (penv.PluginInstance_createViewPlugin
      (penv.PluginHandler_findPlugin world item.pluginFile item.pluginName true).1 pluginData).2

/-- What the records `items` yield, one entry per record in record order, each record taken in
the world the records before it have left. -/
def layoutOutcomes {R : Type} (penv : PluginEnv W R) (width height : R) :
    Sys W → List (LayoutItem R) → List (Option ViewPluginInstance)
  | _, [] => []
  | m, item :: rest =>
    restoredView penv m.world item ::
      layoutOutcomes penv width height (setLayoutItem penv width height m item) rest

/-- A sample plugin handler: the plugin named `missing` does not resolve, the data of a plugin
is the length of its file name, no instance can be created for data 0 and the instance for data
`d` is `d + 10`. -/
def demoPlugins : PluginEnv Unit Nat where
  mul := fun a b => a * b
  PluginHandler_findPlugin := fun w file name _ =>
    (w, if name = "missing" then Option.none else some file.length)
  PluginInstance_createViewPlugin := fun w d => (w, if d = 0 then Option.none else some (d + 10))
  PluginUI_setWindowRect := fun w _ _ => w
  log_error := fun w _ => w

/-- A sample layout of four records: the second does not resolve and no instance can be created
for the third. -/
def demoLayout : UILayout Nat :=
  layoutOf
    [⟨"src.so", "source", ⟨0, 0, 1, 1⟩⟩, ⟨"x.so", "missing", ⟨0, 0, 1, 1⟩⟩,
     ⟨"", "empty", ⟨0, 0, 1, 1⟩⟩, ⟨"regs.so", "registers", ⟨0, 0, 1, 1⟩⟩]

/-- A sample world whose state tells whether the next connection attempt is accepted: the first
attempt is, every later one is refused; apart from that it is the world that has data to read
once. -/
def connectOnceEnv : Env Bool :=
  { pollOnceEnv with RemoteConnection_connect := fun w _ _ _ => (false, w) }

/-- Whether a remote tick on `m` is quiet: the session has no connection, or the poll reports
nothing readable, or the receive of the four byte header fails. -/
def quietTick (env : Env W) (m : Sys W) : Bool :=
  match m.session.connection with
  | Option.none => true
  | some conn =>
    !(env.RemoteConnection_pollRead m.world conn).2 ||
      (env.RemoteConnection_recv (polledWorld env m conn) conn 4).2.isNone

/-- Whether the operations `ops`, run from `m`, are operations of a driver and every update among
them is a quiet tick. -/
def quietRun (env : Env W) : Sys W → List SessionOp → Bool
  | _, [] => true
  | m, op :: ops =>
    op.isDriver && (!decide (op = SessionOp.update) || quietTick env m) &&
      quietRun env (applyOp env m op) ops

/-- The session `Session_createLocal` returns, after the operations of a driver among `ops`. -/
def drivenLocal (env : Env W) (world : W) (backend : Nat) (filename : String)
    (ops : List SessionOp) : Sys W :=
  runOps env (Session_createLocal env world backend filename) (ops.filter SessionOp.isDriver)

/-- The reader a remote tick is left with after it received the header `cmd` on connection
`conn` of `m`: over the payload then received, with the size the header gives. -/
def payloadReader (env : Env W) (m : Sys W) (conn : RemoteConnection) (cmd : Cmd) : PDReader :=
  PDBinaryReader_initStream env.eventSize (receivedPayload env m conn cmd)
    (castUInt (decodeTotalSize cmd))

/-- A session straight from `Session_create` holding the breakpoints `l`. -/
def sessionWith (l : List Breakpoint) : Session :=
  { Session_create with breakpoints := l }

/-! ## Lemmas on the breakpoint toggle -/

theorem eraseFirstMatch_eq (line : Int) (filename : String) (l : List Breakpoint) :
    eraseFirstMatch line filename l =
      if (⟨filename, line⟩ : Breakpoint) ∈ l then some (l.erase ⟨filename, line⟩)
      else Option.none := by
  induction l with
  | nil => simp [eraseFirstMatch]
  | cons b rest ih =>
    by_cases hb : b.line = line ∧ b.filename = filename
    · have hbe : b = ⟨filename, line⟩ := by
        cases b; simp at hb; simp [hb.1, hb.2]
      simp [eraseFirstMatch, hb, hbe]
    · have hne : b ≠ ⟨filename, line⟩ := by
        intro h; apply hb; rw [h]; exact ⟨rfl, rfl⟩
      have hne2 : (⟨filename, line⟩ : Breakpoint) ≠ b := fun h => hne h.symm
      rw [eraseFirstMatch, if_neg hb, ih]
      by_cases hm : (⟨filename, line⟩ : Breakpoint) ∈ rest
      · simp [hm, List.erase_cons_tail, hne]
      · simp [hm, hne2]

theorem doToggleBreakpoint_breakpoints (s : Session) (reader : PDReader) :
    (doToggleBreakpoint s reader).breakpoints = toggleList (eventBreakpoint reader) s.breakpoints := by
  unfold doToggleBreakpoint toggleList eventBreakpoint
  simp only [eraseFirstMatch_eq]
  split_ifs <;> rfl

theorem toggleList_nodup (b : Breakpoint) (l : List Breakpoint) (h : l.Nodup) :
    (toggleList b l).Nodup := by
  unfold toggleList
  split_ifs with hb
  · exact h.erase b
  · exact List.Nodup.append h (List.nodup_singleton b) (by simpa using hb)

theorem mem_toggleList (b x : Breakpoint) (l : List Breakpoint) (h : l.Nodup) :
    x ∈ toggleList b l ↔ (x = b ∧ b ∉ l) ∨ (x ≠ b ∧ x ∈ l) := by
  unfold toggleList
  split_ifs with hb
  · rw [h.mem_erase_iff]; tauto
  · rw [List.mem_append, List.mem_singleton]
    constructor
    · rintro (hx | hx)
      · right; exact ⟨fun e => hb (e ▸ hx), hx⟩
      · left; exact ⟨hx, hb⟩
    · rintro (⟨hx, _⟩ | ⟨_, hx⟩)
      · right; exact hx
      · left; exact hx

theorem castInt_inj (a b : Nat) (ha : a < 2 ^ 32) (hb : b < 2 ^ 32) (h : castInt a = castInt b) :
    a = b := by
  unfold castInt at h
  rw [Nat.mod_eq_of_lt ha, Nat.mod_eq_of_lt hb] at h
  split_ifs at h <;> omega

theorem PDRead_findU32_lt (r : PDReader) (name : String) : PDRead_findU32 r name < 2 ^ 32 := by
  unfold PDRead_findU32
  split
  · split
    · exact Nat.mod_lt _ (by norm_num)
    · norm_num
  · norm_num

theorem doToggleBreakpoint_nodup (s : Session) (reader : PDReader) (h : s.breakpoints.Nodup) :
    (doToggleBreakpoint s reader).breakpoints.Nodup := by
  rw [doToggleBreakpoint_breakpoints]
  exact toggleList_nodup _ _ h

theorem eventBreakpoint_ne (r1 r2 : PDReader)
    (h : PDRead_findString r1 "filename" ≠ PDRead_findString r2 "filename" ∨
      PDRead_findU32 r1 "line" ≠ PDRead_findU32 r2 "line") :
    eventBreakpoint r1 ≠ eventBreakpoint r2 := by
  intro he
  unfold eventBreakpoint at he
  injection he with hf hl
  rcases h with h | h
  · exact h hf
  · exact h (castInt_inj _ _ (PDRead_findU32_lt _ _) (PDRead_findU32_lt _ _) hl)

/-! ## Breakpoint toggle: involution, commutativity, semantics -/

/-- C1. Breakpoint toggle is an involution.  For every session whose breakpoint list has no
duplicates and every toggle event (the reader positioned on it yields the location, file name and
line), applying `doToggleBreakpoint` for that event twice leaves a list with exactly the same
entries: every breakpoint is in the list after the two toggles if and only if it was in it
before, whether or not the toggled location was present. -/
theorem toggle_twice_same_set (s : Session) (reader : PDReader) (h : s.breakpoints.Nodup)
    (b : Breakpoint) :
    b ∈ (doToggleBreakpoint (doToggleBreakpoint s reader) reader).breakpoints ↔
      b ∈ s.breakpoints := by
  have h1 := doToggleBreakpoint_nodup s reader h
  rw [doToggleBreakpoint_breakpoints, mem_toggleList _ _ _ h1, doToggleBreakpoint_breakpoints,
    mem_toggleList _ _ _ h, mem_toggleList _ _ _ h]
  by_cases hb : b = eventBreakpoint reader <;> by_cases hm : eventBreakpoint reader ∈ s.breakpoints
    <;> simp_all

/-- Witness of C1 on the list holding `("main.c", 42)`, toggled at that location. -/
theorem toggle_twice_same_set_witness :
    (sessionWith [⟨"main.c", 42⟩]).breakpoints.Nodup ∧
    ((⟨"main.c", 42⟩ : Breakpoint) ∈
      (doToggleBreakpoint (doToggleBreakpoint (sessionWith [⟨"main.c", 42⟩])
        (readerOn (setBreakpointEvent "main.c" 42)))
        (readerOn (setBreakpointEvent "main.c" 42))).breakpoints ↔
      (⟨"main.c", 42⟩ : Breakpoint) ∈ (sessionWith [⟨"main.c", 42⟩]).breakpoints) :=
  ⟨by decide, toggle_twice_same_set _ _ (by decide) _⟩

/-- C2. Toggles at two distinct locations commute: on a duplicate-free breakpoint list, for two
toggle events that differ in file name or in line, toggling the first then the second leaves
exactly the same entries as toggling the second then the first. -/
theorem toggle_distinct_commute (s : Session) (r1 r2 : PDReader) (h : s.breakpoints.Nodup)
    (hne : PDRead_findString r1 "filename" ≠ PDRead_findString r2 "filename" ∨
      PDRead_findU32 r1 "line" ≠ PDRead_findU32 r2 "line")
    (b : Breakpoint) :
    b ∈ (doToggleBreakpoint (doToggleBreakpoint s r1) r2).breakpoints ↔
      b ∈ (doToggleBreakpoint (doToggleBreakpoint s r2) r1).breakpoints := by
  have hb := eventBreakpoint_ne r1 r2 hne
  have h1 := doToggleBreakpoint_nodup s r1 h
  have h2 := doToggleBreakpoint_nodup s r2 h
  rw [doToggleBreakpoint_breakpoints, mem_toggleList _ _ _ h1, doToggleBreakpoint_breakpoints,
    mem_toggleList _ _ _ h, mem_toggleList _ _ _ h,
    doToggleBreakpoint_breakpoints, mem_toggleList _ _ _ h2, doToggleBreakpoint_breakpoints,
    mem_toggleList _ _ _ h, mem_toggleList _ _ _ h]
  have hb' : eventBreakpoint r2 ≠ eventBreakpoint r1 := fun e => hb e.symm
  by_cases e1 : b = eventBreakpoint r1 <;> by_cases e2 : b = eventBreakpoint r2
    <;> by_cases m1 : eventBreakpoint r1 ∈ s.breakpoints
    <;> by_cases m2 : eventBreakpoint r2 ∈ s.breakpoints
    <;> simp_all

/-- Witness of C2 on the list holding `("main.c", 42)`, toggled at `("main.c", 42)` and at
`("main.c", 43)`, which differ in line. -/
theorem toggle_distinct_commute_witness :
    (sessionWith [⟨"main.c", 42⟩]).breakpoints.Nodup ∧
    (PDRead_findString (readerOn (setBreakpointEvent "main.c" 42)) "filename" ≠
        PDRead_findString (readerOn (setBreakpointEvent "main.c" 43)) "filename" ∨
      PDRead_findU32 (readerOn (setBreakpointEvent "main.c" 42)) "line" ≠
        PDRead_findU32 (readerOn (setBreakpointEvent "main.c" 43)) "line") ∧
    ((⟨"main.c", 43⟩ : Breakpoint) ∈
      (doToggleBreakpoint (doToggleBreakpoint (sessionWith [⟨"main.c", 42⟩])
        (readerOn (setBreakpointEvent "main.c" 42)))
        (readerOn (setBreakpointEvent "main.c" 43))).breakpoints ↔
      (⟨"main.c", 43⟩ : Breakpoint) ∈
      (doToggleBreakpoint (doToggleBreakpoint (sessionWith [⟨"main.c", 42⟩])
        (readerOn (setBreakpointEvent "main.c" 43)))
        (readerOn (setBreakpointEvent "main.c" 42))).breakpoints) :=
  ⟨by decide, by decide, toggle_distinct_commute _ _ _ (by decide) (by decide) _⟩

/-- C3. Toggle semantics of `doToggleBreakpoint`.  An entry equals the event location when its
file name is the file name read from the event and its line is the event line as an `int`, that
is when it is `eventBreakpoint reader`.  If such an entry is in the list, the result is the list
with the first such entry removed, the other entries kept in order, and it is one shorter;
otherwise the result is the list with that entry appended, and it is one longer. -/
theorem doToggleBreakpoint_semantics (s : Session) (reader : PDReader) :
    (eventBreakpoint reader ∈ s.breakpoints →
      ∃ pre post, s.breakpoints = pre ++ eventBreakpoint reader :: post ∧
        eventBreakpoint reader ∉ pre ∧
        (doToggleBreakpoint s reader).breakpoints = pre ++ post ∧
        (doToggleBreakpoint s reader).breakpoints.length + 1 = s.breakpoints.length) ∧
    (eventBreakpoint reader ∉ s.breakpoints →
      (doToggleBreakpoint s reader).breakpoints = s.breakpoints ++ [eventBreakpoint reader] ∧
      (doToggleBreakpoint s reader).breakpoints.length = s.breakpoints.length + 1) := by
  rw [doToggleBreakpoint_breakpoints]
  unfold toggleList
  constructor
  · intro hm
    rw [if_pos hm]
    obtain ⟨pre, post, hpre, hl, he⟩ := List.exists_erase_eq hm
    refine ⟨pre, post, hl, hpre, he, ?_⟩
    rw [he, hl]
    simp
    omega
  · intro hm
    rw [if_neg hm]
    simp

theorem doToggleBreakpoint_congr (s : Session) (r1 r2 : PDReader) (h : r1.current = r2.current) :
    doToggleBreakpoint s r1 = doToggleBreakpoint s r2 := by
  unfold doToggleBreakpoint PDRead_findString PDRead_findU32
  rw [h]

theorem toggleBreakpointLoop_spec (fuel : Nat) :
    ∀ (s : Session) (reader : PDReader),
      (eventsToSentinel reader.pending).length < fuel →
      toggleBreakpointLoop fuel s reader =
        ((setBreakpointEvents (eventsToSentinel reader.pending)).foldl toggleEvent s,
          PDReader.advance ((eventsToSentinel reader.pending).length + 1) reader) := by
  induction fuel with
  | zero => intro s reader h; omega
  | succ fuel ih =>
    intro s reader h
    cases hp : reader.pending with
    | nil =>
      simp [toggleBreakpointLoop, PDRead_getEvent, hp, eventsToSentinel, setBreakpointEvents,
        PDReader.advance]
    | cons e es =>
      have hget : PDRead_getEvent reader = (e.type, { reader with pending := es, current := some e }) := by
        simp [PDRead_getEvent, hp]
      by_cases hty : e.type = PDEventType.none
      · simp [toggleBreakpointLoop, hget, hty, eventsToSentinel, setBreakpointEvents,
          PDReader.advance]
      · have hets : eventsToSentinel (e :: es) = e :: eventsToSentinel es := by
          simp [eventsToSentinel, hty]
        rw [hp, hets] at h
        simp only [List.length_cons, Nat.add_lt_add_iff_right] at h
        have ih1 := fun s' => ih s' { reader with pending := es, current := some e } h
        simp only at ih1
        rw [hets]
        by_cases hsb : e.type = PDEventType.setBreakpoint
        · have htog : doToggleBreakpoint s { reader with pending := es, current := some e } =
              toggleEvent s e := doToggleBreakpoint_congr _ _ _ rfl
          simp [toggleBreakpointLoop, hget, hsb, ih1, setBreakpointEvents, PDReader.advance, htog]
        · have hloop : toggleBreakpointLoop (fuel + 1) s reader =
              toggleBreakpointLoop fuel s { reader with pending := es, current := some e } := by
            rw [toggleBreakpointLoop, hget]
            simp only [ne_eq, hty, not_false_eq_true, if_true]
          rw [hloop, ih1]
          simp [setBreakpointEvents, hsb, PDReader.advance, hget]

theorem eventsToSentinel_length_le (l : List PDEvent) : (eventsToSentinel l).length ≤ l.length := by
  unfold eventsToSentinel
  exact (List.takeWhile_sublist _).length_le

/-- Witness of C3: on the list `[("a.c", 1), ("main.c", 42), ("b.c", 2)]` the event for
`("main.c", 42)` finds its entry, and on the empty list it does not. -/
theorem doToggleBreakpoint_semantics_witness :
    (eventBreakpoint (readerOn (setBreakpointEvent "main.c" 42)) ∈
        (sessionWith [⟨"a.c", 1⟩, ⟨"main.c", 42⟩, ⟨"b.c", 2⟩]).breakpoints ∧
      (doToggleBreakpoint (sessionWith [⟨"a.c", 1⟩, ⟨"main.c", 42⟩, ⟨"b.c", 2⟩])
        (readerOn (setBreakpointEvent "main.c" 42))).breakpoints.length + 1 =
        (sessionWith [⟨"a.c", 1⟩, ⟨"main.c", 42⟩, ⟨"b.c", 2⟩]).breakpoints.length) ∧
    (eventBreakpoint (readerOn (setBreakpointEvent "main.c" 42)) ∉ (sessionWith []).breakpoints ∧
      (doToggleBreakpoint (sessionWith []) (readerOn (setBreakpointEvent "main.c" 42))).breakpoints =
        (sessionWith []).breakpoints ++ [eventBreakpoint (readerOn (setBreakpointEvent "main.c" 42))]) :=
  by
  obtain ⟨_, _, _, _, _, hlen⟩ :=
    (doToggleBreakpoint_semantics (sessionWith [⟨"a.c", 1⟩, ⟨"main.c", 42⟩, ⟨"b.c", 2⟩])
      (readerOn (setBreakpointEvent "main.c" 42))).1 (by decide)
  exact ⟨⟨by decide, hlen⟩, ⟨by decide,
    ((doToggleBreakpoint_semantics (sessionWith [])
      (readerOn (setBreakpointEvent "main.c" 42))).2 (by decide)).1⟩⟩

theorem getEvent_at_sentinel (reader : PDReader) :
    (PDRead_getEvent (PDReader.advance (eventsToSentinel reader.pending).length reader)).1 =
      PDEventType.none := by
  generalize hp : reader.pending = l
  induction l generalizing reader with
  | nil => simp [eventsToSentinel, PDReader.advance, PDRead_getEvent, hp]
  | cons e es ih =>
    by_cases hty : e.type = PDEventType.none
    · simp [eventsToSentinel, hty, PDReader.advance, PDRead_getEvent, hp]
    · have hets : eventsToSentinel (e :: es) = e :: eventsToSentinel es := by
        simp [eventsToSentinel, hty]
      have hget : PDRead_getEvent reader =
          (e.type, { reader with pending := es, current := some e }) := by
        simp [PDRead_getEvent, hp]
      rw [hets, List.length_cons, PDReader.advance, hget]
      exact ih { reader with pending := es, current := some e } rfl

/-- C5. Breakpoint scan.  For every reader, whatever events are pending on it, `toggleBreakpoint`
returns; the session it returns is the left fold of the toggle over exactly the `setBreakpoint`
events met before the end-of-stream sentinel, in stream order; the reader it returns has had one
`PDRead_getEvent` per such event plus the one that returned the zero tag; more loop iterations
than `toggleBreakpoint` allows for change nothing; and a stream without `setBreakpoint` events
leaves the session, hence its breakpoint list, unchanged. -/
theorem toggleBreakpoint_scan (s : Session) (reader : PDReader) :
    (toggleBreakpoint s reader).1 =
      (setBreakpointEvents (eventsToSentinel reader.pending)).foldl toggleEvent s ∧
    (toggleBreakpoint s reader).2 =
      PDReader.advance ((eventsToSentinel reader.pending).length + 1) reader ∧
    (PDRead_getEvent (PDReader.advance (eventsToSentinel reader.pending).length reader)).1 =
      PDEventType.none ∧
    (∀ extra, toggleBreakpointLoop (reader.pending.length + 1 + extra) s reader =
      toggleBreakpoint s reader) ∧
    (setBreakpointEvents (eventsToSentinel reader.pending) = [] →
      (toggleBreakpoint s reader).1 = s) := by
  have hlt : (eventsToSentinel reader.pending).length < reader.pending.length + 1 :=
    Nat.lt_succ_of_le (eventsToSentinel_length_le _)
  have hspec := toggleBreakpointLoop_spec (reader.pending.length + 1) s reader hlt
  refine ⟨?_, ?_, ?_, ?_, ?_⟩
  · rw [toggleBreakpoint, hspec]
  · rw [toggleBreakpoint, hspec]
  · exact getEvent_at_sentinel reader
  · intro extra
    rw [toggleBreakpoint, hspec, toggleBreakpointLoop_spec _ s reader (by omega)]
  · intro h
    rw [toggleBreakpoint, hspec, h]
    rfl

/-- Witness of C5 on a stream that holds a single `setExecutable` event. -/
theorem toggleBreakpoint_scan_witness :
    setBreakpointEvents (eventsToSentinel (PDBinaryReader_initStream (fun _ => 1)
      [{ type := PDEventType.setExecutable, fields := [("filename", PDValue.str "a.out")] }]
      5).pending) = [] ∧
    (toggleBreakpoint (sessionWith [⟨"main.c", 42⟩]) (PDBinaryReader_initStream (fun _ => 1)
      [{ type := PDEventType.setExecutable, fields := [("filename", PDValue.str "a.out")] }]
      5)).1 = sessionWith [⟨"main.c", 42⟩] :=
  ⟨by decide, (toggleBreakpoint_scan _ _).2.2.2.2 (by decide)⟩

/-! ## Lemmas on writer references -/

@[simp] theorem setWriter_type (s : Session) (ref : WriterRef) (w : PDWriter) :
    (s.setWriter ref w).type = s.type := by cases ref <;> rfl

@[simp] theorem setWriter_reader (s : Session) (ref : WriterRef) (w : PDWriter) :
    (s.setWriter ref w).reader = s.reader := by cases ref <;> rfl

@[simp] theorem setWriter_currentWriter (s : Session) (ref : WriterRef) (w : PDWriter) :
    (s.setWriter ref w).currentWriter = s.currentWriter := by cases ref <;> rfl

@[simp] theorem setWriter_prevWriter (s : Session) (ref : WriterRef) (w : PDWriter) :
    (s.setWriter ref w).prevWriter = s.prevWriter := by cases ref <;> rfl

@[simp] theorem setWriter_backend (s : Session) (ref : WriterRef) (w : PDWriter) :
    (s.setWriter ref w).backend = s.backend := by cases ref <;> rfl

@[simp] theorem setWriter_connection (s : Session) (ref : WriterRef) (w : PDWriter) :
    (s.setWriter ref w).connection = s.connection := by cases ref <;> rfl

@[simp] theorem setWriter_viewPlugins (s : Session) (ref : WriterRef) (w : PDWriter) :
    (s.setWriter ref w).viewPlugins = s.viewPlugins := by cases ref <;> rfl

@[simp] theorem setWriter_breakpoints (s : Session) (ref : WriterRef) (w : PDWriter) :
    (s.setWriter ref w).breakpoints = s.breakpoints := by cases ref <;> rfl

@[simp] theorem setWriter_state (s : Session) (ref : WriterRef) (w : PDWriter) :
    (s.setWriter ref w).state = s.state := by cases ref <;> rfl

@[simp] theorem writer_setWriter_same (s : Session) (ref : WriterRef) (w : PDWriter) :
    (s.setWriter ref w).writer ref = w := by cases ref <;> rfl

theorem writer_setWriter_ne (s : Session) (ref ref' : WriterRef) (w : PDWriter) (h : ref' ≠ ref) :
    (s.setWriter ref w).writer ref' = s.writer ref' := by
  cases ref <;> cases ref' <;> first | rfl | exact absurd rfl h

@[simp] theorem setWriter_setWriter (s : Session) (ref : WriterRef) (w w' : PDWriter) :
    (s.setWriter ref w).setWriter ref w' = s.setWriter ref w' := by cases ref <;> rfl

@[simp] theorem writer_withReader (s : Session) (r : PDReader) (ref : WriterRef) :
    ({ s with reader := r }).writer ref = s.writer ref := by cases ref <;> rfl

@[simp] theorem setWriter_withReader (s : Session) (r : PDReader) (ref : WriterRef) (w : PDWriter) :
    ({ s with reader := r }).setWriter ref w = { s.setWriter ref w with reader := r } := by
  cases ref <;> rfl

@[simp] theorem reset_reset (r : PDReader) :
    PDBinaryReader_reset (PDBinaryReader_reset r) = PDBinaryReader_reset r := rfl

@[simp] theorem reset_getEvent (r : PDReader) :
    PDBinaryReader_reset (PDRead_getEvent r).2 = PDBinaryReader_reset r := by
  unfold PDRead_getEvent
  split <;> rfl

@[simp] theorem reset_advance (n : Nat) (r : PDReader) :
    PDBinaryReader_reset (PDReader.advance n r) = PDBinaryReader_reset r := by
  induction n generalizing r with
  | zero => rfl
  | succ n ih => rw [PDReader.advance, ih, reset_getEvent]

@[simp] theorem reset_initStream (sz : PDEvent → Nat) (data : List PDEvent) (size : Nat) :
    PDBinaryReader_reset (PDBinaryReader_initStream sz data size) =
      PDBinaryReader_initStream sz data size := rfl

@[simp] theorem append_append (w : PDWriter) (a b : List PDEvent) :
    (w.append a).append b = w.append (a ++ b) := by
  simp [PDWriter.append]

@[simp] theorem append_nil (w : PDWriter) : w.append [] = w := by
  simp [PDWriter.append]

theorem writer_setWriter (s : Session) (ref ref' : WriterRef) (w : PDWriter) :
    (s.setWriter ref w).writer ref' = if ref' = ref then w else s.writer ref' := by
  cases ref <;> cases ref' <;> simp [Session.setWriter, Session.writer]

@[simp] theorem control_setWriter (s : Session) (ref : WriterRef) (w : PDWriter) :
    (s.setWriter ref w).control = s.control := by cases ref <;> rfl

@[simp] theorem control_withReader (s : Session) (r : PDReader) :
    ({ s with reader := r }).control = s.control := rfl

theorem control_fields {s' t : Session} (h : s'.control = t) :
    s'.type = t.type ∧ s'.currentWriter = t.currentWriter ∧ s'.prevWriter = t.prevWriter ∧
    s'.backend = t.backend ∧ s'.connection = t.connection ∧ s'.viewPlugins = t.viewPlugins ∧
    s'.breakpoints = t.breakpoints ∧ s'.state = t.state := by
  have h1 := congrArg Session.type h
  have h2 := congrArg Session.currentWriter h
  have h3 := congrArg Session.prevWriter h
  have h4 := congrArg Session.backend h
  have h5 := congrArg Session.connection h
  have h6 := congrArg Session.viewPlugins h
  have h7 := congrArg Session.breakpoints h
  have h8 := congrArg Session.state h
  exact ⟨h1, h2, h3, h4, h5, h6, h7, h8⟩

@[simp] theorem control_type (s : Session) : s.control.type = s.type := rfl

@[simp] theorem control_currentWriter (s : Session) :
    s.control.currentWriter = s.currentWriter := rfl

@[simp] theorem control_prevWriter (s : Session) : s.control.prevWriter = s.prevWriter := rfl

@[simp] theorem control_backend (s : Session) : s.control.backend = s.backend := rfl

@[simp] theorem control_connection (s : Session) : s.control.connection = s.connection := rfl

@[simp] theorem control_viewPlugins (s : Session) : s.control.viewPlugins = s.viewPlugins := rfl

@[simp] theorem control_breakpoints (s : Session) : s.control.breakpoints = s.breakpoints := rfl

@[simp] theorem control_state (s : Session) : s.control.state = s.state := rfl

/-! ## Lemmas on the view plugin loop -/

/-- One iteration of the view plugin loop, field by field. -/
theorem updateViewPlugin_step (env : Env W) (m : Sys W) (p : ViewPluginInstance) :
    (updateViewPlugin env m p).trace =
      m.trace ++ [Call.updateInstance p m.session.reader m.session.currentWriter
        (m.session.writer m.session.currentWriter)
        (env.updateInstance m.world p m.session.reader
          (m.session.writer m.session.currentWriter)).2] ∧
    (updateViewPlugin env m p).session.control = m.session.control ∧
    (updateViewPlugin env m p).session.reader = PDBinaryReader_reset m.session.reader ∧
    (∀ ref, (updateViewPlugin env m p).session.writer ref =
      if ref = m.session.currentWriter then
        (m.session.writer m.session.currentWriter).append
          (env.updateInstance m.world p m.session.reader
            (m.session.writer m.session.currentWriter)).2.written
      else m.session.writer ref) ∧
    (updateViewPlugin env m p).markDeleted =
      (if (env.updateInstance m.world p m.session.reader
          (m.session.writer m.session.currentWriter)).2.state = PluginUIState.CloseView
        then p :: m.markDeleted else m.markDeleted) ∧
    (updateViewPlugin env m p).world =
      (env.updateInstance m.world p m.session.reader
        (m.session.writer m.session.currentWriter)).1 := by
  obtain ⟨⟨ty, w0, w1, t0, t1, rd, cur, prev, be, conn, vps, bps, st⟩, md, world, tr⟩ := m
  unfold updateViewPlugin PluginUI_updateInstance UIDock_deleteView
  cases cur <;> simp only [Session.setWriter, Session.writer, Session.control] <;>
    split_ifs <;> refine ⟨rfl, rfl, reset_advance _ _, ?_, rfl, rfl⟩ <;> intro ref <;> cases ref <;> simp

/-- The view plugin loop started with the reader at the start of its stream: the calls it makes,
what it leaves in the session and which instances it flags. -/
theorem updateViewPlugins_fold (env : Env W) (ps : List ViewPluginInstance) :
    ∀ m : Sys W, PDBinaryReader_reset m.session.reader = m.session.reader →
    ∃ seg : List Call,
      (ps.foldl (updateViewPlugin env) m).trace = m.trace ++ seg ∧
      (ps.foldl (updateViewPlugin env) m).session.control = m.session.control ∧
      (ps.foldl (updateViewPlugin env) m).session.reader = m.session.reader ∧
      (∀ ref, (ps.foldl (updateViewPlugin env) m).session.writer ref =
        if ref = m.session.currentWriter then
          (m.session.writer m.session.currentWriter).append (seg.flatMap Call.written)
        else m.session.writer ref) ∧
      seg.map Call.viewPlugin = ps.map some ∧
      seg.map Call.viewReader = List.replicate ps.length (some m.session.reader) ∧
      seg.map Call.viewWriter = List.replicate ps.length (some m.session.currentWriter) ∧
      (∀ q, q ∈ (ps.foldl (updateViewPlugin env) m).markDeleted ↔
        q ∈ m.markDeleted ∨ q ∈ seg.filterMap Call.closedView) := by
  induction ps with
  | nil =>
    intro m hr
    refine ⟨[], by simp, rfl, rfl, ?_, rfl, rfl, rfl, by simp⟩
    intro ref
    simp only [List.foldl_nil, List.flatMap_nil, append_nil]
    split_ifs with h
    · rw [h]
    · rfl
  | cons p ps ih =>
    intro m hr
    obtain ⟨htr1, hc1, hr1, hw1, hmd1, -⟩ := updateViewPlugin_step env m p
    have hcur1 := (control_fields hc1).2.1
    rw [hr] at hr1
    obtain ⟨seg, htr, hc, hrd, hw, hp, hvr, hvw, hmd⟩ :=
      ih (updateViewPlugin env m p) (by rw [hr1, hr])
    rw [List.foldl_cons]
    refine ⟨Call.updateInstance p m.session.reader m.session.currentWriter
          (m.session.writer m.session.currentWriter)
          (env.updateInstance m.world p m.session.reader
            (m.session.writer m.session.currentWriter)).2 :: seg, ?_, ?_, ?_, ?_, ?_, ?_, ?_, ?_⟩
    · rw [htr, htr1]; simp
    · rw [hc, hc1]
    · rw [hrd, hr1]
    · intro ref
      rw [hw, hcur1]
      by_cases h : ref = m.session.currentWriter
      · simp [h, hw1, List.flatMap_cons, Call.written]
      · simp [h, hw1]
    · rw [List.map_cons, hp]; rfl
    · rw [List.map_cons, hvr, hr1]
      simp [List.replicate_succ, Call.viewReader]
    · rw [List.map_cons, hvw, hcur1]
      simp [List.replicate_succ, Call.viewWriter]
    · intro q
      rw [hmd, hmd1]
      simp only [List.filterMap_cons, Call.closedView]
      split_ifs with hcl
      · simp only [List.mem_cons, List.mem_filterMap]
        tauto
      · simp

/-! ## Lemmas on the stages of the local tick -/

theorem updateLocal_stages (env : Env W) (m : Sys W) (action : PDAction) :
    updateLocal env m action =
      localScan (localFanOut env (localBackend env (localPrepare env m) action)) := by
  obtain ⟨⟨ty, w0, w1, t0, t1, rd, cur, prev, be, conn, vps, bps, st⟩, md, world, tr⟩ := m
  cases cur <;> cases prev <;> rfl

theorem toggleEvent_eq (s : Session) (e : PDEvent) :
    toggleEvent s e =
      { s with breakpoints := toggleList (eventBreakpoint (readerOn e)) s.breakpoints } := by
  unfold toggleEvent doToggleBreakpoint toggleList eventBreakpoint
  simp only [eraseFirstMatch_eq]
  split_ifs <;> rfl

theorem foldl_toggleEvent_eq (es : List PDEvent) (s : Session) :
    es.foldl toggleEvent s =
      { s with breakpoints := es.foldl toggleListEvent s.breakpoints } := by
  induction es generalizing s with
  | nil => rfl
  | cons e es ih => rw [List.foldl_cons, ih, toggleEvent_eq]; rfl

theorem foldl_toggleList_nodup (es : List PDEvent) (l : List Breakpoint) (h : l.Nodup) :
    (es.foldl toggleListEvent l).Nodup := by
  induction es generalizing l with
  | nil => exact h
  | cons e es ih => exact ih _ (toggleList_nodup _ _ h)

theorem toggleBreakpoint_fst (s : Session) (reader : PDReader) :
    (toggleBreakpoint s reader).1 =
      (setBreakpointEvents (eventsToSentinel reader.pending)).foldl toggleEvent s := by
  rw [toggleBreakpoint, toggleBreakpointLoop_spec _ s reader
    (Nat.lt_succ_of_le (eventsToSentinel_length_le _))]

/-- The breakpoint scan changes the breakpoint list and moves the reader, nothing else. -/
theorem localScan_eq (m : Sys W) :
    localScan m =
      { m with session :=
        { m.session with
          breakpoints := (toggleBreakpoint m.session m.session.reader).1.breakpoints
          reader := (toggleBreakpoint m.session m.session.reader).2 } } := by
  unfold localScan
  have h := toggleBreakpoint_fst m.session m.session.reader
  rw [foldl_toggleEvent_eq] at h
  simp only [h]

theorem toggleBreakpoint_nodup (s : Session) (reader : PDReader) (h : s.breakpoints.Nodup) :
    (toggleBreakpoint s reader).1.breakpoints.Nodup := by
  rw [toggleBreakpoint_fst, foldl_toggleEvent_eq]
  exact foldl_toggleList_nodup _ _ h

/-- The first stage of the local tick, field by field. -/
theorem localPrepare_spec (env : Env W) (m : Sys W) :
    (localPrepare env m).trace = m.trace ∧
    (localPrepare env m).world = m.world ∧
    (localPrepare env m).markDeleted = m.markDeleted ∧
    (localPrepare env m).session.control =
      { m.session.control with
        currentWriter := m.session.prevWriter
        prevWriter := m.session.currentWriter } ∧
    (localPrepare env m).session.reader =
      PDBinaryReader_initStream env.eventSize (m.session.writer m.session.currentWriter).events
        (if m.session.state = PDDebugState.running then 0
          else PDBinaryWriter_getSize env.eventSize (m.session.writer m.session.currentWriter)) ∧
    (∀ ref, (localPrepare env m).session.writer ref =
      if ref = m.session.prevWriter then PDBinaryWriter_init
      else if ref = m.session.currentWriter then
        PDBinaryWriter_finalize (m.session.writer m.session.currentWriter)
      else m.session.writer ref) := by
  obtain ⟨⟨ty, w0, w1, t0, t1, rd, cur, prev, be, conn, vps, bps, st⟩, md, world, tr⟩ := m
  refine ⟨rfl, rfl, rfl, ?_, ?_, ?_⟩
  · cases cur <;> cases prev <;> rfl
  · cases cur <;> cases prev <;> rfl
  · intro ref
    cases cur <;> cases prev <;> cases ref <;> rfl

/-- The backend call, field by field. -/
theorem callBackendUpdate_spec (env : Env W) (m : Sys W) (b : PDBackendInstance)
    (action : PDAction) :
    (callBackendUpdate env m b action).trace =
      m.trace ++ [Call.backendUpdate b action m.session.reader m.session.currentWriter
        (m.session.writer m.session.currentWriter)
        (env.backendUpdate m.world b action m.session.reader
          (m.session.writer m.session.currentWriter)).2] ∧
    (callBackendUpdate env m b action).world =
      (env.backendUpdate m.world b action m.session.reader
        (m.session.writer m.session.currentWriter)).1 ∧
    (callBackendUpdate env m b action).markDeleted = m.markDeleted ∧
    (callBackendUpdate env m b action).session.control =
      { m.session.control with
        state := (env.backendUpdate m.world b action m.session.reader
          (m.session.writer m.session.currentWriter)).2.state } ∧
    (callBackendUpdate env m b action).session.reader =
      PDReader.advance (env.backendUpdate m.world b action m.session.reader
        (m.session.writer m.session.currentWriter)).2.consumed m.session.reader ∧
    (∀ ref, (callBackendUpdate env m b action).session.writer ref =
      if ref = m.session.currentWriter then
        (m.session.writer m.session.currentWriter).append
          (env.backendUpdate m.world b action m.session.reader
            (m.session.writer m.session.currentWriter)).2.written
      else m.session.writer ref) := by
  obtain ⟨⟨ty, w0, w1, t0, t1, rd, cur, prev, be, conn, vps, bps, st⟩, md, world, tr⟩ := m
  refine ⟨rfl, rfl, rfl, ?_, ?_, ?_⟩
  · cases cur <;> rfl
  · cases cur <;> rfl
  · intro ref
    cases cur <;> cases ref <;> rfl

/-- The view plugin stage of the local tick. -/
theorem localFanOut_spec (env : Env W) (m : Sys W) :
    ∃ seg : List Call,
      (localFanOut env m).trace = m.trace ++ seg ∧
      (localFanOut env m).session.control = m.session.control ∧
      (localFanOut env m).session.reader =
        PDBinaryReader_initStream env.eventSize (m.session.writer m.session.prevWriter).events
          (PDBinaryWriter_getSize env.eventSize (m.session.writer m.session.prevWriter)) ∧
      (∀ ref, (localFanOut env m).session.writer ref =
        if ref = m.session.currentWriter then
          (m.session.writer m.session.currentWriter).append (seg.flatMap Call.written)
        else m.session.writer ref) ∧
      seg.map Call.viewPlugin = m.session.viewPlugins.map some ∧
      seg.map Call.viewReader = List.replicate m.session.viewPlugins.length
        (some (PDBinaryReader_initStream env.eventSize
          (m.session.writer m.session.prevWriter).events
          (PDBinaryWriter_getSize env.eventSize (m.session.writer m.session.prevWriter)))) ∧
      seg.map Call.viewWriter =
        List.replicate m.session.viewPlugins.length (some m.session.currentWriter) ∧
      (∀ q, q ∈ (localFanOut env m).markDeleted ↔
        q ∈ m.markDeleted ∨ q ∈ seg.filterMap Call.closedView) := by
  unfold localFanOut updateViewPlugins
  have h := updateViewPlugins_fold env m.session.viewPlugins
    { m with session := { m.session with reader := (PDBinaryReader_initStream env.eventSize
        (m.session.writer m.session.prevWriter).events
        (PDBinaryWriter_getSize env.eventSize (m.session.writer m.session.prevWriter))) } } rfl
  obtain ⟨seg, h1, h2, h3, h4, h5, h6, h7, h8⟩ := h
  exact ⟨seg, h1, h2, h3, by simpa using h4, h5, h6, h7, h8⟩

theorem localBackend_spec (env : Env W) (m : Sys W) (action : PDAction) :
    (localBackend env (localPrepare env m) action).trace =
      m.trace ++ localBackendCall env m action ∧
    (localBackend env (localPrepare env m) action).markDeleted = m.markDeleted ∧
    (localBackend env (localPrepare env m) action).session.control =
      { m.session.control with
        currentWriter := m.session.prevWriter
        prevWriter := m.session.currentWriter
        state := localState env m action } ∧
    (∀ ref, (localBackend env (localPrepare env m) action).session.writer ref =
      if ref = m.session.prevWriter then
        PDBinaryWriter_init.append ((localBackendCall env m action).flatMap Call.written)
      else if ref = m.session.currentWriter then
        PDBinaryWriter_finalize (m.session.writer m.session.currentWriter)
      else m.session.writer ref) := by
  obtain ⟨h1, h2, h3, h4, h5, h6⟩ := localPrepare_spec env m
  obtain ⟨-, hcur, hprev, hbe, -, -, -, hst⟩ := control_fields h4
  replace hcur : (localPrepare env m).session.currentWriter = m.session.prevWriter := hcur
  replace hbe : (localPrepare env m).session.backend = m.session.backend := hbe
  have hw : (localPrepare env m).session.writer (localPrepare env m).session.currentWriter =
      PDBinaryWriter_init := by
    rw [h6, hcur]; simp
  have hw' : (localPrepare env m).session.writer m.session.prevWriter = PDBinaryWriter_init := by
    rw [h6]; simp
  have hrd : (localPrepare env m).session.reader = localRequest env m := h5
  unfold localBackend localBackendCall localState
  rw [hbe]
  cases hb : m.session.backend with
  | none =>
    simp only [List.append_nil, List.flatMap_nil, append_nil]
    refine ⟨h1, h3, ?_, h6⟩
    rw [h4]
    clear h1 h2 h3 h4 h5 h6 hcur hprev hbe hst hw hw' hrd
    obtain ⟨⟨ty, w0, w1, t0, t1, rd, cur, prev, be, conn, vps, bps, st⟩, md, world, tr⟩ := m
    rfl
  | some b =>
    obtain ⟨c1, c2, c3, c4, c5, c6⟩ := callBackendUpdate_spec env (localPrepare env m) b action
    simp only
    rw [hw, hrd, hcur, h2] at c1
    rw [hw, hrd, h2] at c4
    rw [h1] at c1
    refine ⟨c1, c3.trans h3, ?_, ?_⟩
    · rw [c4, h4]
    · intro ref
      rw [c6, hcur, hw', hrd, h2, h6]
      by_cases hr : ref = m.session.prevWriter
      · simp [hr, Call.written]
      · simp [hr]

@[simp] theorem writer_withScan (s : Session) (l : List Breakpoint) (r : PDReader)
    (ref : WriterRef) : ({ s with breakpoints := l, reader := r }).writer ref = s.writer ref := by
  cases ref <;> rfl

/-- The local tick on a session whose two writer roles are distinct. -/
theorem updateLocal_spec (env : Env W) (m : Sys W) (action : PDAction)
    (hne : m.session.currentWriter ≠ m.session.prevWriter) :
    ∃ pre seg, LocalTick env m action pre seg := by
  obtain ⟨b1, b2, b3, b4⟩ := localBackend_spec env m action
  obtain ⟨bty, bcur, bprev, bbe, bconn, bvps, bbps, bst⟩ := control_fields b3
  replace bcur : (localBackend env (localPrepare env m) action).session.currentWriter =
    m.session.prevWriter := bcur
  replace bprev : (localBackend env (localPrepare env m) action).session.prevWriter =
    m.session.currentWriter := bprev
  replace bvps : (localBackend env (localPrepare env m) action).session.viewPlugins =
    m.session.viewPlugins := bvps
  have bwc : (localBackend env (localPrepare env m) action).session.writer
      m.session.currentWriter = PDBinaryWriter_finalize (m.session.writer m.session.currentWriter) := by
    rw [b4]; simp [hne]
  have bwp : (localBackend env (localPrepare env m) action).session.writer
      m.session.prevWriter =
      PDBinaryWriter_init.append ((localBackendCall env m action).flatMap Call.written) := by
    rw [b4]; simp
  obtain ⟨seg, f1, f2, f3, f4, f5, f6, f7, f8⟩ :=
    localFanOut_spec env (localBackend env (localPrepare env m) action)
  rw [bprev, bwc] at f3 f6
  rw [bvps] at f5 f6 f7
  rw [bcur] at f7
  have hR : PDBinaryReader_initStream env.eventSize
      (PDBinaryWriter_finalize (m.session.writer m.session.currentWriter)).events
      (PDBinaryWriter_getSize env.eventSize
        (PDBinaryWriter_finalize (m.session.writer m.session.currentWriter))) =
      localStream env m := rfl
  rw [hR] at f3 f6
  obtain ⟨fty, fcur, fprev, fbe, fconn, fvps, fbps, fst⟩ := control_fields f2
  have hup : updateLocal env m action =
      localScan (localFanOut env (localBackend env (localPrepare env m) action)) :=
    updateLocal_stages env m action
  rw [localScan_eq] at hup
  refine ⟨localBackendCall env m action, seg, ?_⟩
  constructor
  · rw [hup]; simp only; rw [f1, b1, List.append_assoc]
  · rfl
  · exact f5
  · exact f6
  · exact f7
  · rw [hup]; exact fty.trans bty
  · rw [hup]; exact fbe.trans bbe
  · rw [hup]; exact fconn.trans bconn
  · rw [hup]; exact fvps.trans bvps
  · rw [hup]; exact fcur.trans bcur
  · rw [hup]; exact fprev.trans bprev
  · rw [hup]; exact fst.trans bst
  · rw [hup]; simp only
    rw [toggleBreakpoint_fst, foldl_toggleEvent_eq, f3]
    simp only
    rw [fbps]
    have hb : (localBackend env (localPrepare env m) action).session.control.breakpoints =
        m.session.breakpoints := bbps
    rw [hb]
    rfl
  · intro ref
    rw [hup]; simp only [writer_withScan]
    rw [f4, bcur, bwp, b4]
    by_cases hr : ref = m.session.prevWriter
    · simp [hr]
    · simp [hr]
  · intro q
    rw [hup]; simp only
    rw [f8, b2]

/-- The local tick exchanges the writer roles and keeps the transport and the view plugin list,
whatever the two roles point at. -/
theorem updateLocal_control (env : Env W) (m : Sys W) (action : PDAction) :
    (updateLocal env m action).session.currentWriter = m.session.prevWriter ∧
    (updateLocal env m action).session.prevWriter = m.session.currentWriter ∧
    (updateLocal env m action).session.type = m.session.type ∧
    (updateLocal env m action).session.backend = m.session.backend ∧
    (updateLocal env m action).session.connection = m.session.connection ∧
    (updateLocal env m action).session.viewPlugins = m.session.viewPlugins ∧
    (m.session.breakpoints.Nodup → (updateLocal env m action).session.breakpoints.Nodup) := by
  obtain ⟨-, -, b3, -⟩ := localBackend_spec env m action
  obtain ⟨bty, bcur, bprev, bbe, bconn, bvps, bbps, -⟩ := control_fields b3
  obtain ⟨seg, -, f2, -, -, -, -, -, -⟩ :=
    localFanOut_spec env (localBackend env (localPrepare env m) action)
  obtain ⟨fty, fcur, fprev, fbe, fconn, fvps, fbps, -⟩ := control_fields f2
  have hup : updateLocal env m action =
      localScan (localFanOut env (localBackend env (localPrepare env m) action)) :=
    updateLocal_stages env m action
  rw [localScan_eq] at hup
  rw [hup]
  refine ⟨fcur.trans bcur, fprev.trans bprev, fty.trans bty, fbe.trans bbe, fconn.trans bconn,
    fvps.trans bvps, ?_⟩
  intro hnd
  apply toggleBreakpoint_nodup
  have h : (localFanOut env (localBackend env (localPrepare env m) action)).session.breakpoints =
      m.session.breakpoints := fbps.trans bbps
  rw [h]
  exact hnd

theorem updateRemote_stages (env : Env W) (m : Sys W) (action : PDAction) :
    updateRemote env m action =
      match m.session.connection with
      | Option.none => m
      | some conn => remoteFinish env (updateViewPlugins env (remoteInbound env m conn)) conn := by
  unfold updateRemote
  cases m.session.connection <;> rfl

/-! ## Lemmas on the stages of the remote tick -/

/-- The receive stage of the remote tick, field by field. -/
theorem remoteInbound_spec (env : Env W) (m : Sys W) (conn : RemoteConnection) :
    ∃ pre : List Call,
      (remoteInbound env m conn).trace = m.trace ++ pre ∧
      (pre = [Call.pollRead conn] ∨ pre = [Call.pollRead conn, Call.recv conn 4] ∨
        ∃ cmd, pre = [Call.pollRead conn, Call.recv conn 4,
          Call.recvStream conn (decodeTotalSize cmd)]) ∧
      (remoteInbound env m conn).markDeleted = m.markDeleted ∧
      (remoteInbound env m conn).session.control = m.session.control ∧
      PDBinaryReader_reset (remoteInbound env m conn).session.reader =
        (remoteInbound env m conn).session.reader ∧
      (∀ ref, (remoteInbound env m conn).session.writer ref = m.session.writer ref) := by
  unfold remoteInbound
  simp only
  split_ifs with hp
  · unfold remoteReceive
    simp only
    cases hrc : (env.RemoteConnection_recv (env.RemoteConnection_pollRead m.world conn).1 conn 4).2 with
    | none =>
      refine ⟨[Call.pollRead conn, Call.recv conn 4], by simp, Or.inr (Or.inl rfl), rfl, rfl, rfl,
        fun ref => by cases ref <;> rfl⟩
    | some cmd =>
      refine ⟨[Call.pollRead conn, Call.recv conn 4, Call.recvStream conn (decodeTotalSize cmd)],
        by simp, Or.inr (Or.inr ⟨cmd, rfl⟩), rfl, rfl, rfl, fun ref => by cases ref <;> rfl⟩
  · exact ⟨[Call.pollRead conn], rfl, Or.inl rfl, rfl, rfl, rfl, fun ref => by cases ref <;> rfl⟩

/-- The transmit step changes the world and the trace only. -/
theorem remoteSend_spec (env : Env W) (m : Sys W) (conn : RemoteConnection) :
    ∃ post : List Call,
      (remoteSend env m conn).trace = m.trace ++ post ∧
      (post = [] ∨ post = [Call.isConnected (some conn)] ∨
        ∃ w, post = [Call.isConnected (some conn), Call.sendStream conn w]) ∧
      (remoteSend env m conn).markDeleted = m.markDeleted ∧
      (remoteSend env m conn).session = m.session := by
  unfold remoteSend
  simp only
  split_ifs with h1 h2
  · exact ⟨[Call.isConnected (some conn),
        Call.sendStream conn (m.session.writer m.session.prevWriter)], by simp,
      Or.inr (Or.inr ⟨_, rfl⟩), rfl, rfl⟩
  · exact ⟨[Call.isConnected (some conn)], rfl, Or.inr (Or.inl rfl), rfl, rfl⟩
  · exact ⟨[], by simp, Or.inl rfl, rfl, rfl⟩

/-- The last stage of the remote tick, field by field. -/
theorem remoteFinish_spec (env : Env W) (m : Sys W) (conn : RemoteConnection) :
    ∃ post : List Call,
      (remoteFinish env m conn).trace = m.trace ++ post ∧
      (post = [] ∨ post = [Call.isConnected (some conn)] ∨
        ∃ w, post = [Call.isConnected (some conn), Call.sendStream conn w]) ∧
      (remoteFinish env m conn).markDeleted = m.markDeleted ∧
      (remoteFinish env m conn).session.control =
        { m.session.control with
          currentWriter := m.session.prevWriter
          prevWriter := m.session.currentWriter } ∧
      (remoteFinish env m conn).session.reader = m.session.reader ∧
      (∀ ref, (remoteFinish env m conn).session.writer ref =
        if ref = m.session.prevWriter then PDBinaryWriter_init
        else if ref = m.session.currentWriter then
          PDBinaryWriter_finalize (m.session.writer m.session.currentWriter)
        else m.session.writer ref) := by
  unfold remoteFinish
  simp only
  generalize hm1 : ({ m with session := _ } : Sys W) = m1
  obtain ⟨post, p1, p2, p3, p4⟩ := remoteSend_spec env m1 conn
  refine ⟨post, ?_, p2, ?_, ?_, ?_, ?_⟩
  · simp only [p1]; rw [← hm1]
  · simp only [p3]; rw [← hm1]
  · rw [p4, ← hm1]
    obtain ⟨⟨ty, w0, w1, t0, t1, rd, cur, prev, be, conn, vps, bps, st⟩, md, world, tr⟩ := m
    cases cur <;> cases prev <;> rfl
  · rw [p4, ← hm1]
    obtain ⟨⟨ty, w0, w1, t0, t1, rd, cur, prev, be, conn, vps, bps, st⟩, md, world, tr⟩ := m
    cases cur <;> cases prev <;> rfl
  · intro ref
    rw [p4, ← hm1]
    obtain ⟨⟨ty, w0, w1, t0, t1, rd, cur, prev, be, conn, vps, bps, st⟩, md, world, tr⟩ := m
    cases cur <;> cases prev <;> cases ref <;> rfl

/-- The remote tick on a session that holds a connection. -/
theorem updateRemote_spec (env : Env W) (m : Sys W) (conn : RemoteConnection)
    (action : PDAction) (hconn : m.session.connection = some conn) :
    ∃ pre seg post, RemoteTick env m conn action pre seg post := by
  obtain ⟨pre, i1, i2, i3, i4, i5, i6⟩ := remoteInbound_spec env m conn
  obtain ⟨ity, icur, iprev, ibe, iconn, ivps, ibps, ist⟩ := control_fields i4
  replace icur : (remoteInbound env m conn).session.currentWriter = m.session.currentWriter := icur
  replace ivps : (remoteInbound env m conn).session.viewPlugins = m.session.viewPlugins := ivps
  obtain ⟨seg, f1, f2, f3, f4, f5, f6, f7, f8⟩ :=
    updateViewPlugins_fold env (remoteInbound env m conn).session.viewPlugins
      (remoteInbound env m conn) i5
  change (updateViewPlugins env (remoteInbound env m conn)).trace = _ at f1
  change (updateViewPlugins env (remoteInbound env m conn)).session.control = _ at f2
  change (updateViewPlugins env (remoteInbound env m conn)).session.reader = _ at f3
  change ∀ ref, (updateViewPlugins env (remoteInbound env m conn)).session.writer ref = _ at f4
  change ∀ q, q ∈ (updateViewPlugins env (remoteInbound env m conn)).markDeleted ↔ _ at f8
  rw [ivps] at f5 f6 f7
  rw [icur] at f7
  obtain ⟨fty, fcur, fprev, fbe, fconn, fvps, fbps, fst⟩ := control_fields f2
  obtain ⟨post, p1, p2, p3, p4, p5, p6⟩ :=
    remoteFinish_spec env (updateViewPlugins env (remoteInbound env m conn)) conn
  obtain ⟨pty, pcur, pprev, pbe, pconn, pvps, pbps, pst⟩ := control_fields p4
  have hup : updateRemote env m action =
      remoteFinish env (updateViewPlugins env (remoteInbound env m conn)) conn := by
    rw [updateRemote_stages, hconn]
  refine ⟨pre, seg, post, ?_⟩
  constructor
  · rw [hup, p1, f1, i1]; simp
  · exact i2
  · exact p2
  · exact f5
  · exact f6
  · exact i5
  · exact f7
  · rw [hup]; exact (pty.trans fty).trans ity
  · rw [hup]; exact (pbe.trans fbe).trans ibe
  · rw [hup]; exact (pconn.trans fconn).trans iconn
  · rw [hup]; exact (pvps.trans fvps).trans ivps
  · rw [hup]; exact (pbps.trans fbps).trans ibps
  · rw [hup]; exact (pst.trans fst).trans ist
  · rw [hup]; exact pcur.trans (fprev.trans iprev)
  · rw [hup]; exact pprev.trans (fcur.trans icur)
  · intro ref
    have hc : (updateViewPlugins env (remoteInbound env m conn)).session.currentWriter =
        m.session.currentWriter := fcur.trans icur
    have hp : (updateViewPlugins env (remoteInbound env m conn)).session.prevWriter =
        m.session.prevWriter := fprev.trans iprev
    rw [hup, p6, hc, hp, f4, icur, i6]
    by_cases h1 : ref = m.session.prevWriter
    · simp [h1]
    · by_cases h2 : ref = m.session.currentWriter
      · simp [h1, h2]
      · simp [h1, h2, f4, icur, i6]
  · intro q
    rw [hup, p3, f8, i3]
  · exact i1
  · rw [f1, i1, List.append_assoc]
  · exact fcur.trans icur
  · rw [f4, icur, i6]
    simp

/-! ## Lemmas on the view plugin registry -/

/-- Removing a view plugin changes the view plugin list and records the call, nothing else. -/
theorem Session_removeViewPlugin_frame (m : Sys W) (p : ViewPluginInstance) :
    ∃ vps, (Session_removeViewPlugin m p).1 =
      { m with session := { m.session with viewPlugins := vps }
               trace := m.trace ++ [Call.removeViewPlugin p] } := by
  unfold Session_removeViewPlugin
  simp only
  split_ifs
  · exact ⟨m.session.viewPlugins, rfl⟩
  · exact ⟨_, rfl⟩
  · split
    · exact ⟨_, rfl⟩
    · exact ⟨m.session.viewPlugins, rfl⟩

/-- The cleanup loop changes the view plugin list and records its removals, nothing else. -/
theorem updateMarkedDeleteLoop_frame (fuel : Nat) :
    ∀ (m : Sys W) (i count : Nat), ∃ vps seg,
      updateMarkedDeleteLoop fuel m i count =
        { m with session := { m.session with viewPlugins := vps }, trace := m.trace ++ seg } ∧
      ∀ c ∈ seg, c.isRemove := by
  induction fuel with
  | zero =>
    intro m i count
    exact ⟨m.session.viewPlugins, [], by simp [updateMarkedDeleteLoop], by simp⟩
  | succ fuel ih =>
    intro m i count
    rw [updateMarkedDeleteLoop]
    split_ifs with hi
    · split
      · rename_i p hp
        split_ifs with hdel
        · obtain ⟨vps1, h1⟩ := Session_removeViewPlugin_frame m p
          obtain ⟨vps, seg, h2, h3⟩ := ih (Session_removeViewPlugin m p).1 (i + 1)
            (Session_removeViewPlugin m p).1.session.viewPlugins.length
          refine ⟨vps, Call.removeViewPlugin p :: seg, ?_, ?_⟩
          · simp only [h2]
            rw [h1]
            simp
          · intro c hc
            rcases List.mem_cons.mp hc with rfl | hc
            · trivial
            · exact h3 c hc
        · exact ih m (i + 1) count
      · exact ⟨m.session.viewPlugins, [], by simp, by simp⟩
    · exact ⟨m.session.viewPlugins, [], by simp, by simp⟩

theorem updateMarkedDelete_frame (m : Sys W) :
    ∃ vps seg,
      updateMarkedDelete m =
        { m with session := { m.session with viewPlugins := vps }, trace := m.trace ++ seg } ∧
      ∀ c ∈ seg, c.isRemove :=
  updateMarkedDeleteLoop_frame _ m 0 _

theorem isRemove_written (seg : List Call) (h : ∀ c ∈ seg, c.isRemove) :
    seg.flatMap Call.written = [] ∧ seg.filterMap Call.viewPlugin = [] ∧
    seg.filterMap Call.viewReader = [] ∧ seg.filterMap Call.viewWriter = [] ∧
    seg.filterMap Call.closedView = [] := by
  induction seg with
  | nil => simp
  | cons c seg ih =>
    have hc := h c (List.mem_cons_self _ _)
    obtain ⟨i1, i2, i3, i4, i5⟩ := ih (fun c hc => h c (List.mem_cons_of_mem _ hc))
    cases c <;> simp [Call.isRemove] at hc
    simp [List.flatMap_cons, Call.written, Call.viewPlugin, Call.viewReader, Call.viewWriter,
      Call.closedView, i1, i2, i3, i4, i5]

/-! ## Lemmas on single operations -/

theorem stepKeeps_refl (s : Session) : StepKeeps s s :=
  ⟨Or.inl ⟨rfl, rfl⟩, fun h => h⟩

theorem stepKeeps_of_eq {s s' : Session} (h1 : s'.currentWriter = s.currentWriter)
    (h2 : s'.prevWriter = s.prevWriter) (h3 : s'.breakpoints = s.breakpoints) :
    StepKeeps s s' :=
  ⟨Or.inl ⟨h1, h2⟩, fun h => h3 ▸ h⟩

theorem stepKeeps_trans {s s' s'' : Session} (h : StepKeeps s s') (h' : StepKeeps s' s'') :
    StepKeeps s s'' := by
  refine ⟨?_, fun hn => h'.2 (h.2 hn)⟩
  rcases h.1 with ⟨a, b⟩ | ⟨a, b⟩ <;> rcases h'.1 with ⟨c, d⟩ | ⟨c, d⟩
  · exact Or.inl ⟨c.trans a, d.trans b⟩
  · exact Or.inr ⟨c.trans b, d.trans a⟩
  · exact Or.inr ⟨c.trans a, d.trans b⟩
  · exact Or.inl ⟨c.trans b, d.trans a⟩

theorem updateLocal_keeps (env : Env W) (m : Sys W) (action : PDAction) :
    StepKeeps m.session (updateLocal env m action).session := by
  obtain ⟨h1, h2, -, -, -, -, h7⟩ := updateLocal_control env m action
  exact ⟨Or.inr ⟨h1, h2⟩, h7⟩

theorem updateRemote_keeps (env : Env W) (m : Sys W) (action : PDAction) :
    StepKeeps m.session (updateRemote env m action).session := by
  cases hc : m.session.connection with
  | none =>
    have : updateRemote env m action = m := by rw [updateRemote_stages, hc]
    rw [this]
    exact stepKeeps_refl _
  | some conn =>
    obtain ⟨pre, seg, post, h⟩ := updateRemote_spec env m conn action hc
    exact ⟨Or.inr ⟨h.currentWriter, h.prevWriter⟩, fun hn => h.breakpoints ▸ hn⟩

theorem updateMarkedDelete_keeps (m : Sys W) :
    StepKeeps m.session (updateMarkedDelete m).session := by
  obtain ⟨vps, seg, h, -⟩ := updateMarkedDelete_frame m
  rw [h]
  exact stepKeeps_of_eq rfl rfl rfl

theorem Session_update_keeps (env : Env W) (m : Sys W) :
    StepKeeps m.session (Session_update env m).session := by
  unfold Session_update
  simp only
  split
  · exact stepKeeps_trans (updateLocal_keeps env m _) (updateMarkedDelete_keeps _)
  · exact stepKeeps_trans (updateLocal_keeps env m _) (updateMarkedDelete_keeps _)
  · exact stepKeeps_trans (updateRemote_keeps env m _) (updateMarkedDelete_keeps _)

theorem Session_action_keeps (env : Env W) (m : Sys W) (action : PDAction) :
    StepKeeps m.session (Session_action env m action).session := by
  unfold Session_action
  split_ifs
  · exact updateLocal_keeps env m action
  · simp only
    split_ifs <;> exact stepKeeps_refl _

theorem callBackendUpdate_keeps (env : Env W) (m : Sys W) (b : PDBackendInstance)
    (action : PDAction) : StepKeeps m.session (callBackendUpdate env m b action).session := by
  obtain ⟨-, -, -, h, -, -⟩ := callBackendUpdate_spec env m b action
  obtain ⟨-, hc, hp, -, -, -, hb, -⟩ := control_fields h
  exact stepKeeps_of_eq hc hp hb

theorem Session_stepIn_keeps (env : Env W) (m : Sys W) :
    StepKeeps m.session (Session_stepIn env m).session := by
  unfold Session_stepIn
  split
  · exact callBackendUpdate_keeps env m _ _
  · split_ifs
    · exact Session_action_keeps env m _
    · exact stepKeeps_refl _

theorem Session_stepOver_keeps (env : Env W) (m : Sys W) :
    StepKeeps m.session (Session_stepOver env m).session := by
  unfold Session_stepOver
  split
  · exact callBackendUpdate_keeps env m _ _
  · split_ifs
    · exact Session_action_keeps env m _
    · exact stepKeeps_refl _

theorem Session_startLocal_keeps (env : Env W) (m : Sys W) (backend : Nat) (filename : String) :
    StepKeeps m.session (Session_startLocal env m backend filename).session := by
  unfold Session_startLocal
  simp only
  refine stepKeeps_trans ?_ (updateLocal_keeps env _ _)
  exact stepKeeps_of_eq (by simp) (by simp) (by simp)

theorem Session_startRemote_keeps (env : Env W) (m : Sys W) (target : String) (port : Nat) :
    StepKeeps m.session (Session_startRemote env m target port).session := by
  unfold Session_startRemote
  simp only
  split_ifs <;> exact stepKeeps_of_eq rfl rfl rfl

theorem applyOp_keeps (env : Env W) (m : Sys W) (op : SessionOp) :
    StepKeeps m.session (applyOp env m op).session := by
  cases op with
  | update => exact Session_update_keeps env m
  | action a => exact Session_action_keeps env m a
  | stepIn => exact Session_stepIn_keeps env m
  | stepOver => exact Session_stepOver_keeps env m
  | startLocal b f => exact Session_startLocal_keeps env m b f
  | startRemote t p => exact Session_startRemote_keeps env m t p
  | addViewPlugin p => exact stepKeeps_of_eq rfl rfl rfl
  | removeViewPlugin p =>
    obtain ⟨vps, h⟩ := Session_removeViewPlugin_frame m p
    simp only [applyOp, h]
    exact stepKeeps_of_eq rfl rfl rfl
  | loadSourceFile f =>
    exact stepKeeps_of_eq (by simp [applyOp, Session_loadSourceFile])
      (by simp [applyOp, Session_loadSourceFile]) (by simp [applyOp, Session_loadSourceFile])
  | toggleBreakpointCurrentLine =>
    exact stepKeeps_of_eq (by simp [applyOp, Session_toggleBreakpointCurrentLine])
      (by simp [applyOp, Session_toggleBreakpointCurrentLine])
      (by simp [applyOp, Session_toggleBreakpointCurrentLine])

theorem runOps_keeps (env : Env W) (ops : List SessionOp) :
    ∀ m : Sys W, StepKeeps m.session (runOps env m ops).session := by
  induction ops with
  | nil => intro m; exact stepKeeps_refl _
  | cons op ops ih =>
    intro m
    exact stepKeeps_trans (applyOp_keeps env m op) (ih (applyOp env m op))

theorem writerPair_of_roles {s s' : Session} (h : WriterPair s) (hr : RolesKept s s') :
    WriterPair s' := by
  obtain ⟨hne, hp⟩ := h
  rcases hr with ⟨a, b⟩ | ⟨a, b⟩
  · exact ⟨by rw [a, b]; exact hne, by rw [a, b]; exact hp⟩
  · refine ⟨by rw [a, b]; exact fun e => hne e.symm, ?_⟩
    rw [a, b]
    rcases hp with ⟨c, d⟩ | ⟨c, d⟩
    · exact Or.inr ⟨d, c⟩
    · exact Or.inl ⟨d, c⟩

/-! ## Invariants of the session -/

/-- C4. No-duplicate invariant.  Starting from a session made by `Session_create`, whose
breakpoint list is empty, after any sequence of session operations (updates, actions, steps,
local and remote starts, view plugin registration and removal, queued source-file and
breakpoint requests), whatever the backend, the view plugins and the connection do, the
breakpoint list holds no two equal entries; and `doToggleBreakpoint` and `toggleBreakpoint` each
turn a duplicate-free list into a duplicate-free list. -/
theorem breakpoints_nodup_invariant (env : Env W) (world : W) :
    (∀ ops : List SessionOp, (runOps env (freshSys world) ops).session.breakpoints.Nodup) ∧
    (∀ (s : Session) (reader : PDReader), s.breakpoints.Nodup →
      (doToggleBreakpoint s reader).breakpoints.Nodup) ∧
    (∀ (s : Session) (reader : PDReader), s.breakpoints.Nodup →
      (toggleBreakpoint s reader).1.breakpoints.Nodup) :=
  ⟨fun ops => (runOps_keeps env ops (freshSys world)).2 List.nodup_nil,
    doToggleBreakpoint_nodup, toggleBreakpoint_nodup⟩

/-- Witness of C4 on the list holding `("main.c", 42)`: toggled at `("b.c", 2)`, and scanned
with a stream of two toggle events. -/
theorem breakpoints_nodup_invariant_witness :
    (sessionWith [⟨"main.c", 42⟩]).breakpoints.Nodup ∧
    (doToggleBreakpoint (sessionWith [⟨"main.c", 42⟩])
      (readerOn (setBreakpointEvent "b.c" 2))).breakpoints.Nodup ∧
    (toggleBreakpoint (sessionWith [⟨"main.c", 42⟩])
      (PDBinaryReader_initStream (fun _ => 1)
        [setBreakpointEvent "b.c" 2, setBreakpointEvent "main.c" 42] 6)).1.breakpoints.Nodup :=
  ⟨by decide,
    (breakpoints_nodup_invariant demoEnv ()).2.1 _ _ (by decide),
    (breakpoints_nodup_invariant demoEnv ()).2.2 _ _ (by decide)⟩

/-- C6. Writer-pair invariant.  `commonInit` makes `currentWriter` and `prevWriter` the two
distinct buffers `writer0` and `writer1`; every session operation keeps them so, hence they are
so after any sequence of operations on a created session; a local tick and a remote tick on a
session with a connection each leave the two roles exchanged, and a remote tick on a session
without connection leaves the session as it is. -/
theorem writer_pair_invariant (env : Env W) (world : W) (s0 : Session) :
    WriterPair (commonInit s0) ∧
    (∀ (m : Sys W) (op : SessionOp), WriterPair m.session →
      WriterPair (applyOp env m op).session) ∧
    (∀ ops : List SessionOp, WriterPair (runOps env (freshSys world) ops).session) ∧
    (∀ (m : Sys W) (action : PDAction),
      (updateLocal env m action).session.currentWriter = m.session.prevWriter ∧
      (updateLocal env m action).session.prevWriter = m.session.currentWriter) ∧
    (∀ (m : Sys W) (action : PDAction) (conn : RemoteConnection),
      m.session.connection = some conn →
      (updateRemote env m action).session.currentWriter = m.session.prevWriter ∧
      (updateRemote env m action).session.prevWriter = m.session.currentWriter) ∧
    (∀ (m : Sys W) (action : PDAction), m.session.connection = Option.none →
      updateRemote env m action = m) := by
  have hinit : ∀ s : Session, WriterPair (commonInit s) := fun s =>
    ⟨by simp [commonInit], Or.inl ⟨rfl, rfl⟩⟩
  refine ⟨hinit s0, ?_, ?_, ?_, ?_, ?_⟩
  · intro m op h
    exact writerPair_of_roles h (applyOp_keeps env m op).1
  · intro ops
    exact writerPair_of_roles (hinit newSession) (runOps_keeps env ops (freshSys world)).1
  · intro m action
    obtain ⟨h1, h2, -⟩ := updateLocal_control env m action
    exact ⟨h1, h2⟩
  · intro m action conn hc
    obtain ⟨pre, seg, post, h⟩ := updateRemote_spec env m conn action hc
    exact ⟨h.currentWriter, h.prevWriter⟩
  · intro m action hc
    rw [updateRemote_stages, hc]

/-- Witness of C6 in the sample world: an update of the local session, a tick of the connected
remote session and a tick of a session without connection. -/
theorem writer_pair_invariant_witness :
    (WriterPair demoLocal.session ∧
      WriterPair (applyOp demoEnv demoLocal SessionOp.update).session) ∧
    (demoRemote.session.connection = some 1340 ∧
      (updateRemote demoEnv demoRemote 0).session.currentWriter = demoRemote.session.prevWriter ∧
      (updateRemote demoEnv demoRemote 0).session.prevWriter =
        demoRemote.session.currentWriter) ∧
    ((freshSys ()).session.connection = Option.none ∧
      updateRemote demoEnv (freshSys ()) 0 = freshSys ()) :=
  ⟨⟨⟨by decide, Or.inr ⟨by decide, by decide⟩⟩,
      (writer_pair_invariant demoEnv () newSession).2.1 demoLocal SessionOp.update
        ⟨by decide, Or.inr ⟨by decide, by decide⟩⟩⟩,
    ⟨by decide, (writer_pair_invariant demoEnv () newSession).2.2.2.2.1 demoRemote 0 1340
      (by decide)⟩,
    ⟨by decide, (writer_pair_invariant demoEnv () newSession).2.2.2.2.2 (freshSys ()) 0
      (by decide)⟩⟩

/-! ## Lemmas on the calls of a tick -/

theorem callsSince_append (t x : List Call) : callsSince t (t ++ x) = x := by
  simp [callsSince]

theorem filterMap_of_map_some {α β : Type} (f : α → Option β) (l : List α) (l' : List β)
    (h : l.map f = l'.map some) : l.filterMap f = l' := by
  induction l generalizing l' with
  | nil =>
    cases l' with
    | nil => rfl
    | cons b l' => simp at h
  | cons a l ih =>
    cases l' with
    | nil => simp at h
    | cons b l' =>
      simp only [List.map_cons, List.cons.injEq] at h
      rw [List.filterMap_cons, h.1, ih l' h.2]

theorem filterMap_of_map_replicate {α β : Type} (f : α → Option β) (l : List α) (n : Nat) (b : β)
    (h : l.map f = List.replicate n (some b)) : l.filterMap f = List.replicate n b := by
  apply filterMap_of_map_some
  rw [h, List.map_replicate]

theorem localBackendCall_projections (env : Env W) (m : Sys W) (action : PDAction) :
    (localBackendCall env m action).filterMap Call.viewPlugin = [] ∧
    (localBackendCall env m action).filterMap Call.viewReader = [] ∧
    (localBackendCall env m action).filterMap Call.viewWriter = [] ∧
    (localBackendCall env m action).filterMap Call.closedView = [] := by
  unfold localBackendCall
  cases m.session.backend <;> simp [Call.viewPlugin, Call.viewReader, Call.viewWriter,
    Call.closedView]

/-- The calls of a local tick, seen through the projections of the view plugin calls. -/
theorem localTick_calls {env : Env W} {m : Sys W} {action : PDAction} {pre seg : List Call}
    (h : LocalTick env m action pre seg) :
    callsSince m.trace (updateLocal env m action).trace = pre ++ seg ∧
    (pre ++ seg).filterMap Call.viewPlugin = m.session.viewPlugins ∧
    (pre ++ seg).filterMap Call.viewReader =
      List.replicate m.session.viewPlugins.length (localStream env m) ∧
    (pre ++ seg).filterMap Call.viewWriter =
      List.replicate m.session.viewPlugins.length m.session.prevWriter ∧
    (pre ++ seg).filterMap Call.closedView = seg.filterMap Call.closedView := by
  obtain ⟨p1, p2, p3, p4⟩ := localBackendCall_projections env m action
  rw [← h.backendCall] at p1 p2 p3 p4
  refine ⟨by rw [h.trace, callsSince_append], ?_, ?_, ?_, ?_⟩
  · rw [List.filterMap_append, p1, List.nil_append]
    exact filterMap_of_map_some _ _ _ h.plugins
  · rw [List.filterMap_append, p2, List.nil_append]
    exact filterMap_of_map_replicate _ _ _ _ h.readers
  · rw [List.filterMap_append, p3, List.nil_append]
    exact filterMap_of_map_replicate _ _ _ _ h.writers
  · rw [List.filterMap_append, p4, List.nil_append]

/-- The calls of a remote tick, seen through the projections of the view plugin calls. -/
theorem remoteTick_calls {env : Env W} {m : Sys W} {conn : RemoteConnection} {action : PDAction}
    {pre seg post : List Call} (h : RemoteTick env m conn action pre seg post) :
    callsSince m.trace (updateRemote env m action).trace = pre ++ seg ++ post ∧
    (pre ++ seg ++ post).filterMap Call.viewPlugin = m.session.viewPlugins ∧
    (pre ++ seg ++ post).filterMap Call.viewReader =
      List.replicate m.session.viewPlugins.length (remoteInbound env m conn).session.reader ∧
    (pre ++ seg ++ post).filterMap Call.viewWriter =
      List.replicate m.session.viewPlugins.length m.session.currentWriter ∧
    (pre ++ seg ++ post).filterMap Call.closedView = seg.filterMap Call.closedView ∧
    (pre ++ seg ++ post).flatMap Call.written = seg.flatMap Call.written := by
  have hpre : pre.filterMap Call.viewPlugin = [] ∧ pre.filterMap Call.viewReader = [] ∧
      pre.filterMap Call.viewWriter = [] ∧ pre.filterMap Call.closedView = [] ∧
      pre.flatMap Call.written = [] := by
    rcases h.inbound with e | e | ⟨cmd, e⟩ <;> rw [e] <;>
      simp [Call.viewPlugin, Call.viewReader, Call.viewWriter, Call.closedView, Call.written,
        List.flatMap_cons]
  have hpost : post.filterMap Call.viewPlugin = [] ∧ post.filterMap Call.viewReader = [] ∧
      post.filterMap Call.viewWriter = [] ∧ post.filterMap Call.closedView = [] ∧
      post.flatMap Call.written = [] := by
    rcases h.outbound with e | e | ⟨w, e⟩ <;> rw [e] <;>
      simp [Call.viewPlugin, Call.viewReader, Call.viewWriter, Call.closedView, Call.written,
        List.flatMap_cons]
  obtain ⟨a1, a2, a3, a4, a5⟩ := hpre
  obtain ⟨b1, b2, b3, b4, b5⟩ := hpost
  refine ⟨by rw [h.trace, callsSince_append], ?_, ?_, ?_, ?_, ?_⟩
  · rw [List.filterMap_append, List.filterMap_append, a1, b1, List.nil_append, List.append_nil]
    exact filterMap_of_map_some _ _ _ h.plugins
  · rw [List.filterMap_append, List.filterMap_append, a2, b2, List.nil_append, List.append_nil]
    exact filterMap_of_map_replicate _ _ _ _ h.readers
  · rw [List.filterMap_append, List.filterMap_append, a3, b3, List.nil_append, List.append_nil]
    exact filterMap_of_map_replicate _ _ _ _ h.writers
  · rw [List.filterMap_append, List.filterMap_append, a4, b4, List.nil_append, List.append_nil]
  · rw [List.flatMap_append, List.flatMap_append, a5, b5, List.nil_append, List.append_nil]

theorem fitEvents_full (sz : PDEvent → Nat) (es : List PDEvent) (used : Nat) :
    fitEvents sz (used + eventsSize sz es) used es = es := by
  induction es generalizing used with
  | nil => rfl
  | cons e es ih =>
    have h : used + eventsSize sz (e :: es) = (used + sz e) + eventsSize sz es := by
      simp [eventsSize]; omega
    rw [fitEvents, if_pos (by rw [h]; omega), h, ih]

theorem localStream_stream (env : Env W) (m : Sys W) :
    (localStream env m).stream = (m.session.writer m.session.currentWriter).events :=
  fitEvents_full _ _ 4

/-- C8. Local tick request gating.  In `updateLocal` on a session with its two writer roles in
place and a backend attached, the first call of the tick is the backend update with the
requested action; the reader it is handed is positioned at the start, points at the data of the
buffer the tick has just finalized and made `prevWriter`, with size 0 when the run state before
the call is `running` and with the full size of that buffer otherwise; the writer it is handed
is the new `currentWriter`, freshly reset. -/
theorem local_request_gating (env : Env W) (m : Sys W) (action : PDAction)
    (b : PDBackendInstance) (hpair : WriterPair m.session) (hb : m.session.backend = some b) :
    ∃ res rest,
      (updateLocal env m action).trace =
        m.trace ++ Call.backendUpdate b action (localRequest env m)
          (updateLocal env m action).session.currentWriter PDBinaryWriter_init res :: rest ∧
      res = (env.backendUpdate m.world b action (localRequest env m) PDBinaryWriter_init).2 ∧
      (localRequest env m).data = PDBinaryWriter_getData
        ((updateLocal env m action).session.writer (updateLocal env m action).session.prevWriter) ∧
      ((updateLocal env m action).session.writer
        (updateLocal env m action).session.prevWriter).finalized = true ∧
      (localRequest env m).size =
        (if m.session.state = PDDebugState.running then 0
          else PDBinaryWriter_getSize env.eventSize
            ((updateLocal env m action).session.writer
              (updateLocal env m action).session.prevWriter)) ∧
      (localRequest env m).pending = (localRequest env m).stream ∧
      (localRequest env m).current = Option.none := by
  obtain ⟨pre, seg, h⟩ := updateLocal_spec env m action hpair.1
  have hpre : pre = [Call.backendUpdate b action (localRequest env m) m.session.prevWriter
      PDBinaryWriter_init
      (env.backendUpdate m.world b action (localRequest env m) PDBinaryWriter_init).2] := by
    rw [h.backendCall, localBackendCall, hb]
  have hw : (updateLocal env m action).session.writer (updateLocal env m action).session.prevWriter
      = PDBinaryWriter_finalize (m.session.writer m.session.currentWriter) := by
    rw [h.content, h.prevWriter]
    simp [hpair.1]
  refine ⟨_, seg, ?_, rfl, ?_, ?_, ?_, rfl, rfl⟩
  · rw [h.trace, hpre, h.currentWriter]; rfl
  · rw [hw]; rfl
  · rw [hw]; rfl
  · rw [hw]; rfl

/-- Witness of C8 on the local session of the sample world, whose backend instance is
`(7, 7)`. -/
theorem local_request_gating_witness :
    WriterPair demoLocal.session ∧ demoLocal.session.backend = some ⟨7, 7⟩ ∧
    ∃ res rest, (updateLocal demoEnv demoLocal 0).trace =
      demoLocal.trace ++ Call.backendUpdate ⟨7, 7⟩ 0 (localRequest demoEnv demoLocal)
        (updateLocal demoEnv demoLocal 0).session.currentWriter PDBinaryWriter_init res :: rest := by
  have hp : WriterPair demoLocal.session := ⟨by decide, Or.inr ⟨by decide, by decide⟩⟩
  obtain ⟨res, rest, h, -⟩ := local_request_gating demoEnv demoLocal 0 ⟨7, 7⟩ hp (by decide)
  exact ⟨hp, by decide, res, rest, h⟩

/-- C10. Fan-out order and close handling.  In a local tick on a session with its two writer
roles in place, and in a remote tick on a session with a connection, the `updateInstance` calls
of the tick are one per registered view plugin, in the order of the list, each handed the same
writer, the `currentWriter` of the fan-out (after a local tick still `currentWriter`, after a
remote tick `prevWriter`); an instance is flagged `markDeleted` after the tick if and only if it
was flagged before or one of these calls on it returned `CloseView`; and the tick leaves the
view plugin list as it was. -/
theorem fanout_order_and_close (env : Env W) (m : Sys W) (action : PDAction) :
    (WriterPair m.session →
      (callsSince m.trace (updateLocal env m action).trace).filterMap Call.viewPlugin =
        m.session.viewPlugins ∧
      (callsSince m.trace (updateLocal env m action).trace).filterMap Call.viewWriter =
        List.replicate m.session.viewPlugins.length
          (updateLocal env m action).session.currentWriter ∧
      (∀ q, q ∈ (updateLocal env m action).markDeleted ↔
        q ∈ m.markDeleted ∨
        q ∈ (callsSince m.trace (updateLocal env m action).trace).filterMap Call.closedView) ∧
      (updateLocal env m action).session.viewPlugins = m.session.viewPlugins) ∧
    (∀ conn, m.session.connection = some conn →
      (callsSince m.trace (updateRemote env m action).trace).filterMap Call.viewPlugin =
        m.session.viewPlugins ∧
      (callsSince m.trace (updateRemote env m action).trace).filterMap Call.viewWriter =
        List.replicate m.session.viewPlugins.length m.session.currentWriter ∧
      (updateRemote env m action).session.prevWriter = m.session.currentWriter ∧
      (∀ q, q ∈ (updateRemote env m action).markDeleted ↔
        q ∈ m.markDeleted ∨
        q ∈ (callsSince m.trace (updateRemote env m action).trace).filterMap Call.closedView) ∧
      (updateRemote env m action).session.viewPlugins = m.session.viewPlugins) := by
  constructor
  · intro hpair
    obtain ⟨pre, seg, h⟩ := updateLocal_spec env m action hpair.1
    obtain ⟨c1, c2, -, c4, c5⟩ := (localTick_calls h)
    rw [c1, h.currentWriter]
    refine ⟨c2, c4, ?_, h.viewPlugins⟩
    intro q
    rw [c5]
    exact h.markDeleted q
  · intro conn hc
    obtain ⟨pre, seg, post, h⟩ := updateRemote_spec env m conn action hc
    obtain ⟨c1, c2, -, c4, c5, -⟩ := (remoteTick_calls h)
    rw [c1]
    refine ⟨c2, c4, h.prevWriter, ?_, h.viewPlugins⟩
    intro q
    rw [c5]
    exact h.markDeleted q

/-- Witness of C10 in the sample world, where the view plugins 2 and 3 are registered and
plugin 3 asks to be closed. -/
theorem fanout_order_and_close_witness :
    (WriterPair demoLocal.session ∧
      (callsSince demoLocal.trace (updateLocal demoEnv demoLocal 0).trace).filterMap
        Call.viewPlugin = [2, 3] ∧
      (3 ∈ (updateLocal demoEnv demoLocal 0).markDeleted ↔
        3 ∈ demoLocal.markDeleted ∨
        3 ∈ (callsSince demoLocal.trace (updateLocal demoEnv demoLocal 0).trace).filterMap
          Call.closedView)) ∧
    (demoRemote.session.connection = some 1340 ∧
      (callsSince demoRemote.trace (updateRemote demoEnv demoRemote 0).trace).filterMap
        Call.viewPlugin = [2, 3]) :=
  ⟨⟨⟨by decide, Or.inr ⟨by decide, by decide⟩⟩,
      ((fanout_order_and_close demoEnv demoLocal 0).1
        ⟨by decide, Or.inr ⟨by decide, by decide⟩⟩).1,
      ((fanout_order_and_close demoEnv demoLocal 0).1
        ⟨by decide, Or.inr ⟨by decide, by decide⟩⟩).2.2.1 3⟩,
    ⟨by decide, ((fanout_order_and_close demoEnv demoRemote 0).2 1340 (by decide)).1⟩⟩

@[simp] theorem writer_withViewPlugins (s : Session) (vps : List ViewPluginInstance)
    (ref : WriterRef) : ({ s with viewPlugins := vps }).writer ref = s.writer ref := by
  cases ref <;> rfl

/-- The update is its tick followed by the cleanup pass, which changes the view plugin list and
records its removals. -/
theorem Session_update_frame (env : Env W) (m : Sys W) :
    ∃ vps rem,
      Session_update env m =
        { sessionTick env m with
          session := { (sessionTick env m).session with viewPlugins := vps }
          trace := (sessionTick env m).trace ++ rem } ∧
      rem.flatMap Call.written = [] := by
  obtain ⟨vps, rem, h, hr⟩ := updateMarkedDelete_frame (sessionTick env m)
  refine ⟨vps, rem, ?_, (isRemove_written rem hr).1⟩
  rw [← h]
  unfold Session_update sessionTick
  rfl

/-- The buffers after an update whose tick left the trace `m.trace ++ calls`. -/
theorem Session_update_buffers (env : Env W) (m : Sys W) (calls : List Call)
    (ht : (sessionTick env m).trace = m.trace ++ calls) :
    (Session_update env m).session.currentWriter = (sessionTick env m).session.currentWriter ∧
    (Session_update env m).session.prevWriter = (sessionTick env m).session.prevWriter ∧
    (∀ ref, (Session_update env m).session.writer ref = (sessionTick env m).session.writer ref) ∧
    (callsSince m.trace (Session_update env m).trace).flatMap Call.written =
      calls.flatMap Call.written := by
  obtain ⟨vps, rem, h, hr⟩ := Session_update_frame env m
  rw [h]
  refine ⟨rfl, rfl, fun ref => writer_withViewPlugins _ _ _, ?_⟩
  simp only [ht, List.append_assoc, callsSince_append, List.flatMap_append, hr, List.append_nil]

/-- C7 as stated fails.  In the sample world the current writer of the local session
is not empty after an update (also when the session type is set to `Session_Local`), the
previous writer of the connected remote session holds a queued request besides the events of the
view plugins, and the session without connection keeps a queued request in its current
writer. -/
theorem buffer_roles_counterexample :
    ¬ BufferRolesAfterUpdate demoEnv demoLocal ∧
    ¬ BufferRolesAfterUpdate demoEnv
      { demoLocal with session := { demoLocal.session with type := SessionType.Session_Local } } ∧
    ¬ BufferRolesAfterUpdate demoEnv (Session_loadSourceFile demoRemote "main.c") ∧
    ¬ BufferRolesAfterUpdate offlineEnv (Session_loadSourceFile demoInert "main.c") := by
  unfold BufferRolesAfterUpdate
  decide

/-- C7, amended.  After `Session_update` on a session with its two writer roles in place:
for a session of type other than `Session_Remote`, the current writer holds exactly the events
the backend and the view plugins wrote during the update, and the previous writer is the
finalized buffer that was the current writer when the update began; for a `Session_Remote`
session with a connection, the current writer is in its reset state and the previous writer is
finalized and holds what the current writer held when the update began followed by exactly the
events the view plugins wrote during the update; for a `Session_Remote` session without
connection the writer roles and the content of every writer are as before and no producer
wrote anything. -/
theorem buffer_roles_after_update (env : Env W) (m : Sys W) (hpair : WriterPair m.session) :
    (m.session.type ≠ SessionType.Session_Remote →
      (Session_update env m).session.writer (Session_update env m).session.currentWriter =
        PDBinaryWriter_init.append
          ((callsSince m.trace (Session_update env m).trace).flatMap Call.written) ∧
      (Session_update env m).session.writer (Session_update env m).session.prevWriter =
        PDBinaryWriter_finalize (m.session.writer m.session.currentWriter)) ∧
    (∀ conn, m.session.type = SessionType.Session_Remote → m.session.connection = some conn →
      (Session_update env m).session.writer (Session_update env m).session.currentWriter =
        PDBinaryWriter_init ∧
      (Session_update env m).session.writer (Session_update env m).session.prevWriter =
        PDBinaryWriter_finalize ((m.session.writer m.session.currentWriter).append
          ((callsSince m.trace (Session_update env m).trace).flatMap Call.written))) ∧
    (m.session.type = SessionType.Session_Remote → m.session.connection = Option.none →
      (Session_update env m).session.currentWriter = m.session.currentWriter ∧
      (Session_update env m).session.prevWriter = m.session.prevWriter ∧
      (∀ ref, (Session_update env m).session.writer ref = m.session.writer ref) ∧
      (callsSince m.trace (Session_update env m).trace).flatMap Call.written = []) := by
  refine ⟨?_, ?_, ?_⟩
  · intro hty
    have htick : sessionTick env m = updateLocal env m env.PDAction_none := by
      unfold sessionTick
      cases h : m.session.type <;> first | rfl | exact absurd h hty
    obtain ⟨pre, seg, h⟩ := updateLocal_spec env m env.PDAction_none hpair.1
    obtain ⟨u1, u2, u3, u4⟩ := Session_update_buffers env m (pre ++ seg) (by rw [htick, h.trace])
    rw [u1, u2, u3, u3, u4, htick, h.currentWriter, h.prevWriter, h.content, h.content]
    simp [hpair.1]
  · intro conn hty hc
    have htick : sessionTick env m = updateRemote env m env.PDAction_none := by
      unfold sessionTick
      rw [hty]
    obtain ⟨pre, seg, post, h⟩ := updateRemote_spec env m conn env.PDAction_none hc
    obtain ⟨u1, u2, u3, u4⟩ := Session_update_buffers env m (pre ++ seg ++ post)
      (by rw [htick, h.trace])
    rw [u1, u2, u3, u3, u4, htick, h.currentWriter, h.prevWriter, h.content, h.content,
      (remoteTick_calls h).2.2.2.2.2]
    simp [hpair.1]
  · intro hty hc
    have htick : sessionTick env m = m := by
      unfold sessionTick
      rw [hty]
      simp only
      rw [updateRemote_stages, hc]
    obtain ⟨u1, u2, u3, u4⟩ := Session_update_buffers env m [] (by rw [htick]; simp)
    rw [u1, u2, u4, htick]
    refine ⟨rfl, rfl, ?_, rfl⟩
    intro ref
    rw [u3, htick]

/-- Witness of C7 as amended in the sample world: the local session, the connected remote
session and the session whose connection attempt failed. -/
theorem buffer_roles_after_update_witness :
    (WriterPair demoLocal.session ∧ demoLocal.session.type ≠ SessionType.Session_Remote ∧
      (Session_update demoEnv demoLocal).session.writer
        (Session_update demoEnv demoLocal).session.prevWriter =
        PDBinaryWriter_finalize (demoLocal.session.writer demoLocal.session.currentWriter)) ∧
    (WriterPair demoRemote.session ∧ demoRemote.session.type = SessionType.Session_Remote ∧
      demoRemote.session.connection = some 1340 ∧
      (Session_update demoEnv demoRemote).session.writer
        (Session_update demoEnv demoRemote).session.currentWriter = PDBinaryWriter_init) ∧
    (WriterPair demoInert.session ∧ demoInert.session.type = SessionType.Session_Remote ∧
      demoInert.session.connection = Option.none ∧
      (Session_update offlineEnv demoInert).session.currentWriter =
        demoInert.session.currentWriter) :=
  ⟨⟨⟨by decide, Or.inr ⟨by decide, by decide⟩⟩, by decide,
      ((buffer_roles_after_update demoEnv demoLocal
        ⟨by decide, Or.inr ⟨by decide, by decide⟩⟩).1 (by decide)).2⟩,
    ⟨⟨by decide, Or.inl ⟨by decide, by decide⟩⟩, by decide, by decide,
      ((buffer_roles_after_update demoEnv demoRemote
        ⟨by decide, Or.inl ⟨by decide, by decide⟩⟩).2.1 1340 (by decide) (by decide)).1⟩,
    ⟨⟨by decide, Or.inl ⟨by decide, by decide⟩⟩, by decide, by decide,
      ((buffer_roles_after_update offlineEnv demoInert
        ⟨by decide, Or.inl ⟨by decide, by decide⟩⟩).2.2 (by decide) (by decide)).1⟩⟩

/-! ## Cleanup pass and inert remote sessions -/

/-- C11, evaluated where the code departs from it.  With the two distinct view plugins 1 and 2
registered and both flagged, `updateMarkedDelete` calls `Session_removeViewPlugin` once, for
plugin 1, and returns with plugin 2 still registered and still flagged: the swap-remove moved
plugin 2 into the slot the loop had just visited.  The same happens through `Session_update`
when the plugins 1 and 3 both ask to be closed in one tick. -/
theorem cleanup_skips_swapped_plugin :
    (updateMarkedDelete twoFlagged).session.viewPlugins = [2] ∧
    flaggedViews (updateMarkedDelete twoFlagged) = [2] ∧
    (callsSince twoFlagged.trace (updateMarkedDelete twoFlagged).trace).filterMap Call.removed
      = [1] ∧
    (Session_update demoEnv closingPair).session.viewPlugins = [3] ∧
    flaggedViews (Session_update demoEnv closingPair) = [3] ∧
    (callsSince closingPair.trace (Session_update demoEnv closingPair).trace).filterMap
      Call.removed = [1] := by
  decide

theorem sessionTick_inert (env : Env W) (m : Sys W)
    (hty : m.session.type = SessionType.Session_Remote)
    (hc : m.session.connection = Option.none) : sessionTick env m = m := by
  unfold sessionTick
  rw [hty]
  simp only
  rw [updateRemote_stages, hc]

/-- An update of a remote session without connection is the cleanup pass alone. -/
theorem Session_update_inert (env : Env W) (m : Sys W)
    (hty : m.session.type = SessionType.Session_Remote)
    (hc : m.session.connection = Option.none) :
    ∃ vps rem,
      Session_update env m =
        { m with session := { m.session with viewPlugins := vps }, trace := m.trace ++ rem } ∧
      ∀ c ∈ rem, c.isRemove := by
  obtain ⟨vps, rem, h, hr⟩ := updateMarkedDelete_frame (sessionTick env m)
  rw [sessionTick_inert env m hty hc] at h
  refine ⟨vps, rem, ?_, hr⟩
  rw [← h]
  have ht := sessionTick_inert env m hty hc
  unfold sessionTick at ht
  unfold Session_update
  simp only
  rw [ht]

/-- C12. Inert-remote safety.  For a session of type `Session_Remote` without connection,
`Session_update` leaves the external world as it is and makes no call but the removals of its
cleanup pass (no poll, receive or send on a connection, no backend or view plugin update); the
session it leaves differs from the one before in the view plugin list at most: the writer roles,
the content and finalized state of every writer, the reader, the run state, the breakpoint list,
the type, the backend and the connection are unchanged. -/
theorem inert_remote_safety (env : Env W) (m : Sys W)
    (hty : m.session.type = SessionType.Session_Remote)
    (hc : m.session.connection = Option.none) :
    (Session_update env m).world = m.world ∧
    (∃ rem, (Session_update env m).trace = m.trace ++ rem ∧ ∀ c ∈ rem, c.isRemove) ∧
    (Session_update env m).session =
      { m.session with viewPlugins := (Session_update env m).session.viewPlugins } ∧
    (Session_update env m).session.currentWriter = m.session.currentWriter ∧
    (Session_update env m).session.prevWriter = m.session.prevWriter ∧
    (∀ ref, (Session_update env m).session.writer ref = m.session.writer ref) ∧
    (Session_update env m).session.reader = m.session.reader ∧
    (Session_update env m).session.state = m.session.state ∧
    (Session_update env m).session.breakpoints = m.session.breakpoints ∧
    (Session_update env m).session.type = m.session.type ∧
    (Session_update env m).session.backend = m.session.backend ∧
    (Session_update env m).session.connection = m.session.connection ∧
    (callsSince m.trace (Session_update env m).trace).filter Call.onConnection = [] := by
  obtain ⟨vps, rem, h, hr⟩ := Session_update_inert env m hty hc
  have hcon : rem.filter Call.onConnection = [] := by
    rw [List.filter_eq_nil_iff]
    intro c hc
    have := hr c hc
    cases c <;> simp [Call.isRemove] at this
    simp [Call.onConnection]
  rw [h]
  refine ⟨rfl, ⟨rem, rfl, hr⟩, rfl, rfl, rfl, fun ref => writer_withViewPlugins _ _ _, rfl, rfl,
    rfl, rfl, rfl, rfl, ?_⟩
  simp only [callsSince_append]
  exact hcon

/-- Witness of C12 on the remote session of the sample world whose connection attempt failed. -/
theorem inert_remote_safety_witness :
    demoInertViews.session.type = SessionType.Session_Remote ∧
    demoInertViews.session.connection = Option.none ∧
    (Session_update offlineEnv demoInertViews).world = demoInertViews.world ∧
    (Session_update offlineEnv demoInertViews).session.currentWriter =
      demoInertViews.session.currentWriter :=
  ⟨by decide, by decide,
    (inert_remote_safety offlineEnv demoInertViews (by decide) (by decide)).1,
    (inert_remote_safety offlineEnv demoInertViews (by decide) (by decide)).2.2.2.1⟩

/-- C13 as stated fails.  The remote session of the sample world whose connection attempt failed
has the view plugins 2 and 3 registered, and an update of it makes no `updateInstance` call at
all. -/
theorem inert_fanout_counterexample :
    demoInertViews.session.type = SessionType.Session_Remote ∧
    demoInertViews.session.connection = Option.none ∧
    demoInertViews.session.viewPlugins = [2, 3] ∧
    (callsSince demoInertViews.trace (Session_update offlineEnv demoInertViews).trace).filterMap
      Call.viewPlugin = [] := by
  decide

/-- C13, amended.  On `Session_update` of a session of type `Session_Remote` without connection
no view plugin is updated: the tick returns before the fan-out, so the update makes no
`updateInstance` call, hands no stream to any view plugin, and no instance gets flagged. -/
theorem inert_remote_no_fanout (env : Env W) (m : Sys W)
    (hty : m.session.type = SessionType.Session_Remote)
    (hc : m.session.connection = Option.none) :
    (callsSince m.trace (Session_update env m).trace).filterMap Call.viewPlugin = [] ∧
    (callsSince m.trace (Session_update env m).trace).filterMap Call.viewReader = [] ∧
    (Session_update env m).markDeleted = m.markDeleted := by
  obtain ⟨vps, rem, h, hr⟩ := Session_update_inert env m hty hc
  obtain ⟨-, r2, r3, -, -⟩ := isRemove_written rem hr
  rw [h]
  refine ⟨?_, ?_, rfl⟩
  · simp only [callsSince_append]
    exact r2
  · simp only [callsSince_append]
    exact r3

/-- Witness of C13 as amended on the remote session of the sample world whose connection attempt
failed. -/
theorem inert_remote_no_fanout_witness :
    demoInertViews.session.type = SessionType.Session_Remote ∧
    demoInertViews.session.connection = Option.none ∧
    (callsSince demoInertViews.trace (Session_update offlineEnv demoInertViews).trace).filterMap
      Call.viewReader = [] :=
  ⟨by decide, by decide,
    (inert_remote_no_fanout offlineEnv demoInertViews (by decide) (by decide)).2.1⟩

/-! ## Remote framing -/

theorem castUInt_castInt (n : Nat) (h : n < 2 ^ 32) : castUInt (castInt n) = n := by
  unfold castUInt castInt
  rw [Nat.mod_eq_of_lt h]
  split_ifs <;> omega

theorem decodeTotalSize_eq (cmd : Cmd) : decodeTotalSize cmd = castInt (headerValue cmd) := by
  unfold decodeTotalSize headerValue
  have h0 : cmd.b0 % 256 < 256 := Nat.mod_lt _ (by norm_num)
  have h1 : cmd.b1 % 256 < 256 := Nat.mod_lt _ (by norm_num)
  have h2 : cmd.b2 % 256 < 256 := Nat.mod_lt _ (by norm_num)
  have h3 : cmd.b3 % 256 < 256 := Nat.mod_lt _ (by norm_num)
  generalize cmd.b0 % 256 = a at *
  generalize cmd.b1 % 256 = b at *
  generalize cmd.b2 % 256 = c at *
  generalize cmd.b3 % 256 = d at *
  congr 1
  simp only [Nat.shiftLeft_eq]
  have e1 : a * 2 ^ 24 ||| b * 2 ^ 16 = 2 ^ 16 * (2 ^ 8 * a + b) := by
    have := Nat.mul_add_lt_is_or (i := 24) (b := b * 2 ^ 16) (by omega) a
    rw [Nat.mul_comm a, ← this]; ring
  have e2 : 2 ^ 16 * (2 ^ 8 * a + b) ||| c * 2 ^ 8 = 2 ^ 8 * (2 ^ 8 * (2 ^ 8 * a + b) + c) := by
    have := Nat.mul_add_lt_is_or (i := 16) (b := c * 2 ^ 8) (by omega) (2 ^ 8 * a + b)
    rw [← this]; ring
  have e3 : 2 ^ 8 * (2 ^ 8 * (2 ^ 8 * a + b) + c) ||| d =
      2 ^ 8 * (2 ^ 8 * (2 ^ 8 * a + b) + c) + d :=
    (Nat.mul_add_lt_is_or (i := 8) (b := d) (by omega) _).symm
  rw [e1, e2, e3]; ring

theorem headerValue_lt (cmd : Cmd) : headerValue cmd < 2 ^ 32 := by
  unfold headerValue
  have h0 : cmd.b0 % 256 < 256 := Nat.mod_lt _ (by norm_num)
  have h1 : cmd.b1 % 256 < 256 := Nat.mod_lt _ (by norm_num)
  have h2 : cmd.b2 % 256 < 256 := Nat.mod_lt _ (by norm_num)
  have h3 : cmd.b3 % 256 < 256 := Nat.mod_lt _ (by norm_num)
  omega

/-- The receive stage when the connection is readable and the header arrives. -/
theorem remoteInbound_received (env : Env W) (m : Sys W) (conn : RemoteConnection) (cmd : Cmd)
    (hpoll : (env.RemoteConnection_pollRead m.world conn).2 = true)
    (hrecv : (env.RemoteConnection_recv (polledWorld env m conn) conn 4).2 = some cmd) :
    (remoteInbound env m conn).trace =
      m.trace ++ [Call.pollRead conn, Call.recv conn 4,
        Call.recvStream conn (decodeTotalSize cmd)] ∧
    (remoteInbound env m conn).session.reader =
      PDBinaryReader_initStream env.eventSize (receivedPayload env m conn cmd)
        (castUInt (decodeTotalSize cmd)) := by
  unfold polledWorld at hrecv
  unfold remoteInbound remoteReceive receivedPayload polledWorld
  simp [hpoll, hrecv]

/-- The trace of the last stage of a remote tick. -/
theorem remoteFinish_trace (env : Env W) (m : Sys W) (conn : RemoteConnection) :
    (remoteFinish env (fannedOut env m conn) conn).trace =
      (fannedOut env m conn).trace ++ transmitCalls env m conn := by
  unfold transmitCalls reportsConnected remoteOutgoing
  generalize fannedOut env m conn = f
  obtain ⟨⟨ty, w0, w1, t0, t1, rd, cur, prev, be, cn, vps, bps, st⟩, md, world, tr⟩ := f
  unfold remoteFinish remoteSend
  cases cur <;> simp only [Session.setWriter, Session.writer] <;> split_ifs <;> simp

/-- The calls of a remote tick on a session with a connection: the receive calls, the view
plugin calls and then the transmit calls. -/
theorem updateRemote_calls (env : Env W) (m : Sys W) (conn : RemoteConnection)
    (action : PDAction) (hconn : m.session.connection = some conn) :
    ∃ pre seg, RemoteTick env m conn action pre seg (transmitCalls env m conn) := by
  obtain ⟨pre, seg, post, h⟩ := updateRemote_spec env m conn action hconn
  have hup : updateRemote env m action = remoteFinish env (fannedOut env m conn) conn := by
    rw [updateRemote_stages, hconn]; rfl
  have ht := h.trace
  rw [hup, remoteFinish_trace] at ht
  have hf : (fannedOut env m conn).trace = m.trace ++ (pre ++ seg) := h.fanOutTrace
  rw [hf, List.append_assoc] at ht
  have hpost : transmitCalls env m conn = post := by
    have h1 := List.append_cancel_left ht
    simp only [List.append_assoc] at h1
    exact List.append_cancel_left (List.append_cancel_left h1)
  rw [hpost]
  exact ⟨pre, seg, h⟩

/-- C15. Remote receive framing.  In a remote tick on a session with a connection that is
readable and delivers the four byte header `cmd`, the size asked of `RemoteConnection_recvStream`,
taken as an unsigned 32 bit value, is the big-endian value of the header, that is
`b0 * 2^24 + b1 * 2^16 + b2 * 2^8 + b3` for bytes `b0 b1 b2 b3` (10 for `00 00 00 0A`); the
calls of the tick begin with the poll, the header receive and the payload receive, and every
view plugin call that follows is handed the reader pointed at the buffer that payload receive
returned, with that size, at its start. -/
theorem remote_receive_framing (env : Env W) (m : Sys W) (conn : RemoteConnection)
    (action : PDAction) (cmd : Cmd) (hconn : m.session.connection = some conn)
    (hpoll : (env.RemoteConnection_pollRead m.world conn).2 = true)
    (hrecv : (env.RemoteConnection_recv (polledWorld env m conn) conn 4).2 = some cmd) :
    castUInt (decodeTotalSize cmd) = headerValue cmd ∧
    (cmd.b0 < 256 → cmd.b1 < 256 → cmd.b2 < 256 → cmd.b3 < 256 →
      headerValue cmd = cmd.b0 * 2 ^ 24 + cmd.b1 * 2 ^ 16 + cmd.b2 * 2 ^ 8 + cmd.b3) ∧
    castUInt (decodeTotalSize { b0 := 0, b1 := 0, b2 := 0, b3 := 10 }) = 10 ∧
    ∃ rest,
      callsSince m.trace (updateRemote env m action).trace =
        Call.pollRead conn :: Call.recv conn 4 :: Call.recvStream conn (decodeTotalSize cmd)
          :: rest ∧
      rest.filterMap Call.viewPlugin = m.session.viewPlugins ∧
      rest.filterMap Call.viewReader =
        List.replicate m.session.viewPlugins.length
          (PDBinaryReader_initStream env.eventSize (receivedPayload env m conn cmd)
            (headerValue cmd)) := by
  have hnum : castUInt (decodeTotalSize cmd) = headerValue cmd := by
    rw [decodeTotalSize_eq, castUInt_castInt _ (headerValue_lt cmd)]
  have hten : castUInt (decodeTotalSize { b0 := 0, b1 := 0, b2 := 0, b3 := 10 }) = 10 := by
    rw [decodeTotalSize_eq, castUInt_castInt _ (headerValue_lt _)]
    decide
  refine ⟨hnum, ?_, hten, ?_⟩
  · intro h0 h1 h2 h3
    unfold headerValue
    rw [Nat.mod_eq_of_lt h0, Nat.mod_eq_of_lt h1, Nat.mod_eq_of_lt h2, Nat.mod_eq_of_lt h3]
  · obtain ⟨pre, seg, h⟩ := updateRemote_calls env m conn action hconn
    obtain ⟨r1, r2⟩ := remoteInbound_received env m conn cmd hpoll hrecv
    have hpre : pre = [Call.pollRead conn, Call.recv conn 4,
        Call.recvStream conn (decodeTotalSize cmd)] := by
      have := h.inboundTrace
      rw [r1] at this
      exact (List.append_cancel_left this).symm
    obtain ⟨c1, c2, c3, -, -, -⟩ := remoteTick_calls h
    rw [r2, hnum] at c3
    refine ⟨seg ++ transmitCalls env m conn, ?_, ?_, ?_⟩
    · rw [c1, hpre]; simp
    · rw [hpre] at c2
      simpa [Call.viewPlugin] using c2
    · rw [hpre] at c3
      simpa [Call.viewReader] using c3

/-- Witness of C15 on the connected remote session of the sample world, whose connection
delivers the header `00 00 00 06`. -/
theorem remote_receive_framing_witness :
    demoRemote.session.connection = some 1340 ∧
    (demoEnv.RemoteConnection_pollRead demoRemote.world 1340).2 = true ∧
    (demoEnv.RemoteConnection_recv (polledWorld demoEnv demoRemote 1340) 1340 4).2 =
      some { b0 := 0, b1 := 0, b2 := 0, b3 := 6 } ∧
    castUInt (decodeTotalSize { b0 := 0, b1 := 0, b2 := 0, b3 := 6 }) =
      headerValue { b0 := 0, b1 := 0, b2 := 0, b3 := 6 } :=
  ⟨by decide, by decide, by decide,
    (remote_receive_framing demoEnv demoRemote 1340 0 { b0 := 0, b1 := 0, b2 := 0, b3 := 6 }
      (by decide) (by decide) (by decide)).1⟩

theorem transmitCalls_projections (env : Env W) (m : Sys W) (conn : RemoteConnection) :
    (transmitCalls env m conn).filterMap Call.viewPlugin = [] ∧
    (transmitCalls env m conn).filterMap Call.sentStream =
      (if PDBinaryWriter_getSize env.eventSize (remoteOutgoing env m conn) > 4 ∧
          reportsConnected env m conn = true
        then [remoteOutgoing env m conn] else []) := by
  unfold transmitCalls
  split_ifs <;> simp_all [Call.viewPlugin, Call.sentStream]

theorem updateInstance_not_sent (seg : List Call) (ps : List ViewPluginInstance)
    (h : seg.map Call.viewPlugin = ps.map some) : seg.filterMap Call.sentStream = [] := by
  induction seg generalizing ps with
  | nil => rfl
  | cons c seg ih =>
    cases ps with
    | nil => simp at h
    | cons p ps =>
      simp only [List.map_cons, List.cons.injEq] at h
      have hc : c.sentStream = Option.none := by
        cases c <;> first | rfl | simp [Call.viewPlugin] at h
      rw [List.filterMap_cons, hc]
      exact ih ps h.2

/-- C16. Remote transmit condition.  In a remote tick on a session with a connection and its
two writer roles in place, the buffers sent with `sendStream` during the tick are: the buffer
the tick finalized and made `prevWriter`, once, when its size is above 4 and the connection
reports connected, and none otherwise; the calls of the tick are the receive calls, then one
call per registered view plugin, then the transmit calls, so nothing is sent before the last
view plugin was updated. -/
theorem remote_transmit_condition (env : Env W) (m : Sys W) (conn : RemoteConnection)
    (action : PDAction) (hconn : m.session.connection = some conn)
    (hpair : WriterPair m.session) :
    (callsSince m.trace (updateRemote env m action).trace).filterMap Call.sentStream =
      (if PDBinaryWriter_getSize env.eventSize (remoteOutgoing env m conn) > 4 ∧
          reportsConnected env m conn = true
        then [remoteOutgoing env m conn] else []) ∧
    ((callsSince m.trace (updateRemote env m action).trace).filterMap Call.sentStream).length
      ≤ 1 ∧
    (updateRemote env m action).session.writer (updateRemote env m action).session.prevWriter =
      remoteOutgoing env m conn ∧
    (remoteOutgoing env m conn).finalized = true ∧
    (∃ pre seg,
      callsSince m.trace (updateRemote env m action).trace =
        pre ++ seg ++ transmitCalls env m conn ∧
      seg.map Call.viewPlugin = m.session.viewPlugins.map some ∧
      pre.filterMap Call.viewPlugin = [] ∧
      (pre ++ seg).filterMap Call.sentStream = [] ∧
      (transmitCalls env m conn).filterMap Call.viewPlugin = []) := by
  obtain ⟨pre, seg, h⟩ := updateRemote_calls env m conn action hconn
  obtain ⟨t1, t2⟩ := transmitCalls_projections env m conn
  obtain ⟨c1, -, -, -, -, -⟩ := remoteTick_calls h
  have hpre : pre.filterMap Call.viewPlugin = [] ∧ pre.filterMap Call.sentStream = [] := by
    rcases h.inbound with e | e | ⟨cmd, e⟩ <;> rw [e] <;>
      simp [Call.viewPlugin, Call.sentStream]
  have hseg := updateInstance_not_sent seg _ h.plugins
  have hsent : (callsSince m.trace (updateRemote env m action).trace).filterMap Call.sentStream =
      (if PDBinaryWriter_getSize env.eventSize (remoteOutgoing env m conn) > 4 ∧
          reportsConnected env m conn = true
        then [remoteOutgoing env m conn] else []) := by
    rw [c1, List.filterMap_append, List.filterMap_append, hpre.2, hseg, t2]
    rfl
  have hout : remoteOutgoing env m conn = PDBinaryWriter_finalize
      ((m.session.writer m.session.currentWriter).append (seg.flatMap Call.written)) := by
    unfold remoteOutgoing fannedOut
    rw [h.fanOutCurrent, h.fanOutWriter]
  refine ⟨hsent, ?_, ?_, ?_, pre, seg, c1, h.plugins, hpre.1, ?_, t1⟩
  · rw [hsent]
    split_ifs <;> simp
  · rw [h.prevWriter, h.content, hout]
    simp [hpair.1]
  · rw [hout]; rfl
  · rw [List.filterMap_append, hpre.2, hseg]; rfl

/-- Witness of C16 on the connected remote session of the sample world. -/
theorem remote_transmit_condition_witness :
    demoRemote.session.connection = some 1340 ∧ WriterPair demoRemote.session ∧
    (callsSince demoRemote.trace (updateRemote demoEnv demoRemote 0).trace).filterMap
      Call.sentStream =
      (if PDBinaryWriter_getSize demoEnv.eventSize (remoteOutgoing demoEnv demoRemote 1340) > 4 ∧
          reportsConnected demoEnv demoRemote 1340 = true
        then [remoteOutgoing demoEnv demoRemote 1340] else []) :=
  ⟨by decide, ⟨by decide, Or.inl ⟨by decide, by decide⟩⟩,
    (remote_transmit_condition demoEnv demoRemote 1340 0 (by decide)
      ⟨by decide, Or.inl ⟨by decide, by decide⟩⟩).1⟩

/-! ## Actions -/

theorem lowByte_eq (a : Nat) : a &&& 0xff = a % 256 :=
  Nat.and_pow_two_sub_one_eq_mod a 8

theorem highByte_eq (a : Nat) : (a >>> 8) &&& 0xff = a / 256 % 256 := by
  rw [lowByte_eq, Nat.shiftRight_eq_div_pow]

/-- C17. Action command word encoding.  On a session of type `Session_Remote` whose connection
reports connected, `Session_action` with action `a` asks the connection status and then sends
the four bytes `[0x80, 0x00, (a >> 8) & 0xff, a & 0xff]`, leaving the session as it is; the top
bit of the first byte is set, the last two bytes read big-endian are `a mod 2^16`, hence `a`
itself for `a < 65536`, and two actions below 65536 with the same word are equal. -/
theorem action_word_encoding (env : Env W) (m : Sys W) (a : Nat)
    (hty : m.session.type = SessionType.Session_Remote)
    (hconn : (env.RemoteConnection_isConnected m.world m.session.connection).2 = true) :
    (Session_action env m a).trace =
      m.trace ++ [Call.isConnected m.session.connection,
        Call.send m.session.connection [0x80, 0x00, (a >>> 8) &&& 0xff, a &&& 0xff]] ∧
    (Session_action env m a).session = m.session ∧
    Nat.testBit 0x80 7 = true ∧
    ((a >>> 8) &&& 0xff) * 256 + (a &&& 0xff) = a % 2 ^ 16 ∧
    (a < 65536 → ((a >>> 8) &&& 0xff) * 256 + (a &&& 0xff) = a) ∧
    (∀ b : Nat, a < 65536 → b < 65536 → actionWord a = actionWord b → a = b) := by
  have hdec : ((a >>> 8) &&& 0xff) * 256 + (a &&& 0xff) = a % 2 ^ 16 := by
    rw [highByte_eq, lowByte_eq]; omega
  refine ⟨?_, ?_, by decide, hdec, ?_, ?_⟩
  · unfold Session_action
    simp [hty, hconn]
  · unfold Session_action
    simp [hty, hconn]
  · intro h
    rw [hdec]; omega
  · intro b ha hb h
    have h2 : (a >>> 8) &&& 0xff = (b >>> 8) &&& 0xff := by
      have := congrArg (fun l => l.getD 2 0) h
      simpa [actionWord] using this
    have h3 : a &&& 0xff = b &&& 0xff := by
      have := congrArg (fun l => l.getD 3 0) h
      simpa [actionWord] using this
    rw [highByte_eq, highByte_eq] at h2
    rw [lowByte_eq, lowByte_eq] at h3
    omega

/-- Witness of C17 on the connected remote session of the sample world, with action
`0x1234`. -/
theorem action_word_encoding_witness :
    demoRemote.session.type = SessionType.Session_Remote ∧
    (demoEnv.RemoteConnection_isConnected demoRemote.world demoRemote.session.connection).2 =
      true ∧
    (Session_action demoEnv demoRemote 0x1234).trace =
      demoRemote.trace ++ [Call.isConnected demoRemote.session.connection,
        Call.send demoRemote.session.connection
          [0x80, 0x00, (0x1234 >>> 8) &&& 0xff, 0x1234 &&& 0xff]] :=
  ⟨by decide, by decide, (action_word_encoding demoEnv demoRemote 0x1234 (by decide)
    (by decide)).1⟩

theorem updateInstance_not_backend (seg : List Call) (ps : List ViewPluginInstance)
    (h : seg.map Call.viewPlugin = ps.map some) : seg.filterMap Call.backendAction = [] := by
  induction seg generalizing ps with
  | nil => rfl
  | cons c seg ih =>
    cases ps with
    | nil => simp at h
    | cons p ps =>
      simp only [List.map_cons, List.cons.injEq] at h
      have hc : c.backendAction = Option.none := by
        cases c <;> first | rfl | simp [Call.viewPlugin] at h
      rw [List.filterMap_cons, hc]
      exact ih ps h.2

/-- C19. `Session_stepIn` and `Session_stepOver` on a session with an attached backend call
the backend's update exactly once, with the action step (respectively step over), on the
session's reader and current writer as they are, and store the returned value as the run state;
the writer roles, the view plugin list and the breakpoint list are unchanged.  With no backend
and type `Session_Remote` they are `Session_action` with the same action. -/
theorem step_calls_backend_directly (env : Env W) (m : Sys W) :
    (∀ b, m.session.backend = some b →
      (Session_stepIn env m).trace =
        m.trace ++ [Call.backendUpdate b env.PDAction_step m.session.reader
          m.session.currentWriter (m.session.writer m.session.currentWriter)
          (env.backendUpdate m.world b env.PDAction_step m.session.reader
            (m.session.writer m.session.currentWriter)).2] ∧
      (Session_stepIn env m).session.state =
        (env.backendUpdate m.world b env.PDAction_step m.session.reader
          (m.session.writer m.session.currentWriter)).2.state ∧
      (Session_stepIn env m).session.currentWriter = m.session.currentWriter ∧
      (Session_stepIn env m).session.prevWriter = m.session.prevWriter ∧
      (Session_stepIn env m).session.viewPlugins = m.session.viewPlugins ∧
      (Session_stepIn env m).session.breakpoints = m.session.breakpoints ∧
      (Session_stepOver env m).trace =
        m.trace ++ [Call.backendUpdate b env.PDAction_stepOver m.session.reader
          m.session.currentWriter (m.session.writer m.session.currentWriter)
          (env.backendUpdate m.world b env.PDAction_stepOver m.session.reader
            (m.session.writer m.session.currentWriter)).2] ∧
      (Session_stepOver env m).session.state =
        (env.backendUpdate m.world b env.PDAction_stepOver m.session.reader
          (m.session.writer m.session.currentWriter)).2.state ∧
      (Session_stepOver env m).session.currentWriter = m.session.currentWriter ∧
      (Session_stepOver env m).session.prevWriter = m.session.prevWriter ∧
      (Session_stepOver env m).session.viewPlugins = m.session.viewPlugins ∧
      (Session_stepOver env m).session.breakpoints = m.session.breakpoints) ∧
    (m.session.backend = Option.none → m.session.type = SessionType.Session_Remote →
      Session_stepIn env m = Session_action env m env.PDAction_step ∧
      Session_stepOver env m = Session_action env m env.PDAction_stepOver) := by
  constructor
  · intro b hb
    have hin : Session_stepIn env m = callBackendUpdate env m b env.PDAction_step := by
      unfold Session_stepIn; rw [hb]
    have hover : Session_stepOver env m = callBackendUpdate env m b env.PDAction_stepOver := by
      unfold Session_stepOver; rw [hb]
    obtain ⟨a1, -, -, a4, -, -⟩ := callBackendUpdate_spec env m b env.PDAction_step
    obtain ⟨b1, -, -, b4, -, -⟩ := callBackendUpdate_spec env m b env.PDAction_stepOver
    obtain ⟨-, ac, ap, -, -, av, ab, ast⟩ := control_fields a4
    obtain ⟨-, bc, bp, -, -, bv, bb, bst⟩ := control_fields b4
    rw [hin, hover]
    exact ⟨a1, ast, ac, ap, av, ab, b1, bst, bc, bp, bv, bb⟩
  · intro hb hty
    constructor
    · unfold Session_stepIn
      rw [hb]
      simp [hty]
    · unfold Session_stepOver
      rw [hb]
      simp [hty]

/-- Witness of C19 in the sample world: a step on the local session, whose backend instance is
`(7, 7)`, and a step on a connected remote session, which has no backend. -/
theorem step_calls_backend_directly_witness :
    (demoLocal.session.backend = some ⟨7, 7⟩ ∧
      (Session_stepIn demoEnv demoLocal).session.currentWriter =
        demoLocal.session.currentWriter) ∧
    (demoRemote.session.backend = Option.none ∧
      demoRemote.session.type = SessionType.Session_Remote ∧
      Session_stepIn demoEnv demoRemote = Session_action demoEnv demoRemote demoEnv.PDAction_step) :=
  ⟨⟨by decide, ((step_calls_backend_directly demoEnv demoLocal).1 ⟨7, 7⟩ (by decide)).2.2.1⟩,
    ⟨by decide, by decide,
      ((step_calls_backend_directly demoEnv demoRemote).2 (by decide) (by decide)).1⟩⟩

/-- C20 as stated fails.  `Session_action` on a session of type `Session_Local` without backend
exchanges the writer roles and updates the registered view plugin; on a session straight from
`Session_create`, of type `Session_Null` and without backend, it asks the status of the
connection. -/
theorem action_noop_counterexample :
    localNoBackend.session.backend = Option.none ∧
    localNoBackend.session.type = SessionType.Session_Local ∧
    (Session_action demoEnv localNoBackend 3).session.currentWriter ≠
      localNoBackend.session.currentWriter ∧
    (callsSince localNoBackend.trace (Session_action demoEnv localNoBackend 3).trace).filterMap
      Call.viewPlugin = [2] ∧
    (freshSys ()).session.backend = Option.none ∧
    (freshSys ()).session.type = SessionType.Session_Null ∧
    (callsSince (freshSys ()).trace (Session_action demoEnv (freshSys ()) 3).trace).filter
      Call.onConnection = [Call.isConnected Option.none] := by
  decide

/-- C20, amended.  On a session with no backend and a type other than `Session_Remote`,
`Session_stepIn` and `Session_stepOver` leave everything as it is and make no call.
`Session_action` calls no backend; on a session of type `Session_Null` it leaves the session
and the `markDeleted` flags as they are and updates no view plugin; on a session of type
`Session_Local` it is one local tick without backend call, which exchanges the writer roles
and updates every registered view plugin once. -/
theorem actions_without_backend (env : Env W) (m : Sys W) (a : PDAction)
    (hb : m.session.backend = Option.none)
    (hty : m.session.type ≠ SessionType.Session_Remote) :
    Session_stepIn env m = m ∧
    Session_stepOver env m = m ∧
    (callsSince m.trace (Session_action env m a).trace).filterMap Call.backendAction = [] ∧
    (m.session.type = SessionType.Session_Null →
      (Session_action env m a).session = m.session ∧
      (Session_action env m a).markDeleted = m.markDeleted ∧
      (callsSince m.trace (Session_action env m a).trace).filterMap Call.viewPlugin = []) ∧
    (m.session.type = SessionType.Session_Local → WriterPair m.session →
      Session_action env m a = updateLocal env m a ∧
      (Session_action env m a).session.currentWriter = m.session.prevWriter ∧
      (Session_action env m a).session.prevWriter = m.session.currentWriter ∧
      (callsSince m.trace (Session_action env m a).trace).filterMap Call.viewPlugin =
        m.session.viewPlugins) := by
  have hnull : m.session.type ≠ SessionType.Session_Local →
      (Session_action env m a).session = m.session ∧
      (Session_action env m a).markDeleted = m.markDeleted ∧
      (callsSince m.trace (Session_action env m a).trace).filterMap Call.viewPlugin = [] ∧
      (callsSince m.trace (Session_action env m a).trace).filterMap Call.backendAction = [] := by
    intro hl
    unfold Session_action
    rw [if_neg hl]
    simp only
    split_ifs <;>
      simp [callsSince, Call.viewPlugin, Call.backendAction]
  have hlocal : m.session.type = SessionType.Session_Local →
      Session_action env m a = updateLocal env m a := by
    intro hl
    unfold Session_action
    rw [if_pos hl]
  refine ⟨?_, ?_, ?_, ?_, ?_⟩
  · unfold Session_stepIn
    rw [hb]
    simp [hty]
  · unfold Session_stepOver
    rw [hb]
    simp [hty]
  · by_cases hl : m.session.type = SessionType.Session_Local
    · rw [hlocal hl]
      obtain ⟨-, -, b3, -⟩ := localBackend_spec env m a
      obtain ⟨seg, f1, -, -, -, f5, -, -, -⟩ :=
        localFanOut_spec env (localBackend env (localPrepare env m) a)
      have hup : updateLocal env m a =
          localScan (localFanOut env (localBackend env (localPrepare env m) a)) :=
        updateLocal_stages env m a
      rw [localScan_eq] at hup
      have htr : (updateLocal env m a).trace = m.trace ++ seg := by
        rw [hup]
        simp only
        rw [f1, (localBackend_spec env m a).1, localBackendCall, hb]
        simp
      rw [htr, callsSince_append]
      exact updateInstance_not_backend seg _ f5
    · exact (hnull hl).2.2.2
  · intro hn
    have hl : m.session.type ≠ SessionType.Session_Local := by rw [hn]; decide
    exact ⟨(hnull hl).1, (hnull hl).2.1, (hnull hl).2.2.1⟩
  · intro hl hpair
    obtain ⟨pre, seg, h⟩ := updateLocal_spec env m a hpair.1
    rw [hlocal hl]
    exact ⟨rfl, h.currentWriter, h.prevWriter, by
      rw [(localTick_calls h).1]; exact (localTick_calls h).2.1⟩

/-- Witness of C20 as amended in the sample world: a session straight from `Session_create`
and the session of type `Session_Local` without backend. -/
theorem actions_without_backend_witness :
    ((freshSys ()).session.backend = Option.none ∧
      (freshSys ()).session.type ≠ SessionType.Session_Remote ∧
      Session_stepIn demoEnv (freshSys ()) = freshSys () ∧
      ((freshSys ()).session.type = SessionType.Session_Null ∧
        (Session_action demoEnv (freshSys ()) 3).session = (freshSys ()).session)) ∧
    (localNoBackend.session.backend = Option.none ∧
      localNoBackend.session.type ≠ SessionType.Session_Remote ∧
      localNoBackend.session.type = SessionType.Session_Local ∧
      WriterPair localNoBackend.session ∧
      Session_action demoEnv localNoBackend 3 = updateLocal demoEnv localNoBackend 3) :=
  ⟨⟨by decide, by decide,
      (actions_without_backend demoEnv (freshSys ()) 3 (by decide) (by decide)).1,
      by decide,
      ((actions_without_backend demoEnv (freshSys ()) 3 (by decide) (by decide)).2.2.2.1
        (by decide)).1⟩,
    ⟨by decide, by decide, by decide, ⟨by decide, Or.inl ⟨by decide, by decide⟩⟩,
      ((actions_without_backend demoEnv localNoBackend 3 (by decide) (by decide)).2.2.2.2
        (by decide) ⟨by decide, Or.inl ⟨by decide, by decide⟩⟩).1⟩⟩

/-! ## View plugin removal -/

theorem findViewPlugin_eq (p : ViewPluginInstance) (l : List ViewPluginInstance) (k : Nat) :
    findViewPlugin p l k = if p ∈ l then some (k + l.indexOf p) else Option.none := by
  induction l generalizing k with
  | nil => simp [findViewPlugin]
  | cons q l ih =>
    by_cases hq : q = p
    · subst hq
      simp [findViewPlugin]
    · have hq' : p ≠ q := fun e => hq e.symm
      rw [findViewPlugin, if_neg hq, ih, List.indexOf_cons_ne _ hq]
      by_cases hm : p ∈ l
      · simp [hm]; omega
      · simp [hm, hq']

theorem stb_arr_fastdelete_spec (l : List ViewPluginInstance) (i : Nat) (hl : l ≠ []) :
    (stb_arr_fastdelete l i).length = l.length - 1 ∧
    (i < l.length - 1 → (stb_arr_fastdelete l i)[i]? = l.getLast?) ∧
    (∀ j, j < l.length - 1 → j ≠ i → (stb_arr_fastdelete l i)[j]? = l[j]?) := by
  obtain ⟨last, hlast⟩ : ∃ last, l.getLast? = some last := by
    cases h : l.getLast? with
    | none => exact absurd (List.getLast?_eq_none_iff.mp h) hl
    | some a => exact ⟨a, rfl⟩
  unfold stb_arr_fastdelete
  rw [hlast]
  simp only
  refine ⟨by simp, ?_, ?_⟩
  · intro hi
    rw [List.getElem?_dropLast, List.length_set, if_pos hi, List.getElem?_set]
    simp
    omega
  · intro j hj hne
    rw [List.getElem?_dropLast, List.length_set, if_pos hj, List.getElem?_set,
      if_neg (fun e => hne e.symm)]

/-- C23. View-plugin removal is a swap-remove.  For a view plugin list of length `n ≥ 2` that
holds `p`, with `i` the first index of `p`, `Session_removeViewPlugin` returns true and leaves a
list of length `n - 1` in which position `i` holds the former last element (when `i < n - 1`)
and every other remaining position holds what it held; for a list of length 1 it returns true
and leaves the empty list. -/
theorem remove_is_swap_remove (m : Sys W) (p : ViewPluginInstance) :
    (2 ≤ m.session.viewPlugins.length → p ∈ m.session.viewPlugins →
      (Session_removeViewPlugin m p).2 = true ∧
      (Session_removeViewPlugin m p).1.session.viewPlugins.length =
        m.session.viewPlugins.length - 1 ∧
      (m.session.viewPlugins.indexOf p < m.session.viewPlugins.length - 1 →
        (Session_removeViewPlugin m p).1.session.viewPlugins[m.session.viewPlugins.indexOf p]? =
          m.session.viewPlugins.getLast?) ∧
      (∀ j, j < m.session.viewPlugins.length - 1 → j ≠ m.session.viewPlugins.indexOf p →
        (Session_removeViewPlugin m p).1.session.viewPlugins[j]? = m.session.viewPlugins[j]?)) ∧
    (m.session.viewPlugins.length = 1 →
      (Session_removeViewPlugin m p).2 = true ∧
      (Session_removeViewPlugin m p).1.session.viewPlugins = []) := by
  constructor
  · intro hn hp
    have hl : m.session.viewPlugins ≠ [] := by
      intro e; rw [e] at hn; simp at hn
    obtain ⟨s1, s2, s3⟩ :=
      stb_arr_fastdelete_spec m.session.viewPlugins (m.session.viewPlugins.indexOf p) hl
    unfold Session_removeViewPlugin
    simp only
    rw [if_neg (by omega), if_neg (by omega), findViewPlugin_eq, if_pos hp]
    rw [Nat.zero_add]
    exact ⟨rfl, s1, s2, s3⟩
  · intro hn
    unfold Session_removeViewPlugin
    simp only
    rw [if_neg (by omega), if_pos hn]
    refine ⟨rfl, ?_⟩
    simp only [stb_arr_pop]
    match hv : m.session.viewPlugins, hn with
    | [a], _ => rfl

/-- Witness of C23 on the lists `[1, 2, 3, 4]`, from which 2 is removed, and `[7]`. -/
theorem remove_is_swap_remove_witness :
    (2 ≤ (withViewPlugins (freshSys ()) [1, 2, 3, 4]).session.viewPlugins.length ∧
      2 ∈ (withViewPlugins (freshSys ()) [1, 2, 3, 4]).session.viewPlugins ∧
      (Session_removeViewPlugin (withViewPlugins (freshSys ()) [1, 2, 3, 4]) 2).2 = true) ∧
    ((withViewPlugins (freshSys ()) [7]).session.viewPlugins.length = 1 ∧
      (Session_removeViewPlugin (withViewPlugins (freshSys ()) [7]) 7).1.session.viewPlugins
        = []) :=
  ⟨⟨by decide, by decide,
      ((remove_is_swap_remove (withViewPlugins (freshSys ()) [1, 2, 3, 4]) 2).1
        (by decide) (by decide)).1⟩,
    ⟨by decide,
      ((remove_is_swap_remove (withViewPlugins (freshSys ()) [7]) 7).2 (by decide)).2⟩⟩

/-- C29. Removing an unregistered view plugin.  For a view plugin list of length at least 2
that does not hold `p`, `Session_removeViewPlugin` returns false and leaves the list as it is;
for an empty list it returns true and leaves it empty; for a list of length exactly 1 it returns
true and leaves the empty list, whether or not the sole entry is `p`. -/
theorem remove_unregistered (m : Sys W) (p : ViewPluginInstance) :
    (2 ≤ m.session.viewPlugins.length → p ∉ m.session.viewPlugins →
      (Session_removeViewPlugin m p).2 = false ∧
      (Session_removeViewPlugin m p).1.session = m.session) ∧
    (m.session.viewPlugins = [] →
      (Session_removeViewPlugin m p).2 = true ∧
      (Session_removeViewPlugin m p).1.session = m.session) ∧
    (∀ q, m.session.viewPlugins = [q] →
      (Session_removeViewPlugin m p).2 = true ∧
      (Session_removeViewPlugin m p).1.session.viewPlugins = []) := by
  refine ⟨?_, ?_, ?_⟩
  · intro hn hp
    unfold Session_removeViewPlugin
    simp only
    rw [if_neg (by omega), if_neg (by omega), findViewPlugin_eq, if_neg hp]
    exact ⟨rfl, rfl⟩
  · intro he
    unfold Session_removeViewPlugin
    simp only
    rw [if_pos (by rw [he]; rfl)]
    exact ⟨rfl, rfl⟩
  · intro q hq
    unfold Session_removeViewPlugin
    simp only
    rw [if_neg (by rw [hq]; simp), if_pos (by rw [hq]; rfl)]
    refine ⟨rfl, ?_⟩
    simp only [stb_arr_pop, hq]
    rfl

/-- Witness of C29 on the lists `[1, 2, 3]`, the empty list and `[7]`, with `p = 9`. -/
theorem remove_unregistered_witness :
    (2 ≤ (withViewPlugins (freshSys ()) [1, 2, 3]).session.viewPlugins.length ∧
      9 ∉ (withViewPlugins (freshSys ()) [1, 2, 3]).session.viewPlugins ∧
      (Session_removeViewPlugin (withViewPlugins (freshSys ()) [1, 2, 3]) 9).2 = false) ∧
    ((withViewPlugins (freshSys ()) []).session.viewPlugins = [] ∧
      (Session_removeViewPlugin (withViewPlugins (freshSys ()) []) 9).2 = true) ∧
    ((withViewPlugins (freshSys ()) [7]).session.viewPlugins = [7] ∧
      (Session_removeViewPlugin (withViewPlugins (freshSys ()) [7]) 9).1.session.viewPlugins
        = []) :=
  ⟨⟨by decide, by decide,
      ((remove_unregistered (withViewPlugins (freshSys ()) [1, 2, 3]) 9).1
        (by decide) (by decide)).1⟩,
    ⟨by decide, ((remove_unregistered (withViewPlugins (freshSys ()) []) 9).2.1 (by decide)).1⟩,
    ⟨by decide,
      ((remove_unregistered (withViewPlugins (freshSys ()) [7]) 9).2.2 7 (by decide)).2⟩⟩

/-! ## The local tick: run state and breakpoint toggles -/

theorem updateInstance_not_backendReader (seg : List Call) (ps : List ViewPluginInstance)
    (h : seg.map Call.viewPlugin = ps.map some) : seg.filterMap Call.backendReader = [] := by
  induction seg generalizing ps with
  | nil => rfl
  | cons c seg ih =>
    cases ps with
    | nil => simp at h
    | cons p ps =>
      simp only [List.map_cons, List.cons.injEq] at h
      have hc : c.backendReader = Option.none := by
        cases c <;> first | rfl | simp [Call.viewPlugin] at h
      rw [List.filterMap_cons, hc]
      exact ih ps h.2

theorem fitEvents_zero (sz : PDEvent → Nat) (es : List PDEvent) : fitEvents sz 0 4 es = [] := by
  cases es with
  | nil => rfl
  | cons e es => rw [fitEvents, if_neg (by omega)]

/-- C26. Local tick run-state update.  After `updateLocal` with action `a` on a session with its
two writer roles in place: when a backend is attached, the tick makes exactly one backend update
call, with action `a`, and the run state is the value that call returned; when no backend is
attached, the run state is the one before the call, no backend update is made, and the view
plugins are still updated, one call each in order, and the breakpoint list is still rescanned
from the finalized buffer. -/
theorem local_tick_run_state (env : Env W) (m : Sys W) (a : PDAction)
    (hpair : WriterPair m.session) :
    (∀ b, m.session.backend = some b →
      (updateLocal env m a).session.state =
        (env.backendUpdate m.world b a (localRequest env m) PDBinaryWriter_init).2.state ∧
      (callsSince m.trace (updateLocal env m a).trace).filterMap Call.backendAction = [a]) ∧
    (m.session.backend = Option.none →
      (updateLocal env m a).session.state = m.session.state ∧
      (callsSince m.trace (updateLocal env m a).trace).filterMap Call.backendAction = [] ∧
      (callsSince m.trace (updateLocal env m a).trace).filterMap Call.viewPlugin =
        m.session.viewPlugins ∧
      (updateLocal env m a).session.breakpoints =
        (setBreakpointEvents (eventsToSentinel (localStream env m).stream)).foldl
          toggleListEvent m.session.breakpoints) := by
  obtain ⟨pre, seg, h⟩ := updateLocal_spec env m a hpair.1
  obtain ⟨c1, c2, -, -, -⟩ := localTick_calls h
  have hsegb := updateInstance_not_backend seg _ h.plugins
  constructor
  · intro b hb
    have hpre : pre = [Call.backendUpdate b a (localRequest env m) m.session.prevWriter
        PDBinaryWriter_init
        (env.backendUpdate m.world b a (localRequest env m) PDBinaryWriter_init).2] := by
      rw [h.backendCall, localBackendCall, hb]
    refine ⟨by rw [h.state, localState, hb], ?_⟩
    rw [c1, hpre, List.filterMap_append, hsegb]
    rfl
  · intro hb
    have hpre : pre = [] := by rw [h.backendCall, localBackendCall, hb]
    refine ⟨by rw [h.state, localState, hb], ?_, ?_, h.breakpoints⟩
    · rw [c1, hpre, List.filterMap_append, hsegb]
      rfl
    · rw [c1]; exact c2

/-- Witness of C26 in the sample world: the local session, whose backend instance is `(7, 7)`,
and the session of type `Session_Local` without backend. -/
theorem local_tick_run_state_witness :
    (WriterPair demoLocal.session ∧ demoLocal.session.backend = some ⟨7, 7⟩ ∧
      (callsSince demoLocal.trace (updateLocal demoEnv demoLocal 3).trace).filterMap
        Call.backendAction = [3]) ∧
    (WriterPair localNoBackend.session ∧ localNoBackend.session.backend = Option.none ∧
      (updateLocal demoEnv localNoBackend 3).session.state = localNoBackend.session.state) :=
  ⟨⟨⟨by decide, Or.inr ⟨by decide, by decide⟩⟩, by decide,
      ((local_tick_run_state demoEnv demoLocal 3
        ⟨by decide, Or.inr ⟨by decide, by decide⟩⟩).1 ⟨7, 7⟩ (by decide)).2⟩,
    ⟨⟨by decide, Or.inl ⟨by decide, by decide⟩⟩, by decide,
      ((local_tick_run_state demoEnv localNoBackend 3
        ⟨by decide, Or.inl ⟨by decide, by decide⟩⟩).2 (by decide)).1⟩⟩

/-- C25 as stated fails.  On the local session of the sample world whose target is running,
with a toggle of `("main.c", 42)` queued, the backend is handed a request stream without any
event while the scan of the same tick applies the toggle to the breakpoint list. -/
theorem toggles_forwarded_counterexample :
    demoRunning.session.backend = some ⟨7, 7⟩ ∧
    demoRunning.session.state = PDDebugState.running ∧
    ((callsSince demoRunning.trace (updateLocal runningEnv demoRunning 0).trace).filterMap
      Call.backendReader).map (fun r => setBreakpointEvents r.stream) = [[]] ∧
    setBreakpointEvents (eventsToSentinel (localStream runningEnv demoRunning).stream) =
      [setBreakpointEvent "main.c" 42] ∧
    demoRunning.session.breakpoints = [] ∧
    (updateLocal runningEnv demoRunning 0).session.breakpoints = [⟨"main.c", 42⟩] := by
  decide

/-- C25, amended.  In a local tick on a session with its two writer roles in place and a backend
attached, the backend is handed one reader, the request reader, and the scan applies exactly the
`setBreakpoint` events of the finalized buffer.  When the run state before the tick is not
`running`, the request reader shows the whole finalized buffer, so the toggles applied are
exactly the `setBreakpoint` events of the stream the backend was handed; when the run state is
`running`, the request reader has size 0 and shows no event, while the scan still applies the
`setBreakpoint` events of the finalized buffer. -/
theorem toggles_forwarded_unless_running (env : Env W) (m : Sys W) (a : PDAction)
    (b : PDBackendInstance) (hpair : WriterPair m.session)
    (hb : m.session.backend = some b) :
    (callsSince m.trace (updateLocal env m a).trace).filterMap Call.backendReader =
      [localRequest env m] ∧
    (updateLocal env m a).session.breakpoints =
      (setBreakpointEvents (eventsToSentinel (localStream env m).stream)).foldl
        toggleListEvent m.session.breakpoints ∧
    (m.session.state ≠ PDDebugState.running →
      setBreakpointEvents (eventsToSentinel (localRequest env m).stream) =
        setBreakpointEvents (eventsToSentinel (localStream env m).stream)) ∧
    (m.session.state = PDDebugState.running →
      (localRequest env m).size = 0 ∧ (localRequest env m).stream = []) := by
  obtain ⟨pre, seg, h⟩ := updateLocal_spec env m a hpair.1
  obtain ⟨c1, -, -, -, -⟩ := localTick_calls h
  have hpre : pre = [Call.backendUpdate b a (localRequest env m) m.session.prevWriter
      PDBinaryWriter_init
      (env.backendUpdate m.world b a (localRequest env m) PDBinaryWriter_init).2] := by
    rw [h.backendCall, localBackendCall, hb]
  refine ⟨?_, h.breakpoints, ?_, ?_⟩
  · rw [c1, hpre, List.filterMap_append, updateInstance_not_backendReader seg _ h.plugins]
    rfl
  · intro hs
    unfold localRequest localStream
    rw [if_neg hs]
  · intro hs
    unfold localRequest
    rw [if_pos hs]
    exact ⟨rfl, fitEvents_zero _ _⟩

/-- Witness of C25 as amended: the local session of the sample world, whose target is stopped,
and the one whose target is running. -/
theorem toggles_forwarded_unless_running_witness :
    (WriterPair demoLocalTyped.session ∧ demoLocalTyped.session.backend = some ⟨7, 7⟩ ∧
      demoLocalTyped.session.state ≠ PDDebugState.running ∧
      setBreakpointEvents (eventsToSentinel (localRequest demoEnv demoLocalTyped).stream) =
        setBreakpointEvents (eventsToSentinel (localStream demoEnv demoLocalTyped).stream)) ∧
    (WriterPair demoRunning.session ∧ demoRunning.session.backend = some ⟨7, 7⟩ ∧
      demoRunning.session.state = PDDebugState.running ∧
      (localRequest runningEnv demoRunning).stream = []) :=
  ⟨⟨⟨by decide, Or.inr ⟨by decide, by decide⟩⟩, by decide, by decide,
      (toggles_forwarded_unless_running demoEnv demoLocalTyped 0 ⟨7, 7⟩
        ⟨by decide, Or.inr ⟨by decide, by decide⟩⟩ (by decide)).2.2.1 (by decide)⟩,
    ⟨⟨by decide, Or.inr ⟨by decide, by decide⟩⟩, by decide, by decide,
      ((toggles_forwarded_unless_running runningEnv demoRunning 0 ⟨7, 7⟩
        ⟨by decide, Or.inr ⟨by decide, by decide⟩⟩ (by decide)).2.2.2 (by decide)).2⟩⟩

/-! ## Local start -/

theorem Session_startLocal_eq (env : Env W) (m : Sys W) (backend : Nat) (filename : String) :
    Session_startLocal env m backend filename =
      updateLocal env (startLocalQueued env m backend filename) env.PDAction_run := rfl

theorem castUInt_lt (i : Int) : castUInt i < 2 ^ 32 := by
  unfold castUInt
  have h1 := Int.emod_lt_of_pos i (show (0 : Int) < 2 ^ 32 by norm_num)
  have h2 := Int.emod_nonneg i (show (2 : Int) ^ 32 ≠ 0 by norm_num)
  omega

theorem castInt_castUInt (i : Int) (h : -2 ^ 31 ≤ i ∧ i < 2 ^ 31) :
    castInt (castUInt i) = i := by
  unfold castInt
  rw [Nat.mod_eq_of_lt (castUInt_lt i)]
  unfold castUInt
  split_ifs <;> omega

theorem writeBreakpoint_eq (w : PDWriter) (b : Breakpoint) :
    writeBreakpoint w b =
      { events := w.events ++ [setBreakpointEvent b.filename (castUInt b.line)]
        building := Option.none, finalized := w.finalized } := by
  unfold writeBreakpoint PDWrite_eventEnd PDWrite_u32 PDWrite_string PDWriter.addField
    PDWrite_eventBegin setBreakpointEvent
  simp only [Nat.mod_eq_of_lt (castUInt_lt b.line), List.nil_append, List.singleton_append]

theorem foldl_writeBreakpoint (l : List Breakpoint) (w : PDWriter)
    (hw : w.building = Option.none) :
    l.foldl writeBreakpoint w =
      w.append (l.map (fun b => setBreakpointEvent b.filename (castUInt b.line))) := by
  induction l generalizing w with
  | nil =>
    simp [PDWriter.append]
  | cons b l ih =>
    rw [List.foldl_cons, ih _ (by rw [writeBreakpoint_eq])]
    rw [writeBreakpoint_eq]
    cases w
    simp [PDWriter.append] at hw ⊢
    exact hw.symm

/-- What `Session_startLocal` leaves for the tick: the start events appended to the current
writer, the backend instance stored, the instance creation recorded. -/
theorem startLocalQueued_spec (env : Env W) (m : Sys W) (backend : Nat) (filename : String) :
    (startLocalQueued env m backend filename).session.control =
      { m.session.control with backend := some (startedBackend env m.world backend) } ∧
    (startLocalQueued env m backend filename).world = (env.createInstance m.world backend).1 ∧
    (startLocalQueued env m backend filename).trace =
      m.trace ++ [Call.createInstance backend] ∧
    (startLocalQueued env m backend filename).markDeleted = m.markDeleted ∧
    ((startLocalQueued env m backend filename).session.writer m.session.currentWriter).events =
      (m.session.writer m.session.currentWriter).events ++
        startEvents filename m.session.breakpoints := by
  have hfold := foldl_writeBreakpoint m.session.breakpoints
    (PDWrite_eventEnd (PDWrite_string (PDWrite_eventBegin
      (m.session.writer m.session.currentWriter) PDEventType.setExecutable) "filename" filename))
    rfl
  obtain ⟨⟨ty, w0, w1, t0, t1, rd, cur, prev, be, conn, vps, bps, st⟩, md, world, tr⟩ := m
  refine ⟨?_, rfl, rfl, rfl, ?_⟩
  · cases cur <;> rfl
  · simp only at hfold
    cases cur <;>
      simp only [startLocalQueued, Session.writer, Session.setWriter] at hfold ⊢ <;>
      rw [hfold] <;>
      simp [PDWriter.append, PDWrite_eventEnd, PDWrite_string, PDWriter.addField,
        PDWrite_eventBegin, startEvents, setExecutableEvent]

theorem eventBreakpoint_setBreakpointEvent (b : Breakpoint) (h : b.lineInRange) :
    eventBreakpoint (readerOn (setBreakpointEvent b.filename (castUInt b.line))) = b := by
  have hne : ¬ ("filename" = "line") := by decide
  cases b with
  | mk f l =>
    simp only [eventBreakpoint, readerOn, setBreakpointEvent, PDRead_findString, PDRead_findU32,
      lookupField, if_true, if_neg hne, Nat.mod_eq_of_lt (castUInt_lt l)]
    rw [castInt_castUInt l h]

theorem toggleList_head (b : Breakpoint) (l : List Breakpoint) : toggleList b (b :: l) = l := by
  simp [toggleList]

theorem foldl_replay (l : List Breakpoint) (h : ∀ b ∈ l, b.lineInRange) :
    (l.map (fun b => setBreakpointEvent b.filename (castUInt b.line))).foldl toggleListEvent l
      = [] := by
  induction l with
  | nil => rfl
  | cons b l ih =>
    rw [List.map_cons, List.foldl_cons, toggleListEvent,
      eventBreakpoint_setBreakpointEvent b (h b (List.mem_cons_self _ _)), toggleList_head]
    exact ih (fun c hc => h c (List.mem_cons_of_mem _ hc))

theorem eventsToSentinel_startEvents (filename : String) (l : List Breakpoint) :
    eventsToSentinel (startEvents filename l) = startEvents filename l := by
  unfold eventsToSentinel
  rw [List.takeWhile_eq_self_iff]
  intro e he
  simp only [startEvents, List.mem_cons, List.mem_map] at he
  rcases he with rfl | ⟨b, -, rfl⟩ <;> simp [setExecutableEvent, setBreakpointEvent]

theorem setBreakpointEvents_startEvents (filename : String) (l : List Breakpoint) :
    setBreakpointEvents (startEvents filename l) =
      l.map (fun b => setBreakpointEvent b.filename (castUInt b.line)) := by
  unfold setBreakpointEvents startEvents
  rw [List.filter_cons_of_neg (by simp [setExecutableEvent]), List.filter_eq_self]
  intro e he
  simp only [List.mem_map] at he
  obtain ⟨b, -, rfl⟩ := he
  simp [setBreakpointEvent]

/-- The tick `Session_startLocal` ends with, on a session whose writer roles are distinct: the
calls are the instance creation, one backend update with action run on the request reader of the
queued system, then the view plugin calls; the scan runs over the queued buffer. -/
theorem startLocal_tick (env : Env W) (m : Sys W) (backend : Nat) (filename : String)
    (hne : m.session.currentWriter ≠ m.session.prevWriter) :
    ∃ res seg,
      callsSince m.trace (Session_startLocal env m backend filename).trace =
        Call.createInstance backend ::
          Call.backendUpdate (startedBackend env m.world backend) env.PDAction_run
            (localRequest env (startLocalQueued env m backend filename)) m.session.prevWriter
            PDBinaryWriter_init res :: seg ∧
      seg.map Call.viewPlugin = m.session.viewPlugins.map some ∧
      (Session_startLocal env m backend filename).session.breakpoints =
        (setBreakpointEvents (eventsToSentinel
          ((m.session.writer m.session.currentWriter).events ++
            startEvents filename m.session.breakpoints))).foldl
          toggleListEvent m.session.breakpoints ∧
      (localRequest env (startLocalQueued env m backend filename)).data =
        (m.session.writer m.session.currentWriter).events ++
          startEvents filename m.session.breakpoints ∧
      (m.session.state ≠ PDDebugState.running →
        (localRequest env (startLocalQueued env m backend filename)).pending =
          (m.session.writer m.session.currentWriter).events ++
            startEvents filename m.session.breakpoints) := by
  obtain ⟨q1, q2, q3, q4, q5⟩ := startLocalQueued_spec env m backend filename
  obtain ⟨qty, qcur, qprev, qbe, qconn, qvps, qbps, qst⟩ := control_fields q1
  replace qcur : (startLocalQueued env m backend filename).session.currentWriter =
    m.session.currentWriter := qcur
  replace qprev : (startLocalQueued env m backend filename).session.prevWriter =
    m.session.prevWriter := qprev
  replace qbe : (startLocalQueued env m backend filename).session.backend =
    some (startedBackend env m.world backend) := qbe
  replace qvps : (startLocalQueued env m backend filename).session.viewPlugins =
    m.session.viewPlugins := qvps
  replace qbps : (startLocalQueued env m backend filename).session.breakpoints =
    m.session.breakpoints := qbps
  replace qst : (startLocalQueued env m backend filename).session.state =
    m.session.state := qst
  obtain ⟨pre, seg, h⟩ := updateLocal_spec env (startLocalQueued env m backend filename)
    env.PDAction_run (by rw [qcur, qprev]; exact hne)
  have hpre := h.backendCall
  rw [localBackendCall, qbe] at hpre
  simp only at hpre
  rw [qprev] at hpre
  have hstream : (localStream env (startLocalQueued env m backend filename)).stream =
      (m.session.writer m.session.currentWriter).events ++
        startEvents filename m.session.breakpoints := by
    rw [localStream_stream, qcur, q5]
  refine ⟨(env.backendUpdate (startLocalQueued env m backend filename).world
    (startedBackend env m.world backend) env.PDAction_run
    (localRequest env (startLocalQueued env m backend filename)) PDBinaryWriter_init).2,
    seg, ?_, ?_, ?_, ?_, ?_⟩
  · rw [Session_startLocal_eq, h.trace, q3, List.append_assoc, callsSince_append, hpre]
    rfl
  · rw [h.plugins, qvps]
  · rw [Session_startLocal_eq, h.breakpoints, hstream, qbps]
  · unfold localRequest
    rw [qcur]
    exact q5
  · intro hs
    have hreq : localRequest env (startLocalQueued env m backend filename) =
        localStream env (startLocalQueued env m backend filename) := by
      unfold localRequest localStream
      rw [if_neg (by rw [qst]; exact hs)]
    rw [hreq]
    exact hstream

/-- C22. Local session start stream.  `Session_createLocal` calls the backend's update exactly
once, with action run, and the reader that call is handed holds one `setExecutable` event whose
`filename` field is the given file name, followed by the end of the stream.  In general
`Session_startLocal` on a session with distinct writer roles, breakpoint list `B` and an empty
current writer leaves in that writer `setExecutable` followed by one `setBreakpoint` event per
entry of `B`, in list order, with the entry's file name and its line converted to unsigned; it
then calls the backend's update exactly once, with action run, on a reader over that buffer,
which shows these events unless the run state was `running`. -/
theorem local_start_stream (env : Env W) (world : W) (backend : Nat) (filename : String) :
    ((callsSince [] (Session_createLocal env world backend filename).trace).filterMap
        Call.backendAction = [env.PDAction_run] ∧
      ∃ r, (callsSince [] (Session_createLocal env world backend filename).trace).filterMap
          Call.backendReader = [r] ∧
        r.pending = [setExecutableEvent filename] ∧
        (PDRead_getEvent r).1 = PDEventType.setExecutable ∧
        PDRead_findString (PDRead_getEvent r).2 "filename" = filename ∧
        (PDRead_getEvent (PDRead_getEvent r).2).1 = PDEventType.none) ∧
    (∀ m : Sys W, WriterPair m.session →
      (m.session.writer m.session.currentWriter).events = [] →
      ((startLocalQueued env m backend filename).session.writer
        m.session.currentWriter).events = startEvents filename m.session.breakpoints ∧
      Session_startLocal env m backend filename =
        updateLocal env (startLocalQueued env m backend filename) env.PDAction_run ∧
      (callsSince m.trace (Session_startLocal env m backend filename).trace).filterMap
        Call.backendAction = [env.PDAction_run] ∧
      (callsSince m.trace (Session_startLocal env m backend filename).trace).filterMap
        Call.backendReader = [localRequest env (startLocalQueued env m backend filename)] ∧
      (localRequest env (startLocalQueued env m backend filename)).data =
        startEvents filename m.session.breakpoints ∧
      (m.session.state ≠ PDDebugState.running →
        (localRequest env (startLocalQueued env m backend filename)).pending =
          startEvents filename m.session.breakpoints)) := by
  have key : ∀ m : Sys W, m.session.currentWriter ≠ m.session.prevWriter →
      (m.session.writer m.session.currentWriter).events = [] →
      ((startLocalQueued env m backend filename).session.writer
        m.session.currentWriter).events = startEvents filename m.session.breakpoints ∧
      (callsSince m.trace (Session_startLocal env m backend filename).trace).filterMap
        Call.backendAction = [env.PDAction_run] ∧
      (callsSince m.trace (Session_startLocal env m backend filename).trace).filterMap
        Call.backendReader = [localRequest env (startLocalQueued env m backend filename)] ∧
      (localRequest env (startLocalQueued env m backend filename)).data =
        startEvents filename m.session.breakpoints ∧
      (m.session.state ≠ PDDebugState.running →
        (localRequest env (startLocalQueued env m backend filename)).pending =
          startEvents filename m.session.breakpoints) := by
    intro m hne hempty
    obtain ⟨res, seg, t1, t2, -, t4, t5⟩ := startLocal_tick env m backend filename hne
    rw [hempty, List.nil_append] at t4 t5
    have q5 := (startLocalQueued_spec env m backend filename).2.2.2.2
    rw [hempty, List.nil_append] at q5
    refine ⟨q5, ?_, ?_, t4, t5⟩
    · rw [t1]
      exact congrArg (List.cons env.PDAction_run) (updateInstance_not_backend seg _ t2)
    · rw [t1]
      exact congrArg (List.cons (localRequest env (startLocalQueued env m backend filename)))
        (updateInstance_not_backendReader seg _ t2)
  constructor
  · have hcur : (createdSys world).session.currentWriter ≠
        (createdSys world).session.prevWriter := by
      intro h
      cases h
    have hst : (createdSys world).session.state ≠ PDDebugState.running := by
      intro h
      cases h
    obtain ⟨k1, k2, k3, k4, k5⟩ := key (createdSys world) hcur rfl
    refine ⟨k2, _, k3, k5 hst, ?_⟩
    have hp := k5 hst
    replace hp : (localRequest env (startLocalQueued env (createdSys world) backend
        filename)).pending = [setExecutableEvent filename] := hp
    unfold PDRead_getEvent
    rw [hp]
    exact ⟨rfl, rfl, rfl⟩
  · intro m hpair hempty
    obtain ⟨k1, k2, k3, k4, k5⟩ := key m hpair.1 hempty
    exact ⟨k1, rfl, k2, k3, k4, k5⟩

/-- Witness of C22 in the sample world: a session straight from `Session_create` that holds the
breakpoints `("main.c", 42)` and `("a.c", 7)`. -/
theorem local_start_stream_witness :
    WriterPair (withBreakpoints (freshSys ()) [⟨"main.c", 42⟩, ⟨"a.c", 7⟩]).session ∧
    ((withBreakpoints (freshSys ()) [⟨"main.c", 42⟩, ⟨"a.c", 7⟩]).session.writer
      (withBreakpoints (freshSys ()) [⟨"main.c", 42⟩, ⟨"a.c", 7⟩]).session.currentWriter).events
        = [] ∧
    (localRequest demoEnv (startLocalQueued demoEnv
      (withBreakpoints (freshSys ()) [⟨"main.c", 42⟩, ⟨"a.c", 7⟩]) 7 "a.out")).data =
      [setExecutableEvent "a.out", setBreakpointEvent "main.c" 42, setBreakpointEvent "a.c" 7] :=
  ⟨⟨by decide, Or.inl ⟨by decide, by decide⟩⟩, by decide,
    ((local_start_stream demoEnv () 7 "a.out").2
      (withBreakpoints (freshSys ()) [⟨"main.c", 42⟩, ⟨"a.c", 7⟩])
      ⟨by decide, Or.inl ⟨by decide, by decide⟩⟩ (by decide)).2.2.2.2.1⟩

/-- C27. Starting a local session consumes the existing breakpoints.  For every session with
distinct writer roles, an empty current writer and a breakpoint list `B` whose lines are C
`int` values, the scan of the tick `Session_startLocal` ends with applies exactly the
`setBreakpoint` events replayed from `B`, one per entry in list order, and the breakpoint list
is empty when `Session_startLocal` returns. -/
theorem start_consumes_breakpoints (env : Env W) (m : Sys W) (backend : Nat)
    (filename : String) (hpair : WriterPair m.session)
    (hempty : (m.session.writer m.session.currentWriter).events = [])
    (hrange : ∀ b ∈ m.session.breakpoints, b.lineInRange) :
    setBreakpointEvents (eventsToSentinel
      (localStream env (startLocalQueued env m backend filename)).stream) =
      m.session.breakpoints.map (fun b => setBreakpointEvent b.filename (castUInt b.line)) ∧
    (m.session.breakpoints.map
      (fun b => setBreakpointEvent b.filename (castUInt b.line))).map
        (fun e => eventBreakpoint (readerOn e)) = m.session.breakpoints ∧
    (Session_startLocal env m backend filename).session.breakpoints = [] := by
  obtain ⟨res, seg, -, -, t3, -, -⟩ := startLocal_tick env m backend filename hpair.1
  obtain ⟨q1, -, -, -, q5⟩ := startLocalQueued_spec env m backend filename
  obtain ⟨-, qcur, -, -, -, -, -, -⟩ := control_fields q1
  replace qcur : (startLocalQueued env m backend filename).session.currentWriter =
    m.session.currentWriter := qcur
  rw [hempty, List.nil_append] at t3 q5
  refine ⟨?_, ?_, ?_⟩
  · rw [localStream_stream, qcur, q5, eventsToSentinel_startEvents,
      setBreakpointEvents_startEvents]
  · rw [List.map_map]
    conv_rhs => rw [← List.map_id m.session.breakpoints]
    apply List.map_congr_left
    intro b hb
    exact eventBreakpoint_setBreakpointEvent b (hrange b hb)
  · rw [t3, eventsToSentinel_startEvents, setBreakpointEvents_startEvents]
    exact foldl_replay _ hrange

/-- Witness of C27 in the sample world: a session straight from `Session_create` that holds the
breakpoints `("main.c", 42)` and `("a.c", 7)` is started on `a.out`. -/
theorem start_consumes_breakpoints_witness :
    WriterPair (withBreakpoints (freshSys ()) [⟨"main.c", 42⟩, ⟨"a.c", 7⟩]).session ∧
    ((withBreakpoints (freshSys ()) [⟨"main.c", 42⟩, ⟨"a.c", 7⟩]).session.writer
      (withBreakpoints (freshSys ()) [⟨"main.c", 42⟩, ⟨"a.c", 7⟩]).session.currentWriter).events
        = [] ∧
    (∀ b ∈ (withBreakpoints (freshSys ()) [⟨"main.c", 42⟩, ⟨"a.c", 7⟩]).session.breakpoints,
      b.lineInRange) ∧
    (Session_startLocal demoEnv (withBreakpoints (freshSys ()) [⟨"main.c", 42⟩, ⟨"a.c", 7⟩])
      7 "a.out").session.breakpoints = [] :=
  ⟨⟨by decide, Or.inl ⟨by decide, by decide⟩⟩, by decide,
    by simp [withBreakpoints, Breakpoint.lineInRange],
    (start_consumes_breakpoints demoEnv
      (withBreakpoints (freshSys ()) [⟨"main.c", 42⟩, ⟨"a.c", 7⟩]) 7 "a.out"
      ⟨by decide, Or.inl ⟨by decide, by decide⟩⟩ (by decide)
      (by simp [withBreakpoints, Breakpoint.lineInRange])).2.2⟩

/-! ## Frame and replay of the remote tick -/

/-- A remote tick changes neither the breakpoint list nor the run state. -/
theorem updateRemote_frame (env : Env W) (m : Sys W) (action : PDAction) :
    (updateRemote env m action).session.breakpoints = m.session.breakpoints ∧
    (updateRemote env m action).session.state = m.session.state := by
  cases hc : m.session.connection with
  | none =>
    rw [updateRemote_stages, hc]
    exact ⟨rfl, rfl⟩
  | some conn =>
    obtain ⟨pre, seg, post, h⟩ := updateRemote_spec env m conn action hc
    exact ⟨h.breakpoints, h.state⟩

/-- The reader a remote tick leaves in the session is the one its receive stage left. -/
theorem updateRemote_reader (env : Env W) (m : Sys W) (conn : RemoteConnection)
    (action : PDAction) (hconn : m.session.connection = some conn) :
    (updateRemote env m action).session.reader = (remoteInbound env m conn).session.reader := by
  obtain ⟨pre, i1, i2, i3, i4, i5, i6⟩ := remoteInbound_spec env m conn
  obtain ⟨seg, f1, f2, f3, -⟩ :=
    updateViewPlugins_fold env (remoteInbound env m conn).session.viewPlugins
      (remoteInbound env m conn) i5
  change (updateViewPlugins env (remoteInbound env m conn)).session.reader = _ at f3
  obtain ⟨post, p1, p2, p3, p4, p5, p6⟩ :=
    remoteFinish_spec env (updateViewPlugins env (remoteInbound env m conn)) conn
  have hup : updateRemote env m action =
      remoteFinish env (updateViewPlugins env (remoteInbound env m conn)) conn := by
    rw [updateRemote_stages, hconn]
  rw [hup, p5, f3]

/-- The receive stage of a remote tick in which nothing is readable, or the header receive
fails: the reader is reset and no payload is asked for. -/
theorem remoteInbound_quiet (env : Env W) (m : Sys W) (conn : RemoteConnection)
    (hquiet : (env.RemoteConnection_pollRead m.world conn).2 = false ∨
      (env.RemoteConnection_recv (polledWorld env m conn) conn 4).2 = Option.none) :
    (remoteInbound env m conn).session.reader = PDBinaryReader_reset m.session.reader ∧
    ((remoteInbound env m conn).trace = m.trace ++ [Call.pollRead conn] ∨
      (remoteInbound env m conn).trace = m.trace ++ [Call.pollRead conn, Call.recv conn 4]) := by
  unfold polledWorld at hquiet
  unfold remoteInbound remoteReceive
  by_cases hp : (env.RemoteConnection_pollRead m.world conn).2 = true
  · rcases hquiet with hq | hq
    · rw [hp] at hq
      cases hq
    · simp [hp, hq]
  · simp [hp]

/-- C28. Remote tick frame.  For every session, with a connection or without, every world and
hence every received payload and every output of the view plugins, `updateRemote` leaves the
breakpoint list and the run state as they were; so do `Session_update` and `Session_action` on a
session of type `Session_Remote`. -/
theorem remote_tick_frame (env : Env W) (m : Sys W) (action : PDAction) :
    (updateRemote env m action).session.breakpoints = m.session.breakpoints ∧
    (updateRemote env m action).session.state = m.session.state ∧
    (m.session.type = SessionType.Session_Remote →
      (Session_update env m).session.breakpoints = m.session.breakpoints ∧
      (Session_update env m).session.state = m.session.state ∧
      (Session_action env m action).session.breakpoints = m.session.breakpoints ∧
      (Session_action env m action).session.state = m.session.state) := by
  obtain ⟨h1, h2⟩ := updateRemote_frame env m action
  refine ⟨h1, h2, ?_⟩
  intro hty
  obtain ⟨vps, rem, h, -⟩ := Session_update_frame env m
  have htick : sessionTick env m = updateRemote env m env.PDAction_none := by
    unfold sessionTick
    rw [hty]
  obtain ⟨g1, g2⟩ := updateRemote_frame env m env.PDAction_none
  refine ⟨?_, ?_, ?_, ?_⟩
  · rw [h, htick]
    exact g1
  · rw [h, htick]
    exact g2
  · unfold Session_action
    rw [if_neg (by rw [hty]; decide)]
    simp only
    split_ifs <;> rfl
  · unfold Session_action
    rw [if_neg (by rw [hty]; decide)]
    simp only
    split_ifs <;> rfl

/-- Witness of C28 in the sample world: the connected remote session receives a payload that
holds a `setBreakpoint` and a `setStatus` event, and its update leaves the breakpoint list as it
was. -/
theorem remote_tick_frame_witness :
    demoRemote.session.type = SessionType.Session_Remote ∧
    (remoteInbound demoEnv demoRemote 1340).session.reader.stream =
      [setBreakpointEvent "main.c" 42,
        { type := PDEventType.setStatus, fields := [("state", PDValue.u32 1)] }] ∧
    (Session_update demoEnv demoRemote).session.breakpoints = demoRemote.session.breakpoints :=
  ⟨by decide, by decide, ((remote_tick_frame demoEnv demoRemote 0).2.2 (by decide)).1⟩

/-! ## The transport of a session -/

theorem sameTransport_trans {s t u : Session} (h1 : SameTransport s t) (h2 : SameTransport t u) :
    SameTransport s u :=
  ⟨h2.1.trans h1.1, h2.2.1.trans h1.2.1, h2.2.2.trans h1.2.2⟩

theorem updateLocal_transport (env : Env W) (m : Sys W) (action : PDAction) :
    SameTransport m.session (updateLocal env m action).session := by
  obtain ⟨-, -, h3, h4, h5, -, -⟩ := updateLocal_control env m action
  exact ⟨h3, h4, h5⟩

theorem updateRemote_transport (env : Env W) (m : Sys W) (action : PDAction) :
    SameTransport m.session (updateRemote env m action).session := by
  cases hc : m.session.connection with
  | none =>
    rw [updateRemote_stages, hc]
    exact ⟨rfl, rfl, rfl⟩
  | some conn =>
    obtain ⟨pre, seg, post, h⟩ := updateRemote_spec env m conn action hc
    exact ⟨h.type, h.backend, h.connection⟩

theorem Session_update_transport (env : Env W) (m : Sys W) :
    SameTransport m.session (Session_update env m).session := by
  obtain ⟨vps, rem, h, -⟩ := Session_update_frame env m
  rw [h]
  have ht : SameTransport m.session (sessionTick env m).session := by
    unfold sessionTick
    split
    · exact updateLocal_transport env m _
    · exact updateLocal_transport env m _
    · exact updateRemote_transport env m _
  exact ht

theorem Session_action_transport (env : Env W) (m : Sys W) (action : PDAction) :
    SameTransport m.session (Session_action env m action).session := by
  unfold Session_action
  split_ifs
  · exact updateLocal_transport env m action
  · simp only
    split_ifs <;> exact ⟨rfl, rfl, rfl⟩

theorem callBackendUpdate_transport (env : Env W) (m : Sys W) (b : PDBackendInstance)
    (action : PDAction) : SameTransport m.session (callBackendUpdate env m b action).session := by
  obtain ⟨-, -, -, h, -, -⟩ := callBackendUpdate_spec env m b action
  obtain ⟨hty, -, -, hbe, hconn, -, -, -⟩ := control_fields h
  exact ⟨hty, hbe, hconn⟩

theorem driverOp_transport (env : Env W) (m : Sys W) (op : SessionOp)
    (h : op.isDriver = true) : SameTransport m.session (applyOp env m op).session := by
  cases op with
  | update => exact Session_update_transport env m
  | action a => exact Session_action_transport env m a
  | stepIn =>
    simp only [applyOp]
    unfold Session_stepIn
    split
    · exact callBackendUpdate_transport env m _ _
    · split_ifs
      · exact Session_action_transport env m _
      · exact ⟨rfl, rfl, rfl⟩
  | stepOver =>
    simp only [applyOp]
    unfold Session_stepOver
    split
    · exact callBackendUpdate_transport env m _ _
    · split_ifs
      · exact Session_action_transport env m _
      · exact ⟨rfl, rfl, rfl⟩
  | addViewPlugin p => exact ⟨rfl, rfl, rfl⟩
  | removeViewPlugin p =>
    obtain ⟨vps, h⟩ := Session_removeViewPlugin_frame m p
    simp only [applyOp, h]
    exact ⟨rfl, rfl, rfl⟩
  | startLocal b f => cases h
  | startRemote t p => cases h
  | loadSourceFile f => cases h
  | toggleBreakpointCurrentLine => cases h

theorem driverOps_transport (env : Env W) (ops : List SessionOp) :
    ∀ m : Sys W, SameTransport m.session
      (runOps env m (ops.filter SessionOp.isDriver)).session := by
  induction ops with
  | nil => intro m; exact ⟨rfl, rfl, rfl⟩
  | cons op ops ih =>
    intro m
    by_cases h : op.isDriver = true
    · rw [List.filter_cons_of_pos h]
      exact sameTransport_trans (driverOp_transport env m op h) (ih (applyOp env m op))
    · rw [List.filter_cons_of_neg h]
      exact ih m

theorem Session_startLocal_transport (env : Env W) (m : Sys W) (backend : Nat)
    (filename : String) :
    (Session_startLocal env m backend filename).session.type = m.session.type ∧
    (Session_startLocal env m backend filename).session.backend =
      some (startedBackend env m.world backend) ∧
    (Session_startLocal env m backend filename).session.connection = m.session.connection := by
  obtain ⟨q1, -⟩ := startLocalQueued_spec env m backend filename
  obtain ⟨qty, -, -, qbe, qconn, -, -, -⟩ := control_fields q1
  obtain ⟨h1, h2, h3⟩ := updateLocal_transport env (startLocalQueued env m backend filename)
    env.PDAction_run
  rw [Session_startLocal_eq]
  exact ⟨h1.trans qty, h2.trans qbe, h3.trans qconn⟩

/-- C21 does not hold of the code.  `Session_startLocal` stores the backend instance it creates
and leaves the session type as it found it, so a session obtained from `Session_createLocal` has
a backend while its type is `Session_Null`, not `Session_Local`; and this stays so after every
sequence of updates, actions, steps and registrations and removals of view plugins, none of
which changes the type, the backend or the connection. -/
theorem local_start_leaves_type (env : Env W) (world : W) (backend : Nat) (filename : String)
    (ops : List SessionOp) :
    (∀ m : Sys W,
      (Session_startLocal env m backend filename).session.type = m.session.type ∧
      (Session_startLocal env m backend filename).session.backend =
        some (startedBackend env m.world backend)) ∧
    (Session_createLocal env world backend filename).session.type =
      SessionType.Session_Null ∧
    (Session_createLocal env world backend filename).session.backend =
      some (startedBackend env world backend) ∧
    (runOps env (Session_createLocal env world backend filename)
      (ops.filter SessionOp.isDriver)).session.type = SessionType.Session_Null ∧
    (runOps env (Session_createLocal env world backend filename)
      (ops.filter SessionOp.isDriver)).session.backend =
        some (startedBackend env world backend) ∧
    (runOps env (Session_createLocal env world backend filename)
      (ops.filter SessionOp.isDriver)).session.connection = Option.none := by
  obtain ⟨h1, h2, h3⟩ := Session_startLocal_transport env (createdSys world) backend filename
  replace h1 : (Session_createLocal env world backend filename).session.type =
    SessionType.Session_Null := h1
  replace h2 : (Session_createLocal env world backend filename).session.backend =
    some (startedBackend env world backend) := h2
  replace h3 : (Session_createLocal env world backend filename).session.connection =
    Option.none := h3
  obtain ⟨g1, g2, g3⟩ := driverOps_transport env ops
    (Session_createLocal env world backend filename)
  refine ⟨fun m => ?_, h1, h2, g1.trans h1, g2.trans h2, g3.trans h3⟩
  obtain ⟨k1, k2, -⟩ := Session_startLocal_transport env m backend filename
  exact ⟨k1, k2⟩

/-! ## Layout restore -/

/-- One record of a layout: the view plugin list grows by what the record yields, the rest of
the session, the flags and the trace stay. -/
theorem setLayoutItem_spec {R : Type} (penv : PluginEnv W R) (width height : R) (m : Sys W)
    (item : LayoutItem R) :
    (setLayoutItem penv width height m item).session =
      { m.session with
        viewPlugins := m.session.viewPlugins ++ (restoredView penv m.world item).toList } ∧
    (setLayoutItem penv width height m item).markDeleted = m.markDeleted ∧
    (setLayoutItem penv width height m item).trace = m.trace := by
  unfold setLayoutItem restoredView
  simp only
  cases h1 : (penv.PluginHandler_findPlugin m.world item.pluginFile item.pluginName true).2 with
  | none => simp
  | some d =>
    simp only
    cases h2 : (penv.PluginInstance_createViewPlugin
        (penv.PluginHandler_findPlugin m.world item.pluginFile item.pluginName true).1 d).2 with
    | none => simp
    | some p => simp [Session_addViewPlugin]

theorem setLayout_fold {R : Type} (penv : PluginEnv W R) (width height : R)
    (items : List (LayoutItem R)) :
    ∀ m : Sys W,
      (items.foldl (setLayoutItem penv width height) m).session =
        { m.session with
          viewPlugins := m.session.viewPlugins ++
            (layoutOutcomes penv width height m items).filterMap id } ∧
      (items.foldl (setLayoutItem penv width height) m).markDeleted = m.markDeleted ∧
      (items.foldl (setLayoutItem penv width height) m).trace = m.trace := by
  induction items with
  | nil =>
    intro m
    simp [layoutOutcomes]
  | cons item rest ih =>
    intro m
    obtain ⟨h1, h2, h3⟩ := setLayoutItem_spec penv width height m item
    obtain ⟨g1, g2, g3⟩ := ih (setLayoutItem penv width height m item)
    rw [List.foldl_cons]
    refine ⟨?_, g2.trans h2, g3.trans h3⟩
    rw [g1, h1]
    cases hr : restoredView penv m.world item <;> simp [layoutOutcomes, hr]

theorem layoutOutcomes_length {R : Type} (penv : PluginEnv W R) (width height : R)
    (items : List (LayoutItem R)) :
    ∀ m : Sys W, (layoutOutcomes penv width height m items).length = items.length := by
  induction items with
  | nil => intro m; rfl
  | cons item rest ih =>
    intro m
    simp [layoutOutcomes, ih]

theorem layoutOutcomes_getElem {R : Type} (penv : PluginEnv W R) (width height : R)
    (items : List (LayoutItem R)) :
    ∀ (m : Sys W) (i : Nat) (item : LayoutItem R), items[i]? = some item →
      (layoutOutcomes penv width height m items)[i]? =
        some (restoredView penv
          ((items.take i).foldl (setLayoutItem penv width height) m).world item) := by
  induction items with
  | nil =>
    intro m i item h
    simp at h
  | cons first rest ih =>
    intro m i item h
    cases i with
    | zero =>
      simp only [List.getElem?_cons_zero, Option.some.injEq] at h
      simp [layoutOutcomes, h]
    | succ i =>
      simp only [List.getElem?_cons_succ] at h
      simp only [layoutOutcomes, List.getElem?_cons_succ, List.take_succ_cons, List.foldl_cons]
      exact ih _ i item h

theorem filterMap_id_length (l : List (Option ViewPluginInstance)) :
    (l.filterMap id).length = (l.filter Option.isSome).length := by
  induction l with
  | nil => rfl
  | cons a l ih => cases a <;> simp [ih]

/-- C24. Partial layout restore.  `Session_setLayout` goes through every record of the layout,
in order, and none stops it: a record yields the instance created for it when its plugin
resolves and the creation of the instance succeeds, in the world the records before it have
left, and nothing otherwise.  The view plugin list afterwards is the one before followed by the
instances yielded, in record order; its length is the prior length plus the number of records
that yielded an instance; the views registered before are unchanged and at their positions, and
so are the other fields of the session, the flags and the trace. -/
theorem layout_restore_skips_failures {R : Type} (penv : PluginEnv W R) (m : Sys W)
    (layout : UILayout R) (width height : R) :
    (layoutOutcomes penv width height m layout.records).length = layout.records.length ∧
    (∀ (i : Nat) (item : LayoutItem R), layout.records[i]? = some item →
      (layoutOutcomes penv width height m layout.records)[i]? =
        some (restoredView penv
          (Session_setLayout penv m (layoutOf (layout.records.take i)) width height).world
          item)) ∧
    (Session_setLayout penv m layout width height).session.viewPlugins =
      m.session.viewPlugins ++
        (layoutOutcomes penv width height m layout.records).filterMap id ∧
    (Session_setLayout penv m layout width height).session.viewPlugins.length =
      m.session.viewPlugins.length +
        ((layoutOutcomes penv width height m layout.records).filter Option.isSome).length ∧
    (Session_setLayout penv m layout width height).session.viewPlugins.take
      m.session.viewPlugins.length = m.session.viewPlugins ∧
    (Session_setLayout penv m layout width height).session =
      { m.session with
        viewPlugins := (Session_setLayout penv m layout width height).session.viewPlugins } ∧
    (Session_setLayout penv m layout width height).markDeleted = m.markDeleted ∧
    (Session_setLayout penv m layout width height).trace = m.trace := by
  obtain ⟨h1, h2, h3⟩ := setLayout_fold penv width height layout.records m
  change (Session_setLayout penv m layout width height).session = _ at h1
  change (Session_setLayout penv m layout width height).markDeleted = _ at h2
  change (Session_setLayout penv m layout width height).trace = _ at h3
  have hv : (Session_setLayout penv m layout width height).session.viewPlugins =
      m.session.viewPlugins ++
        (layoutOutcomes penv width height m layout.records).filterMap id := by
    rw [h1]
  refine ⟨layoutOutcomes_length penv width height _ m, ?_, hv, ?_, ?_, ?_, h2, h3⟩
  · intro i item hi
    have hlay : Session_setLayout penv m (layoutOf (layout.records.take i)) width height =
        (layout.records.take i).foldl (setLayoutItem penv width height) m := by
      unfold Session_setLayout layoutOf
      simp only [Int.toNat_ofNat, List.take_length]
    rw [hlay]
    exact layoutOutcomes_getElem penv width height _ m i item hi
  · rw [hv, List.length_append, filterMap_id_length]
  · rw [hv, List.take_left]
  · rw [hv, h1]

/-- Witness of C24 in the sample world: the layout of four records, of which the second does not
resolve and the third cannot be instantiated, is restored into the remote session that holds the
views 2 and 3. -/
theorem layout_restore_skips_failures_witness :
    demoLayout.records[3]? = some ⟨"regs.so", "registers", ⟨0, 0, 1, 1⟩⟩ ∧
    layoutOutcomes demoPlugins 800 600 demoRemote demoLayout.records =
      [some 16, Option.none, Option.none, some 17] ∧
    (Session_setLayout demoPlugins demoRemote demoLayout 800 600).session.viewPlugins =
      [2, 3, 16, 17] ∧
    (layoutOutcomes demoPlugins 800 600 demoRemote demoLayout.records)[3]? =
      some (restoredView demoPlugins
        (Session_setLayout demoPlugins demoRemote (layoutOf (demoLayout.records.take 3))
          800 600).world ⟨"regs.so", "registers", ⟨0, 0, 1, 1⟩⟩) :=
  ⟨by decide, by decide, by decide,
    (layout_restore_skips_failures demoPlugins demoRemote demoLayout 800 600).2.1 3
      ⟨"regs.so", "registers", ⟨0, 0, 1, 1⟩⟩ (by decide)⟩

/-- C14 as stated fails.  In the world that accepts the first connection attempt only, the
session `Session_createRemote` returns is connected; a second `Session_startRemote` on it fails
to connect, and afterwards the connection of the session is still present (the old one) and
`Session_isConnected` returns 1. -/
theorem failed_restart_counterexample :
    (Session_createRemote connectOnceEnv true "localhost" 1340).session.connection =
      some 1340 ∧
    connectSucceeds connectOnceEnv
      (Session_createRemote connectOnceEnv true "localhost" 1340).world "localhost" 1341 =
        false ∧
    (Session_startRemote connectOnceEnv
      (Session_createRemote connectOnceEnv true "localhost" 1340)
      "localhost" 1341).session.connection = some 1340 ∧
    (Session_isConnected connectOnceEnv
      (Session_startRemote connectOnceEnv
        (Session_createRemote connectOnceEnv true "localhost" 1340) "localhost" 1341)).2 =
      true := by
  decide

/-- C14, amended.  `Session_startRemote` always returns the session with type `Session_Remote`.
When the connection attempt fails, the connection object it created is destroyed and not stored
and the connection field is what it was before the call: for a session that had no connection
it is absent and `Session_isConnected` returns 0 without asking any connection; for a session
that had a connection that one is still stored and `Session_isConnected` returns what
`RemoteConnection_isConnected` reports for it.  When the attempt succeeds, the new connection
object is stored and `Session_isConnected` returns what `RemoteConnection_isConnected` reports
for it.  `Session_createRemote` starts from a session without connection: after a failed
attempt its session has type `Session_Remote`, no connection, and `Session_isConnected` returns
0; after a successful one it holds the new connection. -/
theorem remote_start_outcome (env : Env W) (m : Sys W) (target : String) (port : Nat) :
    (Session_startRemote env m target port).session.type = SessionType.Session_Remote ∧
    (connectSucceeds env m.world target port = false →
      (Session_startRemote env m target port).session =
        { m.session with type := SessionType.Session_Remote } ∧
      (Session_startRemote env m target port).trace =
        m.trace ++ [Call.connCreate port,
          Call.connConnect (connectHandle env m.world port) target port,
          Call.connDestroy (connectHandle env m.world port)] ∧
      (Session_startRemote env m target port).session.connection = m.session.connection ∧
      (m.session.connection = Option.none →
        (Session_startRemote env m target port).session.connection = Option.none ∧
        Session_isConnected env (Session_startRemote env m target port) =
          (Session_startRemote env m target port, false)) ∧
      (∀ c, m.session.connection = some c →
        (Session_startRemote env m target port).session.connection = some c ∧
        (Session_isConnected env (Session_startRemote env m target port)).2 =
          (env.RemoteConnection_isConnected (Session_startRemote env m target port).world
            (some c)).2)) ∧
    (connectSucceeds env m.world target port = true →
      (Session_startRemote env m target port).session =
        { m.session with type := SessionType.Session_Remote
                         connection := some (connectHandle env m.world port) } ∧
      (Session_startRemote env m target port).trace =
        m.trace ++ [Call.connCreate port,
          Call.connConnect (connectHandle env m.world port) target port] ∧
      (Session_isConnected env (Session_startRemote env m target port)).2 =
        (env.RemoteConnection_isConnected (Session_startRemote env m target port).world
          (some (connectHandle env m.world port))).2) ∧
    (∀ world : W, connectSucceeds env world target port = false →
      (Session_createRemote env world target port).session.type = SessionType.Session_Remote ∧
      (Session_createRemote env world target port).session.connection = Option.none ∧
      (Session_isConnected env (Session_createRemote env world target port)).2 = false) ∧
    (∀ world : W, connectSucceeds env world target port = true →
      (Session_createRemote env world target port).session.type = SessionType.Session_Remote ∧
      (Session_createRemote env world target port).session.connection =
        some (connectHandle env world port)) := by
  have hfail : ∀ m : Sys W, connectSucceeds env m.world target port = false →
      (Session_startRemote env m target port).session =
        { m.session with type := SessionType.Session_Remote } ∧
      (Session_startRemote env m target port).trace =
        m.trace ++ [Call.connCreate port,
          Call.connConnect (connectHandle env m.world port) target port,
          Call.connDestroy (connectHandle env m.world port)] := by
    intro m h
    unfold connectSucceeds at h
    unfold Session_startRemote connectHandle
    simp [h]
  have hok : ∀ m : Sys W, connectSucceeds env m.world target port = true →
      (Session_startRemote env m target port).session =
        { m.session with type := SessionType.Session_Remote
                         connection := some (connectHandle env m.world port) } ∧
      (Session_startRemote env m target port).trace =
        m.trace ++ [Call.connCreate port,
          Call.connConnect (connectHandle env m.world port) target port] := by
    intro m h
    unfold connectSucceeds at h
    unfold Session_startRemote connectHandle
    simp [h]
  have hnone : ∀ m : Sys W, m.session.connection = Option.none →
      Session_isConnected env m = (m, false) := by
    intro m h
    unfold Session_isConnected
    rw [h]
  have hsome : ∀ (m : Sys W) (c : RemoteConnection), m.session.connection = some c →
      (Session_isConnected env m).2 = (env.RemoteConnection_isConnected m.world (some c)).2 := by
    intro m c h
    unfold Session_isConnected
    rw [h]
  refine ⟨?_, ?_, ?_, ?_, ?_⟩
  · unfold Session_startRemote
    simp only
    split_ifs <;> rfl
  · intro h
    obtain ⟨h1, h2⟩ := hfail m h
    have hc : (Session_startRemote env m target port).session.connection =
        m.session.connection := by rw [h1]
    refine ⟨h1, h2, hc, ?_, ?_⟩
    · intro hn
      exact ⟨hc.trans hn, hnone _ (hc.trans hn)⟩
    · intro c hs
      exact ⟨hc.trans hs, hsome _ c (hc.trans hs)⟩
  · intro h
    obtain ⟨h1, h2⟩ := hok m h
    refine ⟨h1, h2, hsome _ _ ?_⟩
    rw [h1]
  · intro world h
    obtain ⟨h1, -⟩ := hfail (createdSys world) h
    have hcr : Session_createRemote env world target port =
        Session_startRemote env (createdSys world) target port := rfl
    have hc : (Session_createRemote env world target port).session.connection = Option.none := by
      rw [hcr, h1]; rfl
    refine ⟨?_, hc, ?_⟩
    · rw [hcr, h1]
    · rw [hnone _ hc]
  · intro world h
    obtain ⟨h1, -⟩ := hok (createdSys world) h
    have hcr : Session_createRemote env world target port =
        Session_startRemote env (createdSys world) target port := rfl
    rw [hcr, h1]
    exact ⟨rfl, rfl⟩

/-- Witness of C14 as amended: a refused attempt on a session without connection, a refused
attempt on a connected session, which keeps its connection, and an accepted attempt. -/
theorem remote_start_outcome_witness :
    (connectSucceeds offlineEnv (freshSys ()).world "localhost" 1340 = false ∧
      (freshSys ()).session.connection = Option.none ∧
      (Session_startRemote offlineEnv (freshSys ()) "localhost" 1340).session.connection =
        Option.none ∧
      (Session_isConnected offlineEnv (Session_createRemote offlineEnv () "localhost" 1340)).2 =
        false) ∧
    (connectSucceeds connectOnceEnv
        (Session_createRemote connectOnceEnv true "localhost" 1340).world "localhost" 1341 =
        false ∧
      (Session_createRemote connectOnceEnv true "localhost" 1340).session.connection =
        some 1340 ∧
      (Session_startRemote connectOnceEnv
        (Session_createRemote connectOnceEnv true "localhost" 1340)
        "localhost" 1341).session.connection = some 1340) ∧
    (connectSucceeds demoEnv (freshSys ()).world "localhost" 1340 = true ∧
      (Session_startRemote demoEnv (freshSys ()) "localhost" 1340).session =
        { (freshSys ()).session with
          type := SessionType.Session_Remote
          connection := some (connectHandle demoEnv (freshSys ()).world 1340) }) :=
  ⟨⟨by decide, by decide,
      (((remote_start_outcome offlineEnv (freshSys ()) "localhost" 1340).2.1
        (by decide)).2.2.2.1 (by decide)).1,
      ((remote_start_outcome offlineEnv (freshSys ()) "localhost" 1340).2.2.2.1 ()
        (by decide)).2.2⟩,
    ⟨by decide, by decide,
      (((remote_start_outcome connectOnceEnv
        (Session_createRemote connectOnceEnv true "localhost" 1340) "localhost" 1341).2.1
        (by decide)).2.2.2.2 1340 (by decide)).1⟩,
    ⟨by decide,
      ((remote_start_outcome demoEnv (freshSys ()) "localhost" 1340).2.2.1
        (by decide)).1⟩⟩

/-- C18 does not hold of the code.  The session `Session_createLocal` returns has a backend
attached, but its type is `Session_Null`, since `Session_startLocal` never sets it, and this
stays so under the operations of a driver.  `Session_action` on such a session therefore does
not take the branch for `Session_Local`: it calls no backend update, leaves the session and its
run state as they are, and only asks `RemoteConnection_isConnected` about the absent
connection, sending the action word to it when the answer is yes. -/
theorem local_action_skips_backend (env : Env W) (world : W) (backend : Nat)
    (filename : String) (ops : List SessionOp) (a : PDAction) :
    (drivenLocal env world backend filename ops).session.type = SessionType.Session_Null ∧
    (drivenLocal env world backend filename ops).session.backend =
      some (startedBackend env world backend) ∧
    (drivenLocal env world backend filename ops).session.connection = Option.none ∧
    (callsSince (drivenLocal env world backend filename ops).trace
      (Session_action env (drivenLocal env world backend filename ops) a).trace).filterMap
        Call.backendAction = [] ∧
    (Session_action env (drivenLocal env world backend filename ops) a).session =
      (drivenLocal env world backend filename ops).session ∧
    (callsSince (drivenLocal env world backend filename ops).trace
        (Session_action env (drivenLocal env world backend filename ops) a).trace =
        [Call.isConnected Option.none] ∨
      callsSince (drivenLocal env world backend filename ops).trace
        (Session_action env (drivenLocal env world backend filename ops) a).trace =
        [Call.isConnected Option.none,
          Call.send Option.none [1 <<< 7, 0, (a >>> 8) &&& 0xff, (a >>> 0) &&& 0xff]]) := by
  obtain ⟨h1, h2, h3⟩ := Session_startLocal_transport env (createdSys world) backend filename
  obtain ⟨g1, g2, g3⟩ := driverOps_transport env ops
    (Session_createLocal env world backend filename)
  have hty : (drivenLocal env world backend filename ops).session.type =
      SessionType.Session_Null := g1.trans h1
  have hbe : (drivenLocal env world backend filename ops).session.backend =
      some (startedBackend env world backend) := g2.trans h2
  have hconn : (drivenLocal env world backend filename ops).session.connection =
      Option.none := g3.trans h3
  generalize drivenLocal env world backend filename ops = m at hty hbe hconn ⊢
  refine ⟨hty, hbe, hconn, ?_, ?_, ?_⟩
  · unfold Session_action
    rw [if_neg (by rw [hty]; decide), hconn]
    simp only
    split_ifs <;> simp [callsSince, Call.backendAction]
  · unfold Session_action
    rw [if_neg (by rw [hty]; decide)]
    simp only
    split_ifs <;> rfl
  · unfold Session_action
    rw [if_neg (by rw [hty]; decide), hconn]
    simp only
    split_ifs
    · right
      simp [callsSince, hconn]
    · left
      simp [callsSince]

/-! ## Readers pointed at a received payload -/

theorem quietTick_spec (env : Env W) (m : Sys W) (conn : RemoteConnection)
    (hconn : m.session.connection = some conn) (h : quietTick env m = true) :
    (env.RemoteConnection_pollRead m.world conn).2 = false ∨
      (env.RemoteConnection_recv (polledWorld env m conn) conn 4).2 = Option.none := by
  unfold quietTick at h
  rw [hconn] at h
  simp only [Bool.or_eq_true, Bool.not_eq_true', Option.isNone_iff_eq_none] at h
  exact h

/-- A quiet remote tick leaves the reader it found, reset. -/
theorem updateRemote_quiet_reader (env : Env W) (m : Sys W) (action : PDAction)
    (h : quietTick env m = true) :
    PDBinaryReader_reset (updateRemote env m action).session.reader =
      PDBinaryReader_reset m.session.reader := by
  cases hc : m.session.connection with
  | none => rw [updateRemote_stages, hc]
  | some conn =>
    rw [updateRemote_reader env m conn action hc,
      (remoteInbound_quiet env m conn (quietTick_spec env m conn hc h)).1, reset_reset]

theorem Session_update_reader (env : Env W) (m : Sys W) :
    (Session_update env m).session.reader = (sessionTick env m).session.reader := by
  obtain ⟨vps, rem, h, -⟩ := Session_update_frame env m
  rw [h]

theorem Session_action_remote (env : Env W) (m : Sys W) (a : PDAction)
    (hty : m.session.type = SessionType.Session_Remote) :
    (Session_action env m a).session = m.session := by
  unfold Session_action
  rw [if_neg (by rw [hty]; decide)]
  simp only
  split_ifs <;> rfl

theorem callBackendUpdate_reader (env : Env W) (m : Sys W) (b : PDBackendInstance)
    (a : PDAction) :
    PDBinaryReader_reset (callBackendUpdate env m b a).session.reader =
      PDBinaryReader_reset m.session.reader := by
  obtain ⟨⟨ty, w0, w1, t0, t1, rd, cur, prev, be, conn, vps, bps, st⟩, md, world, tr⟩ := m
  cases cur <;> simp [callBackendUpdate, Session.setWriter]

/-- An operation of a driver on a session of type `Session_Remote`, its update being a quiet
tick, leaves the reader pointed where it was. -/
theorem quietOp_reader (env : Env W) (m : Sys W) (op : SessionOp)
    (hty : m.session.type = SessionType.Session_Remote) (hd : op.isDriver = true)
    (hq : op = SessionOp.update → quietTick env m = true) :
    PDBinaryReader_reset (applyOp env m op).session.reader =
      PDBinaryReader_reset m.session.reader := by
  cases op with
  | update =>
    have ht : sessionTick env m = updateRemote env m env.PDAction_none := by
      unfold sessionTick
      rw [hty]
    simp only [applyOp]
    rw [Session_update_reader, ht]
    exact updateRemote_quiet_reader env m _ (hq rfl)
  | action a =>
    simp only [applyOp]
    rw [Session_action_remote env m a hty]
  | stepIn =>
    simp only [applyOp]
    unfold Session_stepIn
    split
    · exact callBackendUpdate_reader env m _ _
    · rw [if_pos hty, Session_action_remote env m _ hty]
  | stepOver =>
    simp only [applyOp]
    unfold Session_stepOver
    split
    · exact callBackendUpdate_reader env m _ _
    · rw [if_pos hty, Session_action_remote env m _ hty]
  | addViewPlugin p => rfl
  | removeViewPlugin p =>
    obtain ⟨vps, h⟩ := Session_removeViewPlugin_frame m p
    simp only [applyOp, h]
  | startLocal b f => cases hd
  | startRemote t p => cases hd
  | loadSourceFile f => cases hd
  | toggleBreakpointCurrentLine => cases hd

/-- A run of operations of a driver whose updates are all quiet ticks, on a session of type
`Session_Remote`: the transport stays and the reader stays pointed where it was. -/
theorem quietRun_keeps (env : Env W) (ops : List SessionOp) :
    ∀ m : Sys W, m.session.type = SessionType.Session_Remote → quietRun env m ops = true →
      SameTransport m.session (runOps env m ops).session ∧
      PDBinaryReader_reset (runOps env m ops).session.reader =
        PDBinaryReader_reset m.session.reader := by
  induction ops with
  | nil =>
    intro m _ _
    exact ⟨⟨rfl, rfl, rfl⟩, rfl⟩
  | cons op ops ih =>
    intro m hty h
    unfold quietRun at h
    simp only [Bool.and_eq_true, Bool.or_eq_true, Bool.not_eq_true', decide_eq_false_iff_not]
      at h
    obtain ⟨⟨hd, hq⟩, hrest⟩ := h
    have hq' : op = SessionOp.update → quietTick env m = true := by
      intro he
      rcases hq with hq | hq
      · exact absurd he hq
      · exact hq
    have ht := driverOp_transport env m op hd
    obtain ⟨i1, i2⟩ := ih (applyOp env m op) (ht.1.trans hty) hrest
    exact ⟨sameTransport_trans ht i1, i2.trans (quietOp_reader env m op hty hd hq')⟩

/-- An update of a session of type `Session_Remote` that receives a payload leaves the reader
pointed at the payload. -/
theorem Session_update_received (env : Env W) (m : Sys W) (conn : RemoteConnection) (cmd : Cmd)
    (hty : m.session.type = SessionType.Session_Remote)
    (hconn : m.session.connection = some conn)
    (hpoll : (env.RemoteConnection_pollRead m.world conn).2 = true)
    (hrecv : (env.RemoteConnection_recv (polledWorld env m conn) conn 4).2 = some cmd) :
    (Session_update env m).session.reader = payloadReader env m conn cmd ∧
    (Session_update env m).session.type = SessionType.Session_Remote ∧
    (Session_update env m).session.connection = some conn := by
  have ht : sessionTick env m = updateRemote env m env.PDAction_none := by
    unfold sessionTick
    rw [hty]
  obtain ⟨t1, -, t3⟩ := Session_update_transport env m
  refine ⟨?_, t1.trans hty, t3.trans hconn⟩
  rw [Session_update_reader, ht, updateRemote_reader env m conn _ hconn,
    (remoteInbound_received env m conn cmd hpoll hrecv).2]
  rfl

/-- C30. Quiet remote tick replays the last payload.  Take a session of type `Session_Remote`
with a connection whose update receives a payload, then any run of operations of a driver in
which every update is a quiet tick, so that this payload is the most recent one received, and
then a remote tick in which the poll reports nothing readable or the receive of the four byte
header fails.  In that tick no payload is asked for, and every registered view plugin is called
once and handed the reader over the payload received back then: same buffer, the size its
header gave, all the events of that stream pending from its start.  The reader the tick leaves
is that reader, so the next quiet tick replays the payload again. -/
theorem quiet_remote_replay (env : Env W) (m0 : Sys W) (conn : RemoteConnection) (cmd : Cmd)
    (ops : List SessionOp) (a : PDAction)
    (hty : m0.session.type = SessionType.Session_Remote)
    (hconn : m0.session.connection = some conn)
    (hpoll : (env.RemoteConnection_pollRead m0.world conn).2 = true)
    (hrecv : (env.RemoteConnection_recv (polledWorld env m0 conn) conn 4).2 = some cmd)
    (hrun : quietRun env (Session_update env m0) ops = true)
    (hquiet :
      (env.RemoteConnection_pollRead (runOps env (Session_update env m0) ops).world conn).2 =
        false ∨
      (env.RemoteConnection_recv
        (polledWorld env (runOps env (Session_update env m0) ops) conn) conn 4).2 =
        Option.none) :
    (runOps env (Session_update env m0) ops).session.connection = some conn ∧
    (callsSince (runOps env (Session_update env m0) ops).trace
      (updateRemote env (runOps env (Session_update env m0) ops) a).trace).filterMap
        Call.viewReader =
      List.replicate (runOps env (Session_update env m0) ops).session.viewPlugins.length
        (payloadReader env m0 conn cmd) ∧
    (callsSince (runOps env (Session_update env m0) ops).trace
      (updateRemote env (runOps env (Session_update env m0) ops) a).trace).filterMap
        Call.viewPlugin = (runOps env (Session_update env m0) ops).session.viewPlugins ∧
    (∀ c ∈ callsSince (runOps env (Session_update env m0) ops).trace
        (updateRemote env (runOps env (Session_update env m0) ops) a).trace,
      ∀ size, c ≠ Call.recvStream conn size) ∧
    (payloadReader env m0 conn cmd).data = receivedPayload env m0 conn cmd ∧
    (payloadReader env m0 conn cmd).size = castUInt (decodeTotalSize cmd) ∧
    (payloadReader env m0 conn cmd).stream =
      fitEvents env.eventSize (castUInt (decodeTotalSize cmd)) 4
        (receivedPayload env m0 conn cmd) ∧
    (payloadReader env m0 conn cmd).pending = (payloadReader env m0 conn cmd).stream ∧
    (payloadReader env m0 conn cmd).current = Option.none ∧
    (updateRemote env (runOps env (Session_update env m0) ops) a).session.reader =
      payloadReader env m0 conn cmd := by
  obtain ⟨u1, u2, u3⟩ := Session_update_received env m0 conn cmd hty hconn hpoll hrecv
  obtain ⟨k1, k2⟩ := quietRun_keeps env ops (Session_update env m0) u2 hrun
  have hc : (runOps env (Session_update env m0) ops).session.connection = some conn :=
    k1.2.2.trans u3
  have hreset : PDBinaryReader_reset (runOps env (Session_update env m0) ops).session.reader =
      payloadReader env m0 conn cmd := by
    rw [k2, u1]
    rfl
  generalize runOps env (Session_update env m0) ops = m at hquiet hc hreset ⊢
  obtain ⟨q1, q2⟩ := remoteInbound_quiet env m conn hquiet
  obtain ⟨pre, seg, h⟩ := updateRemote_calls env m conn a hc
  obtain ⟨c1, c2, c3, -, -, -⟩ := remoteTick_calls h
  have hpre : pre = [Call.pollRead conn] ∨ pre = [Call.pollRead conn, Call.recv conn 4] := by
    rcases q2 with e | e
    · exact Or.inl (List.append_cancel_left (h.inboundTrace.symm.trans e))
    · exact Or.inr (List.append_cancel_left (h.inboundTrace.symm.trans e))
  refine ⟨hc, ?_, by rw [c1]; exact c2, ?_, rfl, rfl, rfl, rfl, rfl, ?_⟩
  · rw [c1, c3, q1, hreset]
  · intro c hcm size hcs
    rw [c1, hcs] at hcm
    simp only [List.mem_append] at hcm
    rcases hcm with (hcm | hcm) | hcm
    · rcases hpre with e | e <;> rw [e] at hcm <;> simp at hcm
    · have hv : (Call.recvStream conn size).viewPlugin ∈ seg.map Call.viewPlugin :=
        List.mem_map_of_mem _ hcm
      rw [h.plugins] at hv
      simp [Call.viewPlugin] at hv
    · unfold transmitCalls at hcm
      split_ifs at hcm <;> simp at hcm
  · rw [updateRemote_reader env m conn a hc, q1, hreset]

/-- Witness of C30 in the world that has data to read once: the update of the connected remote
session receives the payload; an action, a quiet update and a step follow; the quiet tick after
them hands both view plugins the stream of that payload from its start. -/
theorem quiet_remote_replay_witness :
    demoPolled.session.type = SessionType.Session_Remote ∧
    demoPolled.session.connection = some 1340 ∧
    (pollOnceEnv.RemoteConnection_pollRead demoPolled.world 1340).2 = true ∧
    quietRun pollOnceEnv (Session_update pollOnceEnv demoPolled)
      [SessionOp.action 3, SessionOp.update, SessionOp.stepIn] = true ∧
    (callsSince
      (runOps pollOnceEnv (Session_update pollOnceEnv demoPolled)
        [SessionOp.action 3, SessionOp.update, SessionOp.stepIn]).trace
      (updateRemote pollOnceEnv
        (runOps pollOnceEnv (Session_update pollOnceEnv demoPolled)
          [SessionOp.action 3, SessionOp.update, SessionOp.stepIn]) 0).trace).filterMap
        Call.viewReader =
      List.replicate
        (runOps pollOnceEnv (Session_update pollOnceEnv demoPolled)
          [SessionOp.action 3, SessionOp.update, SessionOp.stepIn]).session.viewPlugins.length
        (payloadReader pollOnceEnv demoPolled 1340 ⟨0, 0, 0, 6⟩) ∧
    (runOps pollOnceEnv (Session_update pollOnceEnv demoPolled)
      [SessionOp.action 3, SessionOp.update, SessionOp.stepIn]).session.viewPlugins = [2, 4] ∧
    (payloadReader pollOnceEnv demoPolled 1340 ⟨0, 0, 0, 6⟩).pending =
      [setBreakpointEvent "main.c" 42,
        { type := PDEventType.setStatus, fields := [("state", PDValue.u32 1)] }] :=
  ⟨by decide, by decide, by decide, by decide,
    (quiet_remote_replay pollOnceEnv demoPolled 1340 ⟨0, 0, 0, 6⟩
      [SessionOp.action 3, SessionOp.update, SessionOp.stepIn] 0
      (by decide) (by decide) (by decide) (by decide) (by decide) (Or.inl (by decide))).2.1,
    by decide, by decide⟩

end ProDBG
